import Mathlib

/-!
rest-api: a verification model of the auth and todo workflows.

The Go packages under `internal/` are embedded as pure functions over an
explicit world state (the two relational tables and the mail log).

Conventions of the embedding:

* Go `uint` values are `Nat`; instants are `Nat` nanoseconds since the epoch.
* A Go `(T, error)` result is `Except Error T`; `errors.Is` is `Error.Is`.
* Behaviour of third-party libraries (golang-jwt, gin binding, bcrypt) that
  the repository only calls is taken as a parameter (`JWT`, `Hasher`,
  `Binder`); control flow that those libraries document (the order of checks
  in `ParseWithClaims`, the key types accepted by each signing method, the
  key preparation of HMAC, the soft-delete filter of gorm) is written out.
* Every store call is made on a healthy connection: connection failures are
  not modelled. The unique indexes are checked on every write; the sizes of
  the text columns and the foreign key of the todo table are checked when a
  row is created (`Create`, and `Save` of a row without an id). The timestamp
  precision of the database is not modelled.
* A call reads the clock once (`Ambient.now`).
-/

namespace RestApi

/-! ## Errors -/

/-- Go error values of the program: the sentinel errors of the services and of
the libraries, `errors.New` values, and `fmt.Errorf` wrappers built with the
`%w` verb. -/
inductive Error where
  | ErrUserExists
  | ErrEmailExists
  | ErrInvalidCredentials
  | ErrUserNotFound
  | ErrTodoNotFound
  | ErrUnauthorizedAccess
  | ErrInvalidStatus
  | ErrInvalidPriority
  | ErrRecordNotFound
  | ErrInvalidKeyType
  | ErrTokenMalformed
  | ErrTokenUnverifiable
  | ErrTokenSignatureInvalid
  | ErrTokenExpired
  | ErrTokenNotValidYet
  | new (msg : String)
  | wrap (msg : String) (inner : Error)
  deriving DecidableEq, Repr

/-- The text of `err.Error()`. -/
def Error.message : Error → String
  | .ErrUserExists => "username already exists"
  | .ErrEmailExists => "email already exists"
  | .ErrInvalidCredentials => "invalid username or password"
  | .ErrUserNotFound => "user not found"
  | .ErrTodoNotFound => "todo not found"
  | .ErrUnauthorizedAccess => "unauthorized access to todo"
  | .ErrInvalidStatus => "invalid status value"
  | .ErrInvalidPriority => "invalid priority value"
  | .ErrRecordNotFound => "record not found"
  | .ErrInvalidKeyType => "key is of invalid type"
  | .ErrTokenMalformed => "token is malformed"
  | .ErrTokenUnverifiable => "token is unverifiable"
  | .ErrTokenSignatureInvalid => "token signature is invalid"
  | .ErrTokenExpired => "token has invalid claims: token is expired"
  | .ErrTokenNotValidYet => "token has invalid claims: token is not valid yet"
  | .new msg => msg
  | .wrap msg inner => msg ++ ": " ++ inner.message

/-- The chain walk of `errors.Is(err, target)`. -/
def Error.Is : Error → Error → Bool
  | .wrap msg inner, target => decide (Error.wrap msg inner = target) || inner.Is target
  | err, target => decide (err = target)

/-! ## Time -/

/-- Instants and durations, in nanoseconds. -/
abbrev Time := Nat

/-- One second (`time.Second`). -/
def Second : Nat := 1000000000

/-- One hour (`time.Hour`). -/
def Hour : Nat := 3600 * Second

/-! ## internal/config -/

/-- The process environment: `os.Getenv`, which yields the empty string for
an unset variable. -/
abbrev Environ := String → String

/-- Configuration record of `config.Config`. -/
structure Config where
  DBHost : String
  DBPort : String
  DBUser : String
  DBPassword : String
  DBName : String
  JWTSecret : String
  ServerPort : String
  GinMode : String
  deriving DecidableEq, Repr

/-- Environment lookup with a default, `config.getEnv`. -/
def getEnv (environ : Environ) (key defaultValue : String) : String :=
  let value := environ key
  if value = "" then defaultValue else value

/-- Configuration as read on every call, `config.LoadConfig`. -/
def LoadConfig (environ : Environ) : Config :=
  { DBHost := getEnv environ "DB_HOST" "localhost"
    DBPort := getEnv environ "DB_PORT" "5432"
    DBUser := getEnv environ "DB_USER" "postgres"
    DBPassword := getEnv environ "DB_PASSWORD" "postgres"
    DBName := getEnv environ "DB_NAME" "todolist_db"
    JWTSecret := getEnv environ "JWT_SECRET" "your_super_secret_key"
    ServerPort := getEnv environ "SERVER_PORT" "8080"
    GinMode := getEnv environ "GIN_MODE" "debug" }

/-! ## internal/utils/jwt.go and the golang-jwt calls it makes -/

/-- Signing methods registered by golang-jwt v5. -/
inductive SigningMethod where
  | HS256 | HS384 | HS512
  | RS256 | RS384 | RS512
  | PS256 | PS384 | PS512
  | ES256 | ES384 | ES512
  | EdDSA
  | None
  deriving DecidableEq, Repr

/-- The type assertion `method.(*jwt.SigningMethodHMAC)`. -/
def SigningMethod.isHMAC : SigningMethod → Bool
  | .HS256 | .HS384 | .HS512 => true
  | _ => false

/-- Claims carried by a bearer token, `utils.Claims`: the two custom claims and
the registered time claims (numeric dates, whole seconds). -/
structure Claims where
  UserID : Nat
  Username : String
  ExpiresAt : Option Time
  NotBefore : Option Time
  IssuedAt : Option Time
  deriving DecidableEq, Repr

/-- A token string split and decoded by `Parser.ParseUnverified`: the method
named by the `alg` header (absent when no such method is registered), the
claims, the signed text (first two segments) and the decoded signature. -/
structure ParsedToken where
  Method : Option SigningMethod
  Claims : Claims
  SigningString : String
  Signature : String
  deriving DecidableEq, Repr

/-- The golang-jwt primitives the program relies on: the hash construction of
the HMAC methods on a prepared key block (`mac`), the hash that shortens a key
longer than a block (`hashKey`), the serialisation of header and claims, the
assembly of the compact form, and its decoding (`none` for a malformed
string). -/
structure JWT where
  mac : SigningMethod → List Nat → String → String
  hashKey : SigningMethod → List Nat → List Nat
  signingString : SigningMethod → Claims → String
  compact : String → String → String
  parseUnverified : String → Option ParsedToken

/-- Block size, in bytes, of the hash of an HMAC method: 64 for SHA-256, 128 for
SHA-384 and SHA-512. -/
def SigningMethod.blockSize : SigningMethod → Nat
  | .HS256 => 64
  | .HS384 | .HS512 => 128
  | _ => 0

/-- The bytes of a secret, `[]byte(secret)`: its UTF-8 encoding. -/
def keyBytes (key : String) : List Nat :=
  key.toList.flatMap (fun c => (String.utf8EncodeChar c).map UInt8.toNat)

/-- Key preparation of HMAC (RFC 2104, `hmac.New`): a key longer than a block is
replaced by its hash, and the key is then padded with zero bytes up to the
block size. -/
def hmacKey (J : JWT) (method : SigningMethod) (key : String) : List Nat :=
  let k := if (keyBytes key).length > method.blockSize then J.hashKey method (keyBytes key)
    else keyBytes key
  k ++ List.replicate (method.blockSize - k.length) 0

/-- The keyed MAC of the HMAC methods: the hash construction applied to the
prepared key block and the message. -/
def JWT.hmac (J : JWT) (method : SigningMethod) (key message : String) : String :=
  J.mac method (hmacKey J method key) message

/-- Truncation to whole seconds, `jwt.NewNumericDate`. -/
def NewNumericDate (t : Time) : Time := t / Second * Second

/-- Signature creation, `SigningMethod.Sign`, for a key of Go type `[]byte` (the only
kind of key this program passes): the HMAC methods accept it, every asymmetric
method rejects it as a key of invalid type, and `none` rejects every key but
its own marker constant. -/
def Sign (J : JWT) (method : SigningMethod) (signingString key : String) :
    Except Error String :=
  match method with
  | .HS256 | .HS384 | .HS512 => .ok (J.hmac method key signingString)
  | .None => .error (.new "none signature type is not allowed")
  | _ => .error .ErrInvalidKeyType

/-- Signature check, `SigningMethod.Verify`, for a key of Go type `[]byte`. -/
def Verify (J : JWT) (method : SigningMethod) (signingString signature key : String) :
    Except Error Unit :=
  match method with
  | .HS256 | .HS384 | .HS512 =>
    if signature = J.hmac method key signingString then .ok ()
    else .error .ErrTokenSignatureInvalid
  | .None => .error (.new "none signature type is not allowed")
  | _ => .error .ErrInvalidKeyType

/-- Serialisation and signature of a token, `Token.SignedString`. -/
def SignedString (J : JWT) (method : SigningMethod) (claims : Claims) (key : String) :
    Except Error String :=
  let sstr := J.signingString method claims
  match Sign J method sstr key with
  | .error err => .error err
  | .ok sig => .ok (J.compact sstr sig)

/-- Time checks of the default validator on registered claims: expiry and
not-before are checked when present, issued-at is not. -/
def validateClaims (now : Time) (claims : Claims) : Except Error Unit :=
  match claims.ExpiresAt with
  | some exp => if now < exp then validateNbf else .error .ErrTokenExpired
  | none => validateNbf
where
  /-- The not-before check. -/
  validateNbf : Except Error Unit :=
    match claims.NotBefore with
    | some nbf => if now < nbf then .error .ErrTokenNotValidYet else .ok ()
    | none => .ok ()

/-- Parsing and verification, `jwt.ParseWithClaims`: decode, resolve the method, ask the key
function for the key, verify the signature, validate the claims. The result
carries the claims and the `Valid` flag of the token. -/
def ParseWithClaims (J : JWT) (now : Time) (tokenString : String)
    (keyFunc : SigningMethod → Except Error String) : Except Error (Claims × Bool) :=
  match J.parseUnverified tokenString with
  | none => .error .ErrTokenMalformed
  | some token =>
    match token.Method with
    | none => .error .ErrTokenUnverifiable
    | some method =>
      match keyFunc method with
      | .error _ => .error .ErrTokenUnverifiable
      | .ok key =>
        match Verify J method token.SigningString token.Signature key with
        | .error _ => .error .ErrTokenSignatureInvalid
        | .ok _ =>
          match validateClaims now token.Claims with
          | .error err => .error err
          | .ok _ => .ok (token.Claims, true)

/-- Token issuance, `utils.GenerateToken`. -/
def GenerateToken (J : JWT) (environ : Environ) (now : Time) (UserID : Nat)
    (username : String) : Except Error String :=
  let expTime := now + 24 * Hour
  let claims : Claims :=
    { UserID := UserID
      Username := username
      ExpiresAt := some (NewNumericDate expTime)
      NotBefore := none
      IssuedAt := some (NewNumericDate now) }
  let cfg := LoadConfig environ
  match SignedString J .ES256 claims cfg.JWTSecret with
  | .error err => .error err
  | .ok tokenString => .ok tokenString

/-- Token validation, `utils.ValidateToken`. -/
def ValidateToken (J : JWT) (environ : Environ) (now : Time) (tokenString : String) :
    Except Error Claims :=
  let cfg := LoadConfig environ
  match ParseWithClaims J now tokenString (fun method =>
      if !method.isHMAC then .error (.new "invalid signing method")
      else .ok cfg.JWTSecret) with
  | .error err => .error err
  | .ok (claims, valid) =>
    if !valid then .error (.new "invalid Token") else .ok claims

/-! ## internal/model -/

/-- Row of table `users`, `model.User` (the `Todos` association is not a column). -/
structure User where
  ID : Nat
  Username : String
  Email : String
  Password : String
  Fullname : String
  ResetPasswordToken : String
  ResetPasswordExpiry : Option Time
  CreatedAt : Time
  UpdatedAt : Time
  DeletedaT : Option Time
  deriving DecidableEq, Repr

/-- Calendar date, the value `time.Parse` yields for the layout `2006-01-02`
(midnight UTC of that day). -/
structure Date where
  year : Nat
  month : Nat
  day : Nat
  deriving DecidableEq, Repr

/-- Row of table `todos`, `model.Todo` (the `User` association is not a column). -/
structure Todo where
  ID : Nat
  Title : String
  Description : String
  Status : String
  Priority : String
  DueDate : Option Date
  UserID : Nat
  CreatedAt : Time
  UpdatedAt : Time
  DeletedAt : Option Time
  deriving DecidableEq, Repr

/-- State of the running system: the two tables, tombstoned rows included, and
the reset mails handed to the mailer (recipient, link). -/
structure World where
  users : List User
  todos : List Todo
  outbox : List (String × String)
  deriving DecidableEq, Repr

/-- The inputs a call reads from its surroundings: the clock, the salt drawn by
the credential hasher, the bytes delivered by `crypto/rand`, and whether the
database handle and its ping answer. -/
structure Ambient where
  now : Time
  salt : Nat
  entropy : Nat → Nat
  dbHandle : Bool
  dbPing : Bool

/-! ## gorm: the queries the repositories issue -/

/-- Row with the least primary key among the given rows (`ORDER BY id LIMIT 1`). -/
def minByID {α : Type} (ID : α → Nat) : List α → Option α
  | [] => none
  | x :: xs =>
    match minByID ID xs with
    | none => some x
    | some y => if ID x ≤ ID y then some x else some y

/-- The query `First`: the matching row of least primary key, or `ErrRecordNotFound`. -/
def First {α : Type} (ID : α → Nat) (rows : List α) (cond : α → Bool) : Except Error α :=
  match minByID ID (rows.filter cond) with
  | none => .error .ErrRecordNotFound
  | some row => .ok row

/-- The next value of an auto-increment primary key. -/
def nextID (ids : List Nat) : Nat := ids.foldr max 0 + 1

/-- The driver error of a violated unique index. -/
def uniqueViolation : Error := .new "duplicate key value violates unique constraint"

/-- The driver error of a text that does not fit its column. -/
def valueTooLong (n : Nat) : Error :=
  .new ("value too long for type character varying(" ++ toString n ++ ")")

/-- The driver error of a violated foreign key. -/
def foreignKeyViolation : Error :=
  .new "insert or update on table todos violates foreign key constraint fk_users_todos"

/-- Assignment of a text to a column of type `varchar(n)`: a text of at most `n`
characters is stored as it is; a longer one is refused, unless its excess
characters are all spaces, in which case it is cut to `n` characters. -/
def varchar (n : Nat) (s : String) : Except Error String :=
  if s.length ≤ n then .ok s
  else if (s.toList.drop n).all (fun c => c == ' ') then .ok (String.mk (s.toList.take n))
  else .error (valueTooLong n)

/-- Soft-delete filter on users (`deleted_at IS NULL`). -/
def User.live (u : User) : Bool := u.DeletedaT.isNone

/-- Soft-delete filter on todos (`deleted_at IS NULL`). -/
def Todo.live (t : Todo) : Bool := t.DeletedAt.isNone

/-! ## internal/repository/user_repository.go -/

/-- The texts of a user row as table `users` takes them: username and email in
`varchar(50)`, full name in `varchar(100)`, reset token in `varchar(255)`. -/
def User.fit (user : User) : Except Error User :=
  match varchar 50 user.Username with
  | .error err => .error err
  | .ok username =>
    match varchar 50 user.Email with
    | .error err => .error err
    | .ok email =>
      match varchar 100 user.Fullname with
      | .error err => .error err
      | .ok fullname =>
        match varchar 255 user.ResetPasswordToken with
        | .error err => .error err
        | .ok token =>
          .ok { user with Username := username, Email := email, Fullname := fullname
                          ResetPasswordToken := token }

/-- Insert of a user: the texts must fit their columns, and the unique indexes
on username and email cover every row of the table. The caller's copy gets the
fresh id and the timestamps; the row is stored with its texts as the columns
took them. -/
def UserRepository.Create (now : Time) (w : World) (user : User) :
    Except Error User × World :=
  let created : User :=
    { user with ID := nextID (w.users.map User.ID), CreatedAt := now, UpdatedAt := now }
  match created.fit with
  | .error err => (.error err, w)
  | .ok row =>
    if w.users.any (fun u => u.Username == row.Username || u.Email == row.Email) then
      (.error uniqueViolation, w)
    else (.ok created, { w with users := w.users ++ [row] })

/-- Lookup by primary key; absence is `nil, nil`. -/
def UserRepository.FindByID (w : World) (id : Nat) : Except Error (Option User) :=
  match First User.ID w.users (fun u => u.live && u.ID == id) with
  | .error err =>
    if err.Is .ErrRecordNotFound then .ok none else .error err
  | .ok user => .ok (some user)

/-- Lookup by username; absence is `nil, nil`. -/
def UserRepository.FindByUsername (w : World) (username : String) :
    Except Error (Option User) :=
  match First User.ID w.users (fun u => u.live && u.Username == username) with
  | .error err =>
    if err.Is .ErrRecordNotFound then .ok none else .error err
  | .ok user => .ok (some user)

/-- Lookup by email; absence is `nil, nil`. -/
def UserRepository.FindByEmail (w : World) (email : String) : Except Error (Option User) :=
  match First User.ID w.users (fun u => u.live && u.Email == email) with
  | .error err =>
    if err.Is .ErrRecordNotFound then .ok none else .error err
  | .ok user => .ok (some user)

/-- The query `Save` on a user: an insert when the primary key is zero, else an update of
every column of the live row with that key (stamping `updated_at`), else an
upsert on the primary key. -/
def UserRepository.Update (now : Time) (w : World) (user : User) :
    Except Error User × World :=
  if user.ID = 0 then UserRepository.Create now w user
  else if w.users.any (fun u =>
      u.ID != user.ID && (u.Username == user.Username || u.Email == user.Email)) then
    (.error uniqueViolation, w)
  else
    let saved : User := { user with UpdatedAt := now }
    if w.users.any (fun u => u.live && u.ID == user.ID) then
      (.ok saved,
        { w with users := w.users.map (fun u => if u.live && u.ID == user.ID then saved else u) })
    else if w.users.any (fun u => u.ID == user.ID) then
      (.ok saved,
        { w with users := w.users.map (fun u => if u.ID == user.ID then saved else u) })
    else
      (.ok saved, { w with users := w.users ++ [saved] })

/-- Soft delete of a user: the live row with that key gets its tombstone. -/
def UserRepository.Delete (now : Time) (w : World) (id : Nat) : Except Error Unit × World :=
  (.ok (),
    { w with users := w.users.map (fun u =>
        if u.live && u.ID == id then { u with DeletedaT := some now } else u) })

/-- Whether a live row has the username (`COUNT(*) > 0`). -/
def UserRepository.ExistsByUsername (w : World) (username : String) : Except Error Bool :=
  let count := (w.users.filter (fun u => u.live && u.Username == username)).length
  .ok (decide (count > 0))

/-- Whether a live row has the email (`COUNT(*) > 0`). -/
def UserRepository.ExistsByEmail (w : World) (email : String) : Except Error Bool :=
  let count := (w.users.filter (fun u => u.live && u.Email == email)).length
  .ok (decide (count > 0))

/-- Lookup by reset token; absence is `nil, nil`. -/
def UserRepository.FindByResetToken (w : World) (token : String) :
    Except Error (Option User) :=
  match First User.ID w.users (fun u => u.live && u.ResetPasswordToken == token) with
  | .error err =>
    if err.Is .ErrRecordNotFound then .ok none else .error err
  | .ok user => .ok (some user)

/-- The query `Updates` of the two reset columns on the live row with that key. -/
def UserRepository.SaveResetToken (now : Time) (w : World) (userID : Nat) (token : String)
    (expiry : Option Time) : Except Error Unit × World :=
  (.ok (),
    { w with users := w.users.map (fun u =>
        if u.live && u.ID == userID then
          { u with ResetPasswordToken := token, ResetPasswordExpiry := expiry, UpdatedAt := now }
        else u) })

/-! ## internal/repository/todo_repository.go -/

/-- The texts of a todo row as table `todos` takes them: title in
`varchar(200)`, status in `varchar(20)`, priority in `varchar(10)`. -/
def Todo.fit (todo : Todo) : Except Error Todo :=
  match varchar 200 todo.Title with
  | .error err => .error err
  | .ok title =>
    match varchar 20 todo.Status with
    | .error err => .error err
    | .ok status =>
      match varchar 10 todo.Priority with
      | .error err => .error err
      | .ok priority => .ok { todo with Title := title, Status := status, Priority := priority }

/-- Insert of a todo: fresh id, timestamps, and the column defaults for an
empty status or priority. The texts must fit their columns and the owner id
must be the id of a row of table `users` (the foreign key covers tombstoned
rows too). The caller's copy keeps its texts; the row is stored with its texts
as the columns took them. -/
def TodoRepository.Create (now : Time) (w : World) (todo : Todo) :
    Except Error Todo × World :=
  let created : Todo :=
    { todo with
      ID := nextID (w.todos.map Todo.ID)
      Status := if todo.Status = "" then "pending" else todo.Status
      Priority := if todo.Priority = "" then "medium" else todo.Priority
      CreatedAt := now
      UpdatedAt := now }
  match created.fit with
  | .error err => (.error err, w)
  | .ok row =>
    if !w.users.any (fun u => u.ID == todo.UserID) then (.error foreignKeyViolation, w)
    else (.ok created, { w with todos := w.todos ++ [row] })

/-- Lookup by primary key; absence is the error `ErrRecordNotFound`. -/
def TodoRepository.FindByID (w : World) (id : Nat) : Except Error Todo :=
  match First Todo.ID w.todos (fun t => t.live && t.ID == id) with
  | .error err => .error err
  | .ok todo => .ok todo

/-- Ordering `created_at DESC`. -/
def newestFirst (todos : List Todo) : List Todo :=
  todos.insertionSort (fun a b => b.CreatedAt ≤ a.CreatedAt)

/-- All live todos of a user, newest first. -/
def TodoRepository.FindByUserID (w : World) (userID : Nat) : Except Error (List Todo) :=
  .ok (newestFirst (w.todos.filter (fun t => t.live && t.UserID == userID)))

/-- Live todos of a user that match the non-empty filters, newest first. -/
def TodoRepository.FindByUserIDWithFilters (w : World) (userID : Nat)
    (status priority : String) : Except Error (List Todo) :=
  let query := fun (t : Todo) => t.live && t.UserID == userID
  let query := fun (t : Todo) => if status ≠ "" then query t && t.Status == status else query t
  let query := fun (t : Todo) =>
    if priority ≠ "" then query t && t.Priority == priority else query t
  .ok (newestFirst (w.todos.filter query))

/-- The query `Save` on a todo: an insert when the primary key is zero, else an update of
every column of the live row with that key (stamping `updated_at`), else an
upsert on the primary key. -/
def TodoRepository.Update (now : Time) (w : World) (todo : Todo) :
    Except Error Todo × World :=
  if todo.ID = 0 then TodoRepository.Create now w todo
  else
    let saved : Todo := { todo with UpdatedAt := now }
    if w.todos.any (fun t => t.live && t.ID == todo.ID) then
      (.ok saved,
        { w with todos := w.todos.map (fun t => if t.live && t.ID == todo.ID then saved else t) })
    else if w.todos.any (fun t => t.ID == todo.ID) then
      (.ok saved,
        { w with todos := w.todos.map (fun t => if t.ID == todo.ID then saved else t) })
    else
      (.ok saved, { w with todos := w.todos ++ [saved] })

/-- Soft delete of a todo: the live row with that key gets its tombstone. -/
def TodoRepository.Delete (now : Time) (w : World) (id : Nat) : Except Error Unit × World :=
  (.ok (),
    { w with todos := w.todos.map (fun t =>
        if t.live && t.ID == id then { t with DeletedAt := some now } else t) })

/-- Whether a live todo has the key. -/
def TodoRepository.ExistsByID (w : World) (id : Nat) : Except Error Bool :=
  let count := (w.todos.filter (fun t => t.live && t.ID == id)).length
  .ok (decide (count > 0))

/-- Whether a live todo with the key belongs to the user. -/
def TodoRepository.IsOwnedByUser (w : World) (todoID userID : Nat) : Except Error Bool :=
  let count := (w.todos.filter (fun t => t.live && t.ID == todoID && t.UserID == userID)).length
  .ok (decide (count > 0))

/-! ## internal/dto -/

/-- Body of a registration, `dto.RegisterRequest`. -/
structure RegisterRequest where
  Username : String
  Email : String
  Password : String
  FullName : String
  deriving DecidableEq, Repr

/-- Body of a login, `dto.LoginRequest`. -/
structure LoginRequest where
  Username : String
  Password : String
  deriving DecidableEq, Repr

/-- Body of a reset request, `dto.ResetPasswordRequest`. -/
structure ResetPasswordRequest where
  Email : String
  deriving DecidableEq, Repr

/-- Body of a reset confirmation, `dto.ResetPasswordConfirmRequest`. -/
structure ResetPasswordConfirmRequest where
  Token : String
  NewPassword : String
  deriving DecidableEq, Repr

/-- Body of a profile update, `dto.UserUpdateRequest`. -/
structure UserUpdateRequest where
  Email : String
  FullName : String
  deriving DecidableEq, Repr

/-- Account as shown to callers, `dto.UserResponse`. -/
structure UserResponse where
  ID : Nat
  Username : String
  Email : String
  FullName : String
  CreatedAt : Time
  UpdatedAt : Time
  deriving DecidableEq, Repr

/-- Result of a login, `dto.LoginResponse`. -/
structure LoginResponse where
  Token : String
  User : UserResponse
  deriving DecidableEq, Repr

/-- Body of a todo creation, `dto.CreateTodoRequest`. -/
structure CreateTodoRequest where
  Title : String
  Description : String
  Status : String
  Priority : String
  DueDate : String
  deriving DecidableEq, Repr

/-- Body of a todo update, `dto.UpdateTodoRequest`: every field is a nullable pointer. -/
structure UpdateTodoRequest where
  Title : Option String
  Description : Option String
  Status : Option String
  Priority : Option String
  DueDate : Option String
  deriving DecidableEq, Repr

/-- Todo as shown to callers, `dto.TodoResponse`. -/
structure TodoResponse where
  ID : Nat
  Title : String
  Description : String
  Status : String
  Priority : String
  DueDate : Option Date
  UserID : Nat
  CreatedAt : Time
  UpdatedAt : Time
  deriving DecidableEq, Repr

/-! ## Library calls of the services -/

/-- Modelled from the spec: the credential hasher of `internal/utils`
(`HashPassword`, `CheckPassword`), whose source file is not part of the
sources at hand. `HashPassword` is a salted one-way hash that fails only on a
library error; `CheckPassword` recomputes and compares and never fails. The
salt is the randomness of one call. -/
structure Hasher where
  HashPassword : Nat → String → Except Error String
  CheckPassword : String → String → Bool

/-- Decimal digit test on a byte of text. -/
def isDigit (c : Char) : Bool := decide (48 ≤ c.toNat) && decide (c.toNat ≤ 57)

/-- Value of a decimal digit. -/
def digitVal (c : Char) : Nat := c.toNat - 48

/-- Leap years of the Gregorian calendar. -/
def isLeap (year : Nat) : Bool :=
  year % 4 == 0 && (year % 100 != 0 || year % 400 == 0)

/-- Number of days of a month. -/
def daysIn (month year : Nat) : Nat :=
  if month = 2 then (if isLeap year then 29 else 28)
  else if month = 4 || month = 6 || month = 9 || month = 11 then 30
  else 31

/-- Date parsing, `time.Parse("2006-01-02", value)`: four digits, a dash, two digits, a dash,
two digits and nothing more, with the month in 1..12 and the day within the
month. -/
def parseDate (value : String) : Except Error Date :=
  match value.toList with
  | [y1, y2, y3, y4, s1, m1, m2, s2, d1, d2] =>
    if isDigit y1 && isDigit y2 && isDigit y3 && isDigit y4 && s1 == '-'
        && isDigit m1 && isDigit m2 && s2 == '-' && isDigit d1 && isDigit d2 then
      let year := digitVal y1 * 1000 + digitVal y2 * 100 + digitVal y3 * 10 + digitVal y4
      let month := digitVal m1 * 10 + digitVal m2
      let day := digitVal d1 * 10 + digitVal d2
      if month = 0 || 12 < month then .error (.new "parsing time: month out of range")
      else if day < 1 || day > daysIn month year then
        .error (.new "parsing time: day out of range")
      else .ok { year := year, month := month, day := day }
    else .error (.new "parsing time: cannot parse")
  | _ => .error (.new "parsing time: cannot parse")

/-- Alphabet of the URL-safe base64 encoding. -/
def base64URLAlphabet : List Char :=
  "ABCDEFGHIJKLMNOPQRSTUVWXYZabcdefghijklmnopqrstuvwxyz0123456789-_".toList

/-- Character of a six-bit value. -/
def base64URLChar (n : Nat) : Char := base64URLAlphabet.getD (n % 64) 'A'

/-- Unpadded URL-safe base64 of a byte list, `base64.RawURLEncoding.EncodeToString`. -/
def rawURLEncode : List Nat → List Char
  | a :: b :: c :: rest =>
    base64URLChar (a / 4) :: base64URLChar (a % 4 * 16 + b / 16)
      :: base64URLChar (b % 16 * 4 + c / 64) :: base64URLChar (c % 64) :: rawURLEncode rest
  | [a, b] =>
    [base64URLChar (a / 4), base64URLChar (a % 4 * 16 + b / 16), base64URLChar (b % 16 * 4)]
  | [a] => [base64URLChar (a / 4), base64URLChar (a % 4 * 16)]
  | [] => []

/-- The 32 bytes read from `crypto/rand`. -/
def randomBytes (amb : Ambient) : List Nat :=
  (List.range 32).map (fun i => amb.entropy i % 256)

/-- The mailer stub, `utils.SendResetEmail`: hands the link over and reports success. -/
def SendResetEmail (w : World) (toEmail resetLink : String) : Except Error Unit × World :=
  (.ok (), { w with outbox := w.outbox ++ [(toEmail, resetLink)] })

/-! ## internal/service/auth_service.go -/

/-- Conversion to the response shape, `AuthService.toUserResponse`. -/
def AuthService.toUserResponse (user : User) : UserResponse :=
  { ID := user.ID
    Username := user.Username
    Email := user.Email
    FullName := user.Fullname
    CreatedAt := user.CreatedAt
    UpdatedAt := user.UpdatedAt }

/-- Registration, `AuthService.Register`. -/
def AuthService.Register (H : Hasher) (amb : Ambient) (w : World) (req : RegisterRequest) :
    Except Error UserResponse × World :=
  match UserRepository.ExistsByUsername w req.Username with
  | .error err => (.error (.wrap "failed to check username" err), w)
  | .ok existsUsername =>
    if existsUsername then (.error .ErrUserExists, w)
    else
      match UserRepository.ExistsByEmail w req.Email with
      | .error err => (.error (.wrap "failed to check email" err), w)
      | .ok existsEmail =>
        if existsEmail then (.error .ErrEmailExists, w)
        else
          match H.HashPassword amb.salt req.Password with
          | .error err => (.error (.wrap "failed to hash password" err), w)
          | .ok hashedPassword =>
            let user : User :=
              { ID := 0
                Username := req.Username
                Email := req.Email
                Password := hashedPassword
                Fullname := req.FullName
                ResetPasswordToken := ""
                ResetPasswordExpiry := none
                CreatedAt := 0
                UpdatedAt := 0
                DeletedaT := none }
            match UserRepository.Create amb.now w user with
            | (.error err, w1) => (.error (.wrap "failed to create user" err), w1)
            | (.ok created, w1) => (.ok (AuthService.toUserResponse created), w1)

/-- Authentication, `AuthService.Login`. -/
def AuthService.Login (J : JWT) (H : Hasher) (environ : Environ) (amb : Ambient) (w : World)
    (req : LoginRequest) : Except Error LoginResponse :=
  match UserRepository.FindByUsername w req.Username with
  | .error err => .error (.wrap "failed to find user" err)
  | .ok none => .error .ErrInvalidCredentials
  | .ok (some user) =>
    if !H.CheckPassword req.Password user.Password then .error .ErrInvalidCredentials
    else
      match GenerateToken J environ amb.now user.ID user.Username with
      | .error err => .error (.wrap "failed to generate token" err)
      | .ok token => .ok { Token := token, User := AuthService.toUserResponse user }

/-- Profile read, `AuthService.GetProfile`. -/
def AuthService.GetProfile (w : World) (userID : Nat) : Except Error UserResponse :=
  match UserRepository.FindByID w userID with
  | .error err => .error (.wrap "failed to find user" err)
  | .ok none => .error .ErrUserNotFound
  | .ok (some user) => .ok (AuthService.toUserResponse user)

/-- Profile update, `AuthService.UpdateProfile`. -/
def AuthService.UpdateProfile (amb : Ambient) (w : World) (userID : Nat)
    (req : UserUpdateRequest) : Except Error UserResponse × World :=
  match UserRepository.FindByID w userID with
  | .error err => (.error (.wrap "failed to find user" err), w)
  | .ok none => (.error .ErrUserNotFound, w)
  | .ok (some user) =>
    let checked : Except Error User :=
      if req.Email ≠ "" && req.Email ≠ user.Email then
        match UserRepository.FindByEmail w req.Email with
        | .error err => .error (.wrap "failed to check email" err)
        | .ok existingUser =>
          match existingUser with
          | some existing =>
            if existing.ID ≠ userID then .error .ErrUserExists
            else .ok { user with Email := req.Email }
          | none => .ok { user with Email := req.Email }
      else .ok user
    match checked with
    | .error err => (.error err, w)
    | .ok user =>
      let user := if req.FullName ≠ "" then { user with Fullname := req.FullName } else user
      match UserRepository.Update amb.now w user with
      | (.error err, w1) => (.error (.wrap "failed to update user" err), w1)
      | (.ok saved, w1) => (.ok (AuthService.toUserResponse saved), w1)

/-- Start of a password reset, `AuthService.RequestPasswordReset`. -/
def AuthService.RequestPasswordReset (amb : Ambient) (w : World) (email serverPort : String) :
    Except Error Unit × World :=
  match UserRepository.FindByEmail w email with
  | .error err => (.error (.wrap "failed to lookup user" err), w)
  | .ok none => (.error .ErrUserNotFound, w)
  | .ok (some user) =>
    let b := randomBytes amb
    let token := String.mk (rawURLEncode b)
    let expiry := amb.now + 1 * Hour
    match UserRepository.SaveResetToken amb.now w user.ID token (some expiry) with
    | (.error err, w1) => (.error (.wrap "failed to save reset token" err), w1)
    | (.ok _, w1) =>
      let resetLink := "http://localhost:" ++ serverPort
        ++ "/api/v1/auth/reset-password/confirm?token=" ++ token
      match SendResetEmail w1 user.Email resetLink with
      | (.error err, w2) => (.error (.wrap "failed to send reset email" err), w2)
      | (.ok _, w2) => (.ok (), w2)

/-- Completion of a password reset, `AuthService.ResetPassword`. -/
def AuthService.ResetPassword (H : Hasher) (amb : Ambient) (w : World)
    (token newPassword : String) : Except Error Unit × World :=
  match UserRepository.FindByResetToken w token with
  | .error err => (.error (.wrap "failed to lookup token" err), w)
  | .ok none => (.error .ErrUserNotFound, w)
  | .ok (some user) =>
    if user.ResetPasswordExpiry.isNone
        || (match user.ResetPasswordExpiry with
            | some expiry => decide (expiry < amb.now)
            | none => false) then
      (.error (.new "reset token expired or invalid"), w)
    else
      match H.HashPassword amb.salt newPassword with
      | .error err => (.error (.wrap "failed to hash password" err), w)
      | .ok hashed =>
        let user : User :=
          { user with Password := hashed, ResetPasswordToken := "", ResetPasswordExpiry := none }
        match UserRepository.Update amb.now w user with
        | (.error err, w1) => (.error (.wrap "failed to update user password" err), w1)
        | (.ok _, w1) => (.ok (), w1)

/-! ## internal/service/todo_service.go -/

/-- Membership in the status enumeration, `isValidStatus`. -/
def isValidStatus (status : String) : Bool :=
  status == "pending" || status == "in_progress" || status == "completed"

/-- Membership in the priority enumeration, `isValidPriority`. -/
def isValidPriority (priority : String) : Bool :=
  priority == "low" || priority == "medium" || priority == "high"

/-- The error returned for an unparsable due date. -/
def errInvalidDate : Error := .new "invalid date format, use YYYY-MM-DD"

/-- Creation of a todo, `TodoService.CreateTodo`. -/
def TodoService.CreateTodo (amb : Ambient) (w : World) (userID : Nat)
    (req : CreateTodoRequest) : Except Error Todo × World :=
  if !isValidStatus req.Status then (.error .ErrInvalidStatus, w)
  else if !isValidPriority req.Priority then (.error .ErrInvalidPriority, w)
  else
    let parsed : Except Error (Option Date) :=
      if req.DueDate ≠ "" then
        match parseDate req.DueDate with
        | .error _ => .error errInvalidDate
        | .ok parsedDate => .ok (some parsedDate)
      else .ok none
    match parsed with
    | .error err => (.error err, w)
    | .ok dueDate =>
      let todo : Todo :=
        { ID := 0
          Title := req.Title
          Description := req.Description
          Status := req.Status
          Priority := req.Priority
          DueDate := dueDate
          UserID := userID
          CreatedAt := 0
          UpdatedAt := 0
          DeletedAt := none }
      match TodoRepository.Create amb.now w todo with
      | (.error err, w1) => (.error err, w1)
      | (.ok created, w1) => (.ok created, w1)

/-- Read of one todo with the ownership check, `TodoService.GetTodoByID`. -/
def TodoService.GetTodoByID (w : World) (todoID userID : Nat) : Except Error Todo :=
  match TodoRepository.FindByID w todoID with
  | .error err =>
    if err.Is .ErrRecordNotFound then .error .ErrTodoNotFound else .error err
  | .ok todo =>
    if todo.UserID ≠ userID then .error .ErrUnauthorizedAccess
    else .ok todo

/-- Listing with optional filters, `TodoService.GetUserTodos`. -/
def TodoService.GetUserTodos (w : World) (userID : Nat) (status priority : String) :
    Except Error (List Todo) :=
  if status ≠ "" && !isValidStatus status then .error .ErrInvalidStatus
  else if priority ≠ "" && !isValidPriority priority then .error .ErrInvalidPriority
  else TodoRepository.FindByUserIDWithFilters w userID status priority

/-- Update of a todo, `TodoService.UpdateTodo`: the fields are applied to the fetched copy
in the order title, description, status, priority, due date, and the copy is
saved at the end. -/
def TodoService.UpdateTodo (amb : Ambient) (w : World) (todoID userID : Nat)
    (req : UpdateTodoRequest) : Except Error Todo × World :=
  match TodoService.GetTodoByID w todoID userID with
  | .error err => (.error err, w)
  | .ok todo =>
    let todo := match req.Title with
      | some title => { todo with Title := title }
      | none => todo
    let todo := match req.Description with
      | some description => { todo with Description := description }
      | none => todo
    let withStatus : Except Error Todo := match req.Status with
      | some status =>
        if !isValidStatus status then .error .ErrInvalidStatus
        else .ok { todo with Status := status }
      | none => .ok todo
    match withStatus with
    | .error err => (.error err, w)
    | .ok todo =>
      let withPriority : Except Error Todo := match req.Priority with
        | some priority =>
          if !isValidPriority priority then .error .ErrInvalidPriority
          else .ok { todo with Priority := priority }
        | none => .ok todo
      match withPriority with
      | .error err => (.error err, w)
      | .ok todo =>
        let withDueDate : Except Error Todo := match req.DueDate with
          | some dueDate =>
            if dueDate = "" then .ok { todo with DueDate := none }
            else
              match parseDate dueDate with
              | .error _ => .error errInvalidDate
              | .ok parsedDate => .ok { todo with DueDate := some parsedDate }
          | none => .ok todo
        match withDueDate with
        | .error err => (.error err, w)
        | .ok todo =>
          match TodoRepository.Update amb.now w todo with
          | (.error err, w1) => (.error err, w1)
          | (.ok saved, w1) => (.ok saved, w1)

/-- Deletion of a todo, `TodoService.DeleteTodo`. -/
def TodoService.DeleteTodo (amb : Ambient) (w : World) (todoID userID : Nat) :
    Except Error Unit × World :=
  match TodoService.GetTodoByID w todoID userID with
  | .error err => (.error err, w)
  | .ok _ => TodoRepository.Delete amb.now w todoID

/-! ## gin: requests, contexts and request binding -/

/-- Values stored under context keys (`c.Set`). -/
inductive Value where
  | uint (n : Nat)
  | string (s : String)
  deriving DecidableEq, Repr

/-- Payloads of `dto.SuccessResponse.Data`. -/
inductive Data where
  | null
  | user (u : UserResponse)
  | login (l : LoginResponse)
  | todo (t : TodoResponse)
  | todos (ts : List TodoResponse)
  deriving DecidableEq, Repr

/-- Error envelope, `dto.ErrorResponse`. -/
structure ErrorResponse where
  Success : Bool
  Message : String
  Error : String
  deriving DecidableEq, Repr

/-- Success envelope, `dto.SuccessResponse`. -/
structure SuccessResponse where
  Success : Bool
  Message : String
  Data : Data
  deriving DecidableEq, Repr

/-- Bodies written by the handlers and by the router itself. -/
inductive ResponseBody where
  | error (r : ErrorResponse)
  | success (r : SuccessResponse)
  | health (status message database : String)
  | plain (text : String)
  deriving DecidableEq, Repr

/-- Status code and body of an HTTP response. -/
structure Response where
  Status : Nat
  Body : ResponseBody
  deriving DecidableEq, Repr

/-- An inbound request: method, path, the `Authorization` header (empty when
absent), the query parameters, the port of the request URL and the raw body. -/
structure Request where
  Method : String
  Path : String
  Authorization : String
  Query : List (String × String)
  URLPort : String
  Body : String
  deriving DecidableEq, Repr

/-- The `gin.Context` of one request: route parameters, the key store, the
responses written so far and the abort flag. -/
structure Context where
  Request : Request
  Params : List (String × String)
  Keys : List (String × Value)
  Written : List Response
  Aborted : Bool
  deriving DecidableEq, Repr

/-- Response writer `c.JSON`. -/
def Context.JSON (c : Context) (status : Nat) (body : ResponseBody) : Context :=
  { c with Written := c.Written ++ [{ Status := status, Body := body }] }

/-- Chain stop `c.Abort`. -/
def Context.Abort (c : Context) : Context := { c with Aborted := true }

/-- Key store write `c.Set`. -/
def Context.Set (c : Context) (key : String) (value : Value) : Context :=
  { c with Keys := (key, value) :: c.Keys.filter (fun kv => kv.1 != key) }

/-- Key store read `c.Get`. -/
def Context.Get (c : Context) (key : String) : Option Value :=
  (c.Keys.find? (fun kv => kv.1 == key)).map (fun kv => kv.2)

/-- Route parameter read `c.Param`. -/
def Context.Param (c : Context) (key : String) : String :=
  ((c.Params.find? (fun kv => kv.1 == key)).map (fun kv => kv.2)).getD ""

/-- Query parameter read `c.Query`. -/
def Context.Query (c : Context) (key : String) : String :=
  ((c.Request.Query.find? (fun kv => kv.1 == key)).map (fun kv => kv.2)).getD ""

/-- Header read `c.GetHeader("Authorization")`. -/
def Context.GetHeaderAuthorization (c : Context) : String := c.Request.Authorization

/-- JSON decoding of request bodies into the request types, and the `email`
rule of the validator: library behaviour taken as given. A decoder yields the
text of its error for a body it rejects. -/
structure Binder where
  decodeRegister : String → Except String RegisterRequest
  decodeLogin : String → Except String LoginRequest
  decodeResetPassword : String → Except String ResetPasswordRequest
  decodeResetPasswordConfirm : String → Except String ResetPasswordConfirmRequest
  decodeUserUpdate : String → Except String UserUpdateRequest
  decodeCreateTodo : String → Except String CreateTodoRequest
  decodeUpdateTodo : String → Except String UpdateTodoRequest
  isEmail : String → Bool

/-- Everything a handler is wired to besides the store: the libraries and the
process environment. -/
structure Deps where
  jwt : JWT
  hasher : Hasher
  binder : Binder
  environ : Environ

/-- The text reported for a field that fails a `binding` rule. -/
def failedOn (field tag : String) : String :=
  "Field validation for " ++ field ++ " failed on the " ++ tag ++ " tag"

/-- The `binding` tags of `dto.RegisterRequest`. -/
def validateRegisterRequest (B : Binder) (req : RegisterRequest) : Except String Unit :=
  if req.Username = "" then .error (failedOn "Username" "required")
  else if req.Username.length < 3 then .error (failedOn "Username" "min")
  else if req.Username.length > 50 then .error (failedOn "Username" "max")
  else if req.Email = "" then .error (failedOn "Email" "required")
  else if !B.isEmail req.Email then .error (failedOn "Email" "email")
  else if req.Email.length > 100 then .error (failedOn "Email" "max")
  else if req.Password = "" then .error (failedOn "Password" "required")
  else if req.Password.length < 6 then .error (failedOn "Password" "min")
  else if req.FullName = "" then .error (failedOn "FullName" "required")
  else if req.FullName.length > 100 then .error (failedOn "FullName" "max")
  else .ok ()

/-- The `binding` tags of `dto.LoginRequest`. -/
def validateLoginRequest (req : LoginRequest) : Except String Unit :=
  if req.Username = "" then .error (failedOn "Username" "required")
  else if req.Password = "" then .error (failedOn "Password" "required")
  else .ok ()

/-- The `binding` tags of `dto.ResetPasswordRequest`. -/
def validateResetPasswordRequest (B : Binder) (req : ResetPasswordRequest) :
    Except String Unit :=
  if req.Email = "" then .error (failedOn "Email" "required")
  else if !B.isEmail req.Email then .error (failedOn "Email" "email")
  else .ok ()

/-- The `binding` tags of `dto.ResetPasswordConfirmRequest`. -/
def validateResetPasswordConfirmRequest (req : ResetPasswordConfirmRequest) :
    Except String Unit :=
  if req.Token = "" then .error (failedOn "Token" "required")
  else if req.NewPassword = "" then .error (failedOn "NewPassword" "required")
  else if req.NewPassword.length < 6 then .error (failedOn "NewPassword" "min")
  else .ok ()

/-- The `binding` tags of `dto.UserUpdateRequest`. -/
def validateUserUpdateRequest (B : Binder) (req : UserUpdateRequest) : Except String Unit :=
  if req.Email ≠ "" && !B.isEmail req.Email then .error (failedOn "Email" "email")
  else if req.Email ≠ "" && req.Email.length > 100 then .error (failedOn "Email" "max")
  else if req.FullName ≠ "" && req.FullName.length > 100 then
    .error (failedOn "FullName" "max")
  else .ok ()

/-- The `binding` tags of `dto.CreateTodoRequest`. -/
def validateCreateTodoRequest (req : CreateTodoRequest) : Except String Unit :=
  if req.Title = "" then .error (failedOn "Title" "required")
  else if req.Title.length > 200 then .error (failedOn "Title" "max")
  else if req.Status = "" then .error (failedOn "Status" "required")
  else if !(req.Status == "pending" || req.Status == "in_progress"
      || req.Status == "completed") then .error (failedOn "Status" "oneof")
  else if req.Priority = "" then .error (failedOn "Priority" "required")
  else if !(req.Priority == "low" || req.Priority == "medium" || req.Priority == "high") then
    .error (failedOn "Priority" "oneof")
  else .ok ()

/-- The `binding` tags of `dto.UpdateTodoRequest`: a nil pointer skips its rules. -/
def validateUpdateTodoRequest (req : UpdateTodoRequest) : Except String Unit :=
  if (match req.Title with
      | some title => decide (title.length > 200)
      | none => false) then .error (failedOn "Title" "max")
  else if (match req.Status with
      | some status =>
        !(status == "pending" || status == "in_progress" || status == "completed")
      | none => false) then .error (failedOn "Status" "oneof")
  else if (match req.Priority with
      | some priority => !(priority == "low" || priority == "medium" || priority == "high")
      | none => false) then .error (failedOn "Priority" "oneof")
  else .ok ()

/-- Decoding followed by validation, `c.ShouldBindJSON`. -/
def ShouldBindJSON {α : Type} (decode : String → Except String α)
    (validate : α → Except String Unit) (c : Context) : Except String α :=
  match decode c.Request.Body with
  | .error text => .error text
  | .ok req =>
    match validate req with
    | .error text => .error text
    | .ok _ => .ok req

/-- HTTP status codes used by the handlers. -/
def StatusOK : Nat := 200
/-- Status 201. -/
def StatusCreated : Nat := 201
/-- Status 400. -/
def StatusBadRequest : Nat := 400
/-- Status 401. -/
def StatusUnauthorized : Nat := 401
/-- Status 403. -/
def StatusForbidden : Nat := 403
/-- Status 404. -/
def StatusNotFound : Nat := 404
/-- Status 500. -/
def StatusInternalServerError : Nat := 500
/-- Status 503. -/
def StatusServiceUnavailable : Nat := 503

/-- A handler of the chain: it reads and writes the context and the store. -/
abbrev HandlerFunc := Deps → Ambient → Context → World → Context × World

/-! ## internal/middleware/auth.go -/

/-- Splitting at a separator, `strings.Split` for a one-byte separator. -/
def splitChars (sep : Char) : List Char → List (List Char)
  | [] => [[]]
  | c :: cs =>
    if c = sep then [] :: splitChars sep cs
    else
      match splitChars sep cs with
      | [] => [[c]]
      | part :: parts => (c :: part) :: parts

/-- Bearer-token check, `middleware.AuthMiddleware`. The final `c.Next()` is the continuation of
the chain. -/
def AuthMiddleware : HandlerFunc := fun D amb c w =>
  let authHeader := c.GetHeaderAuthorization
  if authHeader = "" then
    ((c.JSON StatusUnauthorized (.error
      { Success := false, Message := "Token tidak ditemukan", Error := "" })).Abort, w)
  else
    let parts := (splitChars ' ' authHeader.toList).map String.mk
    match parts with
    | [scheme, tokenString] =>
      if scheme ≠ "Bearer" then
        ((c.JSON StatusUnauthorized (.error
          { Success := false, Message := "Format token tidak valid", Error := "" })).Abort, w)
      else
        match ValidateToken D.jwt D.environ amb.now tokenString with
        | .error err =>
          ((c.JSON StatusUnauthorized (.error
            { Success := false, Message := "Token tidak valid atau expired"
              Error := err.message })).Abort, w)
        | .ok claims =>
          let c := c.Set "userID" (.uint claims.UserID)
          let c := c.Set "username" (.string claims.Username)
          (c, w)
    | _ =>
      ((c.JSON StatusUnauthorized (.error
        { Success := false, Message := "Format token tidak valid", Error := "" })).Abort, w)

/-- Context read of the caller id, `middleware.GetUserID`. A stored value of another type would
fail the type assertion; the middleware stores none under this key. -/
def GetUserID (c : Context) : Nat :=
  match c.Get "user_id" with
  | none => 0
  | some (.uint n) => n
  | some (.string _) => 0

/-- Context read of the caller name, `middleware.GetUsername`. -/
def GetUsername (c : Context) : String :=
  match c.Get "username" with
  | none => ""
  | some (.string s) => s
  | some (.uint _) => ""

/-! ## internal/handler/user_handler.go -/

/-- The error envelope with the three fields given. -/
def errorBody (message error : String) : ResponseBody :=
  .error { Success := false, Message := message, Error := error }

/-- The success envelope with the fields given. -/
def successBody (message : String) (data : Data) : ResponseBody :=
  .success { Success := true, Message := message, Data := data }

/-- Handler of `POST /auth/register`, `UserHandler.Register`. -/
def UserHandler.Register : HandlerFunc := fun D amb c w =>
  match ShouldBindJSON D.binder.decodeRegister (validateRegisterRequest D.binder) c with
  | .error text => (c.JSON StatusBadRequest (errorBody "Invalid Input" text), w)
  | .ok req =>
    match AuthService.Register D.hasher amb w req with
    | (.error err, w1) =>
      let statusCode := StatusInternalServerError
      let message := "Failed to register user"
      let (statusCode, message) :=
        if err.Is .ErrUserExists then (StatusBadRequest, err.message)
        else (statusCode, message)
      (c.JSON statusCode (errorBody message ""), w1)
    | (.ok user, w1) =>
      (c.JSON StatusCreated (successBody "User registered successfully" (.user user)), w1)

/-- Handler of `POST /auth/login`, `UserHandler.Login`. -/
def UserHandler.Login : HandlerFunc := fun D amb c w =>
  match ShouldBindJSON D.binder.decodeLogin validateLoginRequest c with
  | .error text => (c.JSON StatusBadRequest (errorBody "Invalid input" text), w)
  | .ok req =>
    match AuthService.Login D.jwt D.hasher D.environ amb w req with
    | .error err =>
      let statusCode := StatusInternalServerError
      let message := "Failed to login"
      let (statusCode, message) :=
        if err.Is .ErrInvalidCredentials then (StatusUnauthorized, err.message)
        else (statusCode, message)
      (c.JSON statusCode (errorBody message ""), w)
    | .ok authResp =>
      (c.JSON StatusOK (successBody "Login successful" (.login authResp)), w)

/-- Handler of `GET /users/profile`, `UserHandler.GetProfile`. -/
def UserHandler.GetProfile : HandlerFunc := fun _ _ c w =>
  let userID := GetUserID c
  match AuthService.GetProfile w userID with
  | .error err =>
    let statusCode := StatusInternalServerError
    let message := "Failed to get profile"
    let (statusCode, message) :=
      if err.Is .ErrUserNotFound then (StatusNotFound, err.message)
      else (statusCode, message)
    (c.JSON statusCode (errorBody message ""), w)
  | .ok user =>
    (c.JSON StatusOK (successBody "Profile retrieved successfully" (.user user)), w)

/-- Handler of `PUT /users/profile`, `UserHandler.UpdateProfile`. -/
def UserHandler.UpdateProfile : HandlerFunc := fun D amb c w =>
  let userID := GetUserID c
  match ShouldBindJSON D.binder.decodeUserUpdate (validateUserUpdateRequest D.binder) c with
  | .error text => (c.JSON StatusBadRequest (errorBody "Invalid input" text), w)
  | .ok req =>
    match AuthService.UpdateProfile amb w userID req with
    | (.error err, w1) =>
      let statusCode := StatusInternalServerError
      let message := "Failed to update profile"
      let (statusCode, message) :=
        if err.Is .ErrUserNotFound then (StatusNotFound, err.message)
        else if err.Is .ErrUserExists then (StatusBadRequest, err.message)
        else (statusCode, message)
      (c.JSON statusCode (errorBody message ""), w1)
    | (.ok user, w1) =>
      (c.JSON StatusOK (successBody "Profile updated successfully" (.user user)), w1)

/-- Handler of `POST /auth/reset-password`, `UserHandler.ResetPasswordRequest`. -/
def UserHandler.ResetPasswordRequest : HandlerFunc := fun D amb c w =>
  match ShouldBindJSON D.binder.decodeResetPassword
      (validateResetPasswordRequest D.binder) c with
  | .error text => (c.JSON StatusBadRequest (errorBody "Invalid input" text), w)
  | .ok req =>
    let cfgServerPort := "8080"
    let cfgServerPort :=
      if c.Request.URLPort ≠ "" then c.Request.URLPort else cfgServerPort
    match AuthService.RequestPasswordReset amb w req.Email cfgServerPort with
    | (.error err, w1) =>
      let status := StatusInternalServerError
      let msg := "Failed to request password reset"
      let (status, msg) :=
        if err.Is .ErrUserNotFound then (StatusNotFound, err.message)
        else (status, msg)
      (c.JSON status (errorBody msg ""), w1)
    | (.ok _, w1) =>
      (c.JSON StatusOK (successBody "If the email exists, a reset link was sent" .null), w1)

/-- Handler of `POST /auth/reset-password/confirm`, `UserHandler.ResetPasswordConfirm`. -/
def UserHandler.ResetPasswordConfirm : HandlerFunc := fun D amb c w =>
  match ShouldBindJSON D.binder.decodeResetPasswordConfirm
      validateResetPasswordConfirmRequest c with
  | .error text => (c.JSON StatusBadRequest (errorBody "Invalid input" text), w)
  | .ok req =>
    match AuthService.ResetPassword D.hasher amb w req.Token req.NewPassword with
    | (.error err, w1) =>
      let status := StatusInternalServerError
      let msg := "Failed to reset password"
      let (status, msg) :=
        if err.Is .ErrUserNotFound then (StatusNotFound, err.message)
        else (status, msg)
      (c.JSON status (errorBody msg err.message), w1)
    | (.ok _, w1) => (c.JSON StatusOK (successBody "Password reset successful" .null), w1)

/-! ## internal/handler/health_handler.go -/

/-- Handler of `GET /health`, `HealthHandler.HealthCheck`. -/
def HealthHandler.HealthCheck : HandlerFunc := fun _ amb c w =>
  if !amb.dbHandle then
    (c.JSON StatusServiceUnavailable
      (.health "error" "database connection failed" "disconnected"), w)
  else if !amb.dbPing then
    (c.JSON StatusServiceUnavailable
      (.health "error" "database ping failed" "disconnected"), w)
  else (c.JSON StatusOK (.health "ok" "API is running" "connected"), w)

/-! ## internal/handler/todo_handler.go -/

/-- Conversion of a todo to its response shape, as each todo handler does inline. -/
def toTodoResponse (todo : Todo) : TodoResponse :=
  { ID := todo.ID
    Title := todo.Title
    Description := todo.Description
    Status := todo.Status
    Priority := todo.Priority
    DueDate := todo.DueDate
    UserID := todo.UserID
    CreatedAt := todo.CreatedAt
    UpdatedAt := todo.UpdatedAt }

/-- The response of every todo handler when the context holds no caller id. -/
def unauthorizedTodo (c : Context) : Context :=
  c.JSON StatusUnauthorized (errorBody "Unauthorized" "User ID not found in context")

/-- The outcome of a failed type assertion `userID.(uint)`: the handler panics
and the request ends with status 500. -/
def panicked (c : Context) : Context :=
  (c.JSON StatusInternalServerError (.plain "")).Abort

/-- Decimal parsing into 32 bits, `strconv.ParseUint(s, 10, 32)`. -/
def ParseUint32 (s : String) : Except Error Nat :=
  let cs := s.toList
  if cs.isEmpty then .error (.new "strconv.ParseUint: invalid syntax")
  else if cs.all isDigit then
    let n := cs.foldl (fun acc ch => acc * 10 + digitVal ch) 0
    if n < 2 ^ 32 then .ok n else .error (.new "strconv.ParseUint: value out of range")
  else .error (.new "strconv.ParseUint: invalid syntax")

/-- Handler of `POST /todos`, `TodoHandler.Create`. -/
def TodoHandler.Create : HandlerFunc := fun D amb c w =>
  match c.Get "userID" with
  | none => (unauthorizedTodo c, w)
  | some (.string _) => (panicked c, w)
  | some (.uint userID) =>
    match ShouldBindJSON D.binder.decodeCreateTodo validateCreateTodoRequest c with
    | .error text => (c.JSON StatusBadRequest (errorBody "Invalid request data" text), w)
    | .ok req =>
      match TodoService.CreateTodo amb w userID req with
      | (.error err, w1) =>
        let statusCode := StatusInternalServerError
        let message := "Failed to create todo"
        let (statusCode, message) :=
          if err.Is .ErrInvalidStatus || err.Is .ErrInvalidPriority then
            (StatusBadRequest, err.message)
          else (statusCode, message)
        (c.JSON statusCode (errorBody message err.message), w1)
      | (.ok todo, w1) =>
        (c.JSON StatusCreated
          (successBody "Todo created successfully" (.todo (toTodoResponse todo))), w1)

/-- Handler of `GET /todos`, `TodoHandler.GetAll`. -/
def TodoHandler.GetAll : HandlerFunc := fun _ _ c w =>
  match c.Get "userID" with
  | none => (unauthorizedTodo c, w)
  | some (.string _) => (panicked c, w)
  | some (.uint userID) =>
    let status := c.Query "status"
    let priority := c.Query "priority"
    match TodoService.GetUserTodos w userID status priority with
    | .error err =>
      let statusCode := StatusInternalServerError
      let message := "Failed to retrieve todos"
      let (statusCode, message) :=
        if err.Is .ErrInvalidStatus || err.Is .ErrInvalidPriority then
          (StatusBadRequest, err.message)
        else (statusCode, message)
      (c.JSON statusCode (errorBody message err.message), w)
    | .ok todos =>
      (c.JSON StatusOK
        (successBody "Todos retrieved successfully" (.todos (todos.map toTodoResponse))), w)

/-- Handler of `GET /todos/:id`, `TodoHandler.GetByID`. -/
def TodoHandler.GetByID : HandlerFunc := fun _ _ c w =>
  match c.Get "userID" with
  | none => (unauthorizedTodo c, w)
  | some (.string _) => (panicked c, w)
  | some (.uint userID) =>
    match ParseUint32 (c.Param "id") with
    | .error err => (c.JSON StatusBadRequest (errorBody "Invalid todo ID" err.message), w)
    | .ok todoID =>
      match TodoService.GetTodoByID w todoID userID with
      | .error err =>
        let statusCode := StatusInternalServerError
        let message := "Failed to retrieve todo"
        let (statusCode, message) :=
          if err.Is .ErrTodoNotFound then (StatusNotFound, "Todo not found")
          else if err.Is .ErrUnauthorizedAccess then
            (StatusForbidden, "You don't have permission to access this todo")
          else (statusCode, message)
        (c.JSON statusCode (errorBody message err.message), w)
      | .ok todo =>
        (c.JSON StatusOK
          (successBody "Todo retrieved successfully" (.todo (toTodoResponse todo))), w)

/-- Handler of `PUT /todos/:id`, `TodoHandler.Update`. -/
def TodoHandler.Update : HandlerFunc := fun D amb c w =>
  match c.Get "userID" with
  | none => (unauthorizedTodo c, w)
  | some (.string _) => (panicked c, w)
  | some (.uint userID) =>
    match ParseUint32 (c.Param "id") with
    | .error err => (c.JSON StatusBadRequest (errorBody "Invalid todo ID" err.message), w)
    | .ok todoID =>
      match ShouldBindJSON D.binder.decodeUpdateTodo validateUpdateTodoRequest c with
      | .error text => (c.JSON StatusBadRequest (errorBody "Invalid request data" text), w)
      | .ok req =>
        match TodoService.UpdateTodo amb w todoID userID req with
        | (.error err, w1) =>
          let statusCode := StatusInternalServerError
          let message := "Failed to update todo"
          let (statusCode, message) :=
            if err.Is .ErrTodoNotFound then (StatusNotFound, "Todo not found")
            else if err.Is .ErrUnauthorizedAccess then
              (StatusForbidden, "You don't have permission to update this todo")
            else if err.Is .ErrInvalidStatus || err.Is .ErrInvalidPriority then
              (StatusBadRequest, err.message)
            else if err.Is .ErrRecordNotFound then (StatusNotFound, "Todo not found")
            else (statusCode, message)
          (c.JSON statusCode (errorBody message err.message), w1)
        | (.ok todo, w1) =>
          (c.JSON StatusOK
            (successBody "Todo updated successfully" (.todo (toTodoResponse todo))), w1)

/-- Handler of `DELETE /todos/:id`, `TodoHandler.Delete`. -/
def TodoHandler.Delete : HandlerFunc := fun _ amb c w =>
  match c.Get "userID" with
  | none => (unauthorizedTodo c, w)
  | some (.string _) => (panicked c, w)
  | some (.uint userID) =>
    match ParseUint32 (c.Param "id") with
    | .error err => (c.JSON StatusBadRequest (errorBody "Invalid todo ID" err.message), w)
    | .ok todoID =>
      match TodoService.DeleteTodo amb w todoID userID with
      | (.error err, w1) =>
        let statusCode := StatusInternalServerError
        let message := "Failed to delete todo"
        let (statusCode, message) :=
          if err.Is .ErrTodoNotFound then (StatusNotFound, "Todo not found")
          else if err.Is .ErrUnauthorizedAccess then
            (StatusForbidden, "You don't have permission to delete this todo")
          else (statusCode, message)
        (c.JSON statusCode (errorBody message err.message), w1)
      | (.ok _, w1) => (c.JSON StatusOK (successBody "Todo deleted successfully" .null), w1)

/-! ## internal/route/routes.go and the gin router -/

/-- A registered route: method, full path pattern and handler chain. -/
structure RouteInfo where
  Method : String
  Path : String
  Handlers : List HandlerFunc

/-- A route group, `gin.RouterGroup`: base path and the middleware installed on it. -/
structure RouterGroup where
  basePath : String
  Handlers : List HandlerFunc

/-- Path concatenation of gin, `joinPaths`: the cleaned join of the two paths, keeping
a trailing slash of the relative one. -/
def joinPaths (absolutePath relativePath : String) : String :=
  if relativePath = "" then absolutePath
  else
    let segments :=
      (splitChars '/' (absolutePath ++ "/" ++ relativePath).toList).filter
        (fun seg => !seg.isEmpty)
    let joined := segments.foldr (fun seg acc => '/' :: seg ++ acc) []
    let finalPath := if joined.isEmpty then ['/'] else joined
    if relativePath.toList.getLast? = some '/' && finalPath.getLast? ≠ some '/' then
      String.mk (finalPath ++ ['/'])
    else String.mk finalPath

/-- Sub-group creation `group.Group(relativePath)`. -/
def RouterGroup.Group (g : RouterGroup) (relativePath : String) : RouterGroup :=
  { basePath := joinPaths g.basePath relativePath, Handlers := g.Handlers }

/-- Middleware installation `group.Use(middleware)`. -/
def RouterGroup.Use (g : RouterGroup) (middleware : HandlerFunc) : RouterGroup :=
  { g with Handlers := g.Handlers ++ [middleware] }

/-- Route registration `group.METHOD(relativePath, handler)`. -/
def RouterGroup.Handle (g : RouterGroup) (method relativePath : String)
    (handler : HandlerFunc) : RouteInfo :=
  { Method := method
    Path := joinPaths g.basePath relativePath
    Handlers := g.Handlers ++ [handler] }

/-- The route table, `route.SetupRoutes`, on the group it is given. -/
def SetupRoutes (router : RouterGroup) : List RouteInfo :=
  let v1 := router.Group "/api/v1"
  let auth := v1.Group "/auth"
  let users := v1.Group "/users"
  let todos := v1.Group "todos"
  [ router.Handle "GET" "/health" HealthHandler.HealthCheck
  , auth.Handle "POST" "/register" UserHandler.Register
  , auth.Handle "POST" "/login" UserHandler.Login
  , auth.Handle "POST" "/reset-password" UserHandler.ResetPasswordRequest
  , auth.Handle "POST" "/reset-password/confirm" UserHandler.ResetPasswordConfirm
  , users.Handle "GET" "/profile" UserHandler.GetProfile
  , users.Handle "PUT" "profile" UserHandler.UpdateProfile
  , todos.Handle "GET" "" TodoHandler.GetAll
  , todos.Handle "GET" "/:id" TodoHandler.GetByID
  , todos.Handle "POST" "" TodoHandler.Create
  , todos.Handle "PUT" ":id" TodoHandler.Update
  , todos.Handle "DELETE" ":id" TodoHandler.Delete ]

/-- Segment-wise match of a path against a pattern; a `:name` segment binds any
non-empty segment. -/
def matchSegments : List (List Char) → List (List Char) → Option (List (String × String))
  | [], [] => some []
  | pat :: pats, seg :: segs =>
    match pat with
    | ':' :: name =>
      if seg.isEmpty then none
      else (matchSegments pats segs).map (fun m => (String.mk name, String.mk seg) :: m)
    | _ => if pat = seg then matchSegments pats segs else none
  | _, _ => none

/-- Match of a request path against a route pattern. -/
def matchPath (pattern path : String) : Option (List (String × String)) :=
  matchSegments (splitChars '/' pattern.toList) (splitChars '/' path.toList)

/-- First route of the table that serves the method and path, with its parameters. -/
def findRoute : List RouteInfo → String → String →
    Option (RouteInfo × List (String × String))
  | [], _, _ => none
  | route :: routes, method, path =>
    if route.Method = method then
      match matchPath route.Path path with
      | some params => some (route, params)
      | none => findRoute routes method path
    else findRoute routes method path

/-- Execution of a handler chain: each handler runs unless the chain was aborted. -/
def runChain (D : Deps) (amb : Ambient) : List HandlerFunc → Context → World → Context × World
  | [], c, w => (c, w)
  | handler :: rest, c, w =>
    if c.Aborted then (c, w)
    else
      match handler D amb c w with
      | (c1, w1) => runChain D amb rest c1 w1

/-- The response a context ends with: the first one written, or an empty 200. -/
def Context.response (c : Context) : Response :=
  c.Written.head?.getD { Status := StatusOK, Body := .plain "" }

/-- The path with its trailing slash added or removed. -/
def toggleTrailingSlash (path : String) : String :=
  if path.toList.getLast? = some '/' then String.mk path.toList.dropLast
  else path ++ "/"

/-- Request dispatch, `Engine.ServeHTTP`: the chain of the matching route runs on a fresh
context; without a match the router redirects to the path with the trailing
slash toggled when that one is routed, and answers 404 otherwise. -/
def ServeHTTP (routes : List RouteInfo) (D : Deps) (amb : Ambient) (w : World)
    (req : Request) : Response × World :=
  match findRoute routes req.Method req.Path with
  | some (route, params) =>
    let c : Context :=
      { Request := req, Params := params, Keys := [], Written := [], Aborted := false }
    match runChain D amb route.Handlers c w with
    | (c1, w1) => (c1.response, w1)
  | none =>
    if req.Path ≠ "/"
        && (findRoute routes req.Method (toggleTrailingSlash req.Path)).isSome then
      ({ Status := if req.Method = "GET" then 301 else 307, Body := .plain "" }, w)
    else ({ Status := StatusNotFound, Body := .plain "404 page not found" }, w)

/-- The router of the application: `SetupRoutes` on a new engine. -/
def router : List RouteInfo := SetupRoutes { basePath := "/", Handlers := [] }

/-! ## Sample instances

Concrete libraries, stores and requests on which the statements below are
evaluated. -/

/-- A process environment with no variable set: every setting takes its default. -/
def sampleEnviron : Environ := fun _ => ""

/-- Claims of account 1, expiring at second 2000. -/
def sampleClaims : Claims :=
  { UserID := 1, Username := "u1u", ExpiresAt := some (2000 * Second), NotBefore := none
    IssuedAt := some 0 }

/-- A toy token library: the MAC of a message is the text of the key block
before its zero padding, a long key is shortened to its first 32 bytes, and
four token strings are well-formed: `good` (HS256, signed with the default secret),
`forged` (HS256, signed with another secret), `ecdsa` (ES256) and `stale`
(HS256, signed with the default secret, expired at second 1). -/
def sampleJWT : JWT :=
  { mac := fun _ block _ =>
      String.mk ((block.takeWhile (fun b => b != 0)).map Char.ofNat)
    hashKey := fun _ bytes => bytes.take 32
    signingString := fun _ claims => claims.Username
    compact := fun sstr sig => sstr ++ "." ++ sig
    parseUnverified := fun text =>
      if text = "good" then
        some { Method := some .HS256, Claims := sampleClaims, SigningString := "u1"
               Signature := "your_super_secret_key" }
      else if text = "forged" then
        some { Method := some .HS256, Claims := sampleClaims, SigningString := "u1"
               Signature := "another_secret" }
      else if text = "ecdsa" then
        some { Method := some .ES256, Claims := sampleClaims, SigningString := "u1"
               Signature := "your_super_secret_key" }
      else if text = "stale" then
        some { Method := some .HS256
               Claims := { sampleClaims with ExpiresAt := some (1 * Second) }
               SigningString := "u1", Signature := "your_super_secret_key" }
      else none }

/-- A toy credential hasher: the hash of a password is the password, and
verification is equality. -/
def sampleHasher : Hasher :=
  { HashPassword := fun _ password => .ok password
    CheckPassword := fun password hash => password == hash }

/-- A toy binder: the bodies `register-u1`, `register-u1-again`,
`register-u2-same-email`, `login-u1` and `milk` decode to the requests of the
scenarios, every other body is rejected; an email is a text with an at sign. -/
def sampleBinder : Binder :=
  { decodeRegister := fun body =>
      if body = "register-u1" then
        .ok { Username := "u1u", Email := "u1@x.com", Password := "pw123456", FullName := "U One" }
      else if body = "register-u1-again" then
        .ok { Username := "u1u", Email := "other@x.com", Password := "pw123456"
              FullName := "U One" }
      else if body = "register-u2-same-email" then
        .ok { Username := "u2u", Email := "u1@x.com", Password := "pw123456", FullName := "U Two" }
      else .error "invalid character"
    decodeLogin := fun body =>
      if body = "login-u1" then .ok { Username := "u1u", Password := "pw123456" }
      else .error "invalid character"
    decodeResetPassword := fun _ => .error "invalid character"
    decodeResetPasswordConfirm := fun _ => .error "invalid character"
    decodeUserUpdate := fun _ => .error "invalid character"
    decodeCreateTodo := fun body =>
      if body = "milk" then
        .ok { Title := "Buy milk", Description := "", Status := "pending", Priority := "low"
              DueDate := "" }
      else .error "invalid character"
    decodeUpdateTodo := fun _ => .error "invalid character"
    isEmail := fun text => text.toList.contains '@' }

/-- The toy libraries wired together. -/
def sampleDeps : Deps :=
  { jwt := sampleJWT, hasher := sampleHasher, binder := sampleBinder, environ := sampleEnviron }

/-- A call at second 1000 on a reachable database. -/
def sampleAmbient : Ambient :=
  { now := 1000 * Second, salt := 0, entropy := fun i => i, dbHandle := true, dbPing := true }

/-- The empty store. -/
def emptyWorld : World := { users := [], todos := [], outbox := [] }

/-- The account `u1u` as stored by its registration at second 1000. -/
def sampleUser : User :=
  { ID := 1, Username := "u1u", Email := "u1@x.com", Password := "pw123456"
    Fullname := "U One", ResetPasswordToken := "", ResetPasswordExpiry := none
    CreatedAt := 1000 * Second, UpdatedAt := 1000 * Second, DeletedaT := none }

/-- A todo of account 1. -/
def sampleTodo : Todo :=
  { ID := 1, Title := "Buy milk", Description := "", Status := "pending", Priority := "low"
    DueDate := none, UserID := 1, CreatedAt := 1000 * Second, UpdatedAt := 1000 * Second
    DeletedAt := none }

/-- A store with the account `u1u` and one todo of it. -/
def sampleWorld : World := { users := [sampleUser], todos := [sampleTodo], outbox := [] }

/-- The registration request of the scenario. -/
def sampleRegister : RegisterRequest :=
  { Username := "u1u", Email := "u1@x.com", Password := "pw123456", FullName := "U One" }

/-- A request with the given method, path, `Authorization` header and body. -/
def mkRequest (method path authorization body : String) : Request :=
  { Method := method, Path := path, Authorization := authorization, Query := []
    URLPort := "", Body := body }

/-- The context a chain starts from. -/
def freshContext (req : Request) : Context :=
  { Request := req, Params := [], Keys := [], Written := [], Aborted := false }

/-! ## Predicates used by the statements -/

/-- The token string was signed with a secret other than the configured one:
it is well-formed and its signature is the MAC of its signed text under that
other secret. -/
def SignedWithOtherSecret (J : JWT) (environ : Environ) (tokenString : String) : Prop :=
  ∃ token method secret, J.parseUnverified tokenString = some token
    ∧ token.Method = some method
    ∧ secret ≠ (LoadConfig environ).JWTSecret
    ∧ token.Signature = J.hmac method secret token.SigningString

/-- The token string is well-formed and its `alg` header names no method of the
HMAC family. -/
def AlgorithmNotHMAC (J : JWT) (tokenString : String) : Prop :=
  ∃ token, J.parseUnverified tokenString = some token
    ∧ ∀ method, token.Method = some method → method.isHMAC = false

/-- The token string is well-formed and its expiry claim lies before `now`. -/
def ExpiredAt (J : JWT) (now : Time) (tokenString : String) : Prop :=
  ∃ token exp, J.parseUnverified tokenString = some token
    ∧ token.Claims.ExpiresAt = some exp ∧ exp < now

/-- The token string was signed with a secret that the MAC tells apart from
the configured one: it is well-formed, its signature is the MAC of its signed
text under that secret, and the MAC of that text under the configured secret
is another value. -/
def SignedWithDistinctMAC (J : JWT) (environ : Environ) (tokenString : String) : Prop :=
  ∃ token method secret, J.parseUnverified tokenString = some token
    ∧ token.Method = some method
    ∧ token.Signature = J.hmac method secret token.SigningString
    ∧ J.hmac method secret token.SigningString
        ≠ J.hmac method (LoadConfig environ).JWTSecret token.SigningString

/-- The item is the live row of the todo table with the given key, and the
key is a primary key: no other live row carries it. -/
def IsLiveItem (w : World) (todoID : Nat) (todo : Todo) : Prop :=
  todo ∈ w.todos ∧ todo.live = true ∧ todo.ID = todoID
    ∧ ∀ t ∈ w.todos, t.live = true → t.ID = todoID → t = todo

/-- The account is the live row of the user table with the given username,
and no other live row carries that username. -/
def IsLiveAccount (w : World) (username : String) (user : User) : Prop :=
  user ∈ w.users ∧ user.live = true ∧ user.Username = username
    ∧ ∀ u ∈ w.users, u.live = true → u.Username = username → u = user

/-- The account is the live row of the user table that holds the given reset
token, and no other live row holds it. -/
def IsTokenHolder (w : World) (token : String) (user : User) : Prop :=
  user ∈ w.users ∧ user.live = true ∧ user.ResetPasswordToken = token
    ∧ ∀ u ∈ w.users, u.live = true → u.ResetPasswordToken = token → u = user

/-- The constraints of table `users`: the primary key is non-zero and unique,
and so are the username and the email, over every row of the table. -/
def UsersKeyed (w : World) : Prop :=
  (∀ u ∈ w.users, u.ID ≠ 0)
    ∧ (∀ u ∈ w.users, ∀ v ∈ w.users, u.ID = v.ID → u = v)
    ∧ (∀ u ∈ w.users, ∀ v ∈ w.users, u.Username = v.Username → u = v)
    ∧ (∀ u ∈ w.users, ∀ v ∈ w.users, u.Email = v.Email → u = v)

/-- The account row that `Register` hands to the store. -/
def newUser (req : RegisterRequest) (hashedPassword : String) : User :=
  { ID := 0
    Username := req.Username
    Email := req.Email
    Password := hashedPassword
    Fullname := req.FullName
    ResetPasswordToken := ""
    ResetPasswordExpiry := none
    CreatedAt := 0
    UpdatedAt := 0
    DeletedaT := none }

/-- The body of `AuthService.Register` with its two phases on separate
snapshots of the store: the existence checks read `wChecks`, the insert is
applied to `wWrite`. With both snapshots equal this is `Register`; with
`wWrite` later than `wChecks` it is a registration whose insert lands after
another request has written. -/
def AuthService.RegisterInterleaved (H : Hasher) (amb : Ambient) (wChecks wWrite : World)
    (req : RegisterRequest) : Except Error UserResponse × World :=
  match UserRepository.ExistsByUsername wChecks req.Username with
  | .error err => (.error (.wrap "failed to check username" err), wWrite)
  | .ok existsUsername =>
    if existsUsername then (.error .ErrUserExists, wWrite)
    else
      match UserRepository.ExistsByEmail wChecks req.Email with
      | .error err => (.error (.wrap "failed to check email" err), wWrite)
      | .ok existsEmail =>
        if existsEmail then (.error .ErrEmailExists, wWrite)
        else
          match H.HashPassword amb.salt req.Password with
          | .error err => (.error (.wrap "failed to hash password" err), wWrite)
          | .ok hashedPassword =>
            match UserRepository.Create amb.now wWrite (newUser req hashedPassword) with
            | (.error err, w1) => (.error (.wrap "failed to create user" err), w1)
            | (.ok created, w1) => (.ok (AuthService.toUserResponse created), w1)

/-- The part of `UserHandler.Register` that follows the call of the workflow:
the mapping of its result to a response. -/
def UserHandler.registerResponse (c : Context) (result : Except Error UserResponse × World) :
    Context × World :=
  match result with
  | (.error err, w1) =>
    let statusCode := StatusInternalServerError
    let message := "Failed to register user"
    let (statusCode, message) :=
      if err.Is .ErrUserExists then (StatusBadRequest, err.message)
      else (statusCode, message)
    (c.JSON statusCode (errorBody message ""), w1)
  | (.ok user, w1) =>
    (c.JSON StatusCreated (successBody "User registered successfully" (.user user)), w1)

/-- The account `u1u` with a pending reset: token `tok`, valid until second 2000. -/
def resetUser : User :=
  { sampleUser with ResetPasswordToken := "tok", ResetPasswordExpiry := some (2000 * Second) }

/-- A store with the account that has a pending reset. -/
def resetWorld : World := { users := [resetUser], todos := [], outbox := [] }

/-- The account `u1u` with a reset token that expired at second 1. -/
def expiredUser : User :=
  { sampleUser with ResetPasswordToken := "tok", ResetPasswordExpiry := some (1 * Second) }

/-- A store with the account whose reset token has expired. -/
def expiredWorld : World := { users := [expiredUser], todos := [], outbox := [] }

/-- The toy binder extended with the bodies of the reset and due-date
scenarios: `confirm-tok` and `confirm-nope` are reset confirmations with the
tokens `tok` and `nope`, `milk-bad-date` is the todo of the scenario with the
due date `2024-02-30`. -/
def scenarioBinder : Binder :=
  { sampleBinder with
    decodeResetPasswordConfirm := fun body =>
      if body = "confirm-tok" then .ok { Token := "tok", NewPassword := "newpw123" }
      else if body = "confirm-nope" then .ok { Token := "nope", NewPassword := "newpw123" }
      else .error "invalid character"
    decodeCreateTodo := fun body =>
      if body = "milk-bad-date" then
        .ok { Title := "Buy milk", Description := "", Status := "pending", Priority := "low"
              DueDate := "2024-02-30" }
      else sampleBinder.decodeCreateTodo body }

/-- The toy libraries with the extended binder. -/
def scenarioDeps : Deps := { sampleDeps with binder := scenarioBinder }

/-! ## migration/seed.go -/

/-- The three accounts of the seeder, with their hashed passwords. -/
def seedUsers (admin aditya zaim : String) : List User :=
  [ { ID := 0, Username := "admin", Email := "admin@example.com", Password := admin
      Fullname := "Administrator", ResetPasswordToken := "", ResetPasswordExpiry := none
      CreatedAt := 0, UpdatedAt := 0, DeletedaT := none }
  , { ID := 0, Username := "aditya_prayoga", Email := "aditya@brainmatics.com"
      Password := aditya, Fullname := "Aditya Prayoaga", ResetPasswordToken := ""
      ResetPasswordExpiry := none, CreatedAt := 0, UpdatedAt := 0, DeletedaT := none }
  , { ID := 0, Username := "zaim_fauzan", Email := "zaim@brainmatics.com", Password := zaim
      Fullname := "Zaim Fauzan", ResetPasswordToken := "", ResetPasswordExpiry := none
      CreatedAt := 0, UpdatedAt := 0, DeletedaT := none } ]

/-- A todo row of the seeder. -/
def seedTodo (title description status priority : String) (userID : Nat) : Todo :=
  { ID := 0, Title := title, Description := description, Status := status
    Priority := priority, DueDate := none, UserID := userID, CreatedAt := 0, UpdatedAt := 0
    DeletedAt := none }

/-- The six todos of the seeder, for the ids of the accounts `admin` and
`aditya_prayoga`. -/
def seedTodos (adminID adityaID : Nat) : List Todo :=
  [ seedTodo "Complete project documentation"
      "Write comprehensive README and API documentation" "in_progess" "high" adminID
  , seedTodo "Review pull requests" "Review and merge pending pull requests" "pending"
      "medium" adminID
  , seedTodo "Fix authentication bug" "Resolve token expiration issue" "completed" "high"
      adminID
  , seedTodo "Learn Clean Architecture" "Study Clean Architecture patterns in Go"
      "in_progess" "low" adityaID
  , seedTodo "Build REST API" "Create a REST API using Gin framework" "pending" "high"
      adityaID
  , seedTodo "Write unit tests" "Add unit tests for all services" "pending" "medium"
      adityaID ]

/-- One round of the user loop of the seeder: an account whose username a live
row carries is skipped, any other is inserted, and a failed insert is logged
and passed over. -/
def Seeder.seedUser (now : Time) (w : World) (user : User) : World :=
  match First User.ID w.users (fun u => u.live && u.Username == user.Username) with
  | .ok _ => w
  | .error _ => (UserRepository.Create now w user).2

/-- One round of the todo loop of the seeder: a todo whose title a live row of
the same owner carries is skipped, any other is inserted. -/
def Seeder.seedTodo (now : Time) (w : World) (todo : Todo) : World :=
  match First Todo.ID w.todos
      (fun t => t.live && t.Title == todo.Title && t.UserID == todo.UserID) with
  | .ok _ => w
  | .error _ => (TodoRepository.Create now w todo).2

/-- The id a lookup by username leaves in its destination: the id of the row
found, or zero. -/
def Seeder.userID (w : World) (username : String) : Nat :=
  match First User.ID w.users (fun u => u.live && u.Username == username) with
  | .ok user => user.ID
  | .error _ => 0

/-- The database seeder, `main` of `migration/seed.go`, on a connected database: it hashes the
three passwords (and stops before any write when a hash fails), seeds the
accounts, reads the ids of two of them and seeds the todos. -/
def Seeder.main (H : Hasher) (amb : Ambient) (w : World) : World :=
  match H.HashPassword amb.salt "admin123", H.HashPassword (amb.salt + 1) "password123",
      H.HashPassword (amb.salt + 2) "password123" with
  | .ok admin, .ok aditya, .ok zaim =>
    let w1 := (seedUsers admin aditya zaim).foldl (Seeder.seedUser amb.now) w
    let adminID := Seeder.userID w1 "admin"
    let adityaID := Seeder.userID w1 "aditya_prayoga"
    (seedTodos adminID adityaID).foldl (Seeder.seedTodo amb.now) w1
  | _, _, _ => w

/-! ## The tails of the todo handlers -/

/-- The part of `TodoHandler.Create` that follows the call of the workflow. -/
def TodoHandler.createResponse (c : Context) (result : Except Error Todo × World) :
    Context × World :=
  match result with
  | (.error err, w1) =>
    let statusCode := StatusInternalServerError
    let message := "Failed to create todo"
    let (statusCode, message) :=
      if err.Is .ErrInvalidStatus || err.Is .ErrInvalidPriority then
        (StatusBadRequest, err.message)
      else (statusCode, message)
    (c.JSON statusCode (errorBody message err.message), w1)
  | (.ok todo, w1) =>
    (c.JSON StatusCreated
      (successBody "Todo created successfully" (.todo (toTodoResponse todo))), w1)

/-- The part of `TodoHandler.GetByID` that follows the call of the workflow. -/
def TodoHandler.getByIDResponse (c : Context) (w : World) (result : Except Error Todo) :
    Context × World :=
  match result with
  | .error err =>
    let statusCode := StatusInternalServerError
    let message := "Failed to retrieve todo"
    let (statusCode, message) :=
      if err.Is .ErrTodoNotFound then (StatusNotFound, "Todo not found")
      else if err.Is .ErrUnauthorizedAccess then
        (StatusForbidden, "You don't have permission to access this todo")
      else (statusCode, message)
    (c.JSON statusCode (errorBody message err.message), w)
  | .ok todo =>
    (c.JSON StatusOK
      (successBody "Todo retrieved successfully" (.todo (toTodoResponse todo))), w)

/-- The part of `TodoHandler.Update` that follows the call of the workflow. -/
def TodoHandler.updateResponse (c : Context) (result : Except Error Todo × World) :
    Context × World :=
  match result with
  | (.error err, w1) =>
    let statusCode := StatusInternalServerError
    let message := "Failed to update todo"
    let (statusCode, message) :=
      if err.Is .ErrTodoNotFound then (StatusNotFound, "Todo not found")
      else if err.Is .ErrUnauthorizedAccess then
        (StatusForbidden, "You don't have permission to update this todo")
      else if err.Is .ErrInvalidStatus || err.Is .ErrInvalidPriority then
        (StatusBadRequest, err.message)
      else if err.Is .ErrRecordNotFound then (StatusNotFound, "Todo not found")
      else (statusCode, message)
    (c.JSON statusCode (errorBody message err.message), w1)
  | (.ok todo, w1) =>
    (c.JSON StatusOK
      (successBody "Todo updated successfully" (.todo (toTodoResponse todo))), w1)

/-- The part of `TodoHandler.Delete` that follows the call of the workflow. -/
def TodoHandler.deleteResponse (c : Context) (result : Except Error Unit × World) :
    Context × World :=
  match result with
  | (.error err, w1) =>
    let statusCode := StatusInternalServerError
    let message := "Failed to delete todo"
    let (statusCode, message) :=
      if err.Is .ErrTodoNotFound then (StatusNotFound, "Todo not found")
      else if err.Is .ErrUnauthorizedAccess then
        (StatusForbidden, "You don't have permission to delete this todo")
      else (statusCode, message)
    (c.JSON statusCode (errorBody message err.message), w1)
  | (.ok _, w1) => (c.JSON StatusOK (successBody "Todo deleted successfully" .null), w1)

/-! ## Reachable states of the account store -/

/-- The states of the system that the four account workflows reach from the
empty store, with any requests and at any times. -/
inductive Reachable (H : Hasher) : World → Prop where
  | init : Reachable H emptyWorld
  | register (w : World) (amb : Ambient) (req : RegisterRequest) :
      Reachable H w → Reachable H (AuthService.Register H amb w req).2
  | updateProfile (w : World) (amb : Ambient) (userID : Nat) (req : UserUpdateRequest) :
      Reachable H w → Reachable H (AuthService.UpdateProfile amb w userID req).2
  | requestPasswordReset (w : World) (amb : Ambient) (email serverPort : String) :
      Reachable H w → Reachable H (AuthService.RequestPasswordReset amb w email serverPort).2
  | resetPassword (w : World) (amb : Ambient) (token newPassword : String) :
      Reachable H w → Reachable H (AuthService.ResetPassword H amb w token newPassword).2

/-- The pairing of reset token and expiry on every row: the token is empty
exactly when the expiry is null. -/
def TokenExpiryPaired (w : World) : Prop :=
  ∀ u ∈ w.users, (u.ResetPasswordToken = "" ↔ u.ResetPasswordExpiry = none)

/-- The account is the live row of the user table with the given email, and no
other live row carries that email. -/
def IsEmailHolder (w : World) (email : String) (user : User) : Prop :=
  user ∈ w.users ∧ user.live = true ∧ user.Email = email
    ∧ ∀ u ∈ w.users, u.live = true → u.Email = email → u = user

/-- The account is the live row of the user table with the given id. -/
def IsAccount (w : World) (userID : Nat) (user : User) : Prop :=
  user ∈ w.users ∧ user.live = true ∧ user.ID = userID

/-- The conjunction of the filters of a listing: live, owned by the user, and
matching each filter that is not the empty string. -/
def matchesFilters (userID : Nat) (status priority : String) (t : Todo) : Bool :=
  t.live && t.UserID == userID && (status == "" || t.Status == status)
    && (priority == "" || t.Priority == priority)

/-- The order `newest-created-first` on todos. -/
def NewerFirst (a b : Todo) : Prop := b.CreatedAt ≤ a.CreatedAt

/-- A call at second 2000. -/
def laterAmbient : Ambient := { sampleAmbient with now := 2000 * Second }

/-- A second account, `u2u`, registered at second 1000. -/
def secondUser : User :=
  { sampleUser with ID := 2, Username := "u2u", Email := "u2@x.com", Fullname := "U Two" }

/-- A store with the two accounts `u1u` and `u2u`. -/
def twoUserWorld : World := { users := [sampleUser, secondUser], todos := [], outbox := [] }

/-- A second todo of account 1, created at second 1500 and completed. -/
def laterTodo : Todo :=
  { sampleTodo with ID := 2, Title := "Pay rent", Status := "completed"
                    CreatedAt := 1500 * Second, UpdatedAt := 1500 * Second }

/-- A todo of account 2. -/
def foreignTodo : Todo := { sampleTodo with ID := 3, Title := "Other", UserID := 2 }

/-- A store with two todos of account 1 and one of account 2. -/
def listWorld : World :=
  { users := [sampleUser, secondUser], todos := [sampleTodo, laterTodo, foreignTodo]
    outbox := [] }

/-- The store after the registration of the scenario at second 1000. -/
def registeredWorld : World :=
  (AuthService.Register sampleHasher sampleAmbient emptyWorld sampleRegister).2

/-- The store after a reset request, at second 1000, for the address of the
registered account. -/
def requestedWorld : World :=
  (AuthService.RequestPasswordReset sampleAmbient registeredWorld "u1@x.com" "8080").2

/-- The reset token written by that request. -/
def requestedToken : String := String.mk (rawURLEncode (randomBytes sampleAmbient))

/-- The context of a request on todo 1 by account 2, as it stands once the
caller id is stored under the key the todo handlers read. -/
def todoContext : Context :=
  { freshContext (mkRequest "GET" "/api/v1/todos/1" "" "") with
    Params := [("id", "1")], Keys := [("userID", .uint 2)] }

/-- The context of a request on todo 1 by its owner, account 1. -/
def ownerContext : Context :=
  { freshContext (mkRequest "PUT" "/api/v1/todos/1" "" "") with
    Params := [("id", "1")], Keys := [("userID", .uint 1)] }

/-- The body of `utils.GenerateToken` with the signing method as a parameter;
the program passes `jwt.SigningMethodES256`. -/
def GenerateTokenWith (method : SigningMethod) (J : JWT) (environ : Environ) (now : Time)
    (UserID : Nat) (username : String) : Except Error String :=
  let expTime := now + 24 * Hour
  let claims : Claims :=
    { UserID := UserID
      Username := username
      ExpiresAt := some (NewNumericDate expTime)
      NotBefore := none
      IssuedAt := some (NewNumericDate now) }
  let cfg := LoadConfig environ
  match SignedString J method claims cfg.JWTSecret with
  | .error err => .error err
  | .ok tokenString => .ok tokenString

/-- The body of `AuthService.Login` with the signing method of the token issuer as a
parameter: with ES256, the method the program passes, this is `Login`; with a
method of the HMAC family the issuer returns a token and the response is
built. -/
def AuthService.LoginWith (method : SigningMethod) (J : JWT) (H : Hasher) (environ : Environ)
    (amb : Ambient) (w : World) (req : LoginRequest) : Except Error LoginResponse :=
  match UserRepository.FindByUsername w req.Username with
  | .error err => .error (.wrap "failed to find user" err)
  | .ok none => .error .ErrInvalidCredentials
  | .ok (some user) =>
    if !H.CheckPassword req.Password user.Password then .error .ErrInvalidCredentials
    else
      match GenerateTokenWith method J environ amb.now user.ID user.Username with
      | .error err => .error (.wrap "failed to generate token" err)
      | .ok token => .ok { Token := token, User := AuthService.toUserResponse user }

/-! ## Properties of the token issuer and validator -/

/-- Token issuance fails on every input: ES256 does not sign with a byte-string key. -/
theorem GenerateToken_error (J : JWT) (environ : Environ) (now : Time) (UserID : Nat)
    (username : String) :
    GenerateToken J environ now UserID username = .error .ErrInvalidKeyType := rfl

/-- C1 (code defect): `GenerateToken` selects the ECDSA method ES256 and signs
with the byte-string secret, which that method rejects, so for every account id
and username it returns the invalid-key-type error and no token at all; there
is no issued token for `ValidateToken` to accept. -/
theorem GenerateToken_always_fails (J : JWT) (environ : Environ) (now : Time) (UserID : Nat)
    (username : String) :
    GenerateToken J environ now UserID username = .error .ErrInvalidKeyType := by
  rfl

/-- What an accepted token string must be: well-formed, of an HMAC method,
signed with the configured secret, and passing the time checks; the claims
returned are the ones it carries. -/
theorem ValidateToken_ok_inv (J : JWT) (environ : Environ) (now : Time) (tokenString : String)
    (claims : Claims) (h : ValidateToken J environ now tokenString = .ok claims) :
    ∃ token method, J.parseUnverified tokenString = some token
      ∧ token.Method = some method ∧ method.isHMAC = true
      ∧ token.Signature = J.hmac method (LoadConfig environ).JWTSecret token.SigningString
      ∧ validateClaims now token.Claims = .ok () ∧ claims = token.Claims := by
  unfold ValidateToken ParseWithClaims at h
  cases hp : J.parseUnverified tokenString with
  | none => simp [hp] at h
  | some token =>
    cases hmeth : token.Method with
    | none => simp [hp, hmeth] at h
    | some method =>
      by_cases hsig : token.Signature =
          J.hmac method (LoadConfig environ).JWTSecret token.SigningString
      · cases hv : validateClaims now token.Claims with
        | error err =>
          cases method <;> simp [hp, hmeth, SigningMethod.isHMAC, Verify, hv, ← hsig] at h
        | ok u =>
          refine ⟨token, method, rfl, hmeth, ?_, hsig, hv, ?_⟩
          · cases method <;> simp [hp, hmeth, SigningMethod.isHMAC] at h ⊢
          · cases method <;>
              simp [hp, hmeth, SigningMethod.isHMAC, Verify, hv, ← hsig] at h <;>
              exact h.symm
      · cases method <;> simp [hp, hmeth, SigningMethod.isHMAC, Verify, hsig] at h

/-- The bytes of a secret followed by a zero byte. -/
theorem keyBytes_push_zero (key : String) :
    keyBytes (key.push (Char.ofNat 0)) = keyBytes key ++ [0] := by
  unfold keyBytes
  rw [String.toList, String.data_push, List.flatMap_append]
  rfl

/-- HMAC does not tell a secret shorter than a block from the same secret
followed by a zero byte: both are padded to the same key block. -/
theorem hmac_zero_padded (J : JWT) (method : SigningMethod) (key message : String)
    (h : (keyBytes key).length < method.blockSize) :
    J.hmac method (key.push (Char.ofNat 0)) message = J.hmac method key message := by
  have h1 : ¬ (keyBytes key).length > method.blockSize := by omega
  have h2 : ¬ (keyBytes key ++ [0]).length > method.blockSize := by
    rw [List.length_append, List.length_singleton]
    omega
  have hsplit : method.blockSize - (keyBytes key).length
      = (method.blockSize - (keyBytes key ++ [0]).length) + 1 := by
    rw [List.length_append, List.length_singleton]
    omega
  unfold JWT.hmac hmacKey
  rw [keyBytes_push_zero]
  simp only [h1, h2, if_false]
  rw [hsplit, List.replicate_succ, List.append_assoc, List.singleton_append]

/-- C3, counterexample: the configured secret followed by a zero byte is a
different secret, yet HMAC pads both to the same key block, so with every
library the two secrets give the same MAC of every message; the token `good`
carries the signature made with that other secret and `ValidateToken` accepts
it. -/
theorem ValidateToken_accepts_padded_secret :
    (LoadConfig sampleEnviron).JWTSecret = "your_super_secret_key"
      ∧ "your_super_secret_key".push (Char.ofNat 0) ≠ (LoadConfig sampleEnviron).JWTSecret
      ∧ (∀ (J : JWT) (message : String),
          J.hmac .HS256 ("your_super_secret_key".push (Char.ofNat 0)) message
            = J.hmac .HS256 "your_super_secret_key" message)
      ∧ sampleJWT.parseUnverified "good"
          = some { Method := some .HS256, Claims := sampleClaims, SigningString := "u1"
                   Signature := sampleJWT.hmac .HS256
                     ("your_super_secret_key".push (Char.ofNat 0)) "u1" }
      ∧ SignedWithOtherSecret sampleJWT sampleEnviron "good"
      ∧ ValidateToken sampleJWT sampleEnviron (1000 * Second) "good" = .ok sampleClaims :=
  ⟨rfl, by decide,
    fun J message => hmac_zero_padded J .HS256 "your_super_secret_key" message (by decide),
    rfl,
    ⟨_, .HS256, "your_super_secret_key".push (Char.ofNat 0), rfl, rfl, by decide,
      (hmac_zero_padded sampleJWT .HS256 "your_super_secret_key" "u1" (by decide)).symm⟩,
    rfl⟩

/-- C3 (amended): `ValidateToken` returns an error for every token signed with
a secret whose MAC of the signed text differs from the MAC under the
configured secret, for every token whose algorithm is outside the HMAC family,
and for every token whose expiry lies in the past. -/
theorem ValidateToken_rejects (J : JWT) (environ : Environ) (now : Time)
    (tokenString : String)
    (h : SignedWithDistinctMAC J environ tokenString ∨ AlgorithmNotHMAC J tokenString
      ∨ ExpiredAt J now tokenString) :
    ∃ err, ValidateToken J environ now tokenString = .error err := by
  cases hres : ValidateToken J environ now tokenString with
  | error err => exact ⟨err, rfl⟩
  | ok claims =>
    exfalso
    obtain ⟨token, method, hp, hm, hh, hsig, hv, _⟩ :=
      ValidateToken_ok_inv J environ now tokenString claims hres
    rcases h with ⟨token2, method2, secret, hp2, hm2, hsig2, hne⟩ | ⟨token2, hp2, hm2⟩
      | ⟨token2, exp, hp2, he, hlt⟩
    · rw [hp] at hp2
      cases hp2
      rw [hm] at hm2
      cases hm2
      exact hne (hsig2.symm.trans hsig)
    · rw [hp] at hp2
      cases hp2
      rw [hm2 method hm] at hh
      exact Bool.false_ne_true hh
    · rw [hp] at hp2
      cases hp2
      have hnot : ¬ now < exp := Nat.not_lt.mpr (Nat.le_of_lt hlt)
      simp [validateClaims, he, hnot] at hv

/-- Witness for C3: with the toy library, the token signed with the secret
`another_secret`, the ES256 token and the expired token are all rejected. -/
theorem ValidateToken_rejects_witness :
    (∃ err, ValidateToken sampleJWT sampleEnviron (1000 * Second) "forged" = .error err)
    ∧ (∃ err, ValidateToken sampleJWT sampleEnviron (1000 * Second) "ecdsa" = .error err)
    ∧ (∃ err, ValidateToken sampleJWT sampleEnviron (1000 * Second) "stale" = .error err) :=
  ⟨ValidateToken_rejects sampleJWT sampleEnviron (1000 * Second) "forged"
      (Or.inl ⟨_, .HS256, "another_secret", rfl, rfl, rfl, by decide⟩),
   ValidateToken_rejects sampleJWT sampleEnviron (1000 * Second) "ecdsa"
      (Or.inr (Or.inl ⟨_, rfl, fun method hm => by cases hm; rfl⟩)),
   ValidateToken_rejects sampleJWT sampleEnviron (1000 * Second) "stale"
      (Or.inr (Or.inr ⟨_, 1 * Second, rfl, rfl, by decide⟩))⟩

/-! ## Properties of the column checks -/

/-- A text that is not longer than its column is stored as it is. -/
theorem varchar_of_le (n : Nat) (s : String) (h : s.length ≤ n) : varchar n s = .ok s := by
  unfold varchar
  rw [if_pos h]

/-- The only error of a column assignment is a driver error. -/
theorem varchar_error_new (n : Nat) (s : String) (err : Error)
    (h : varchar n s = .error err) : ∃ msg, err = .new msg := by
  unfold varchar at h
  split at h
  · cases h
  · split at h
    · cases h
    · exact ⟨_, (Except.error.inj h).symm⟩

/-- A column of positive size stores the empty text exactly for the empty text. -/
theorem varchar_ok_empty_iff (n : Nat) (s t : String) (hn : 0 < n)
    (h : varchar n s = .ok t) : t = "" ↔ s = "" := by
  unfold varchar at h
  split at h
  · rw [Except.ok.inj h]
  · rename_i hlen
    have hlong : n < s.length := Nat.lt_of_not_le hlen
    have hs : s ≠ "" := by
      intro he
      rw [he] at hlong
      exact Nat.not_lt_zero _ hlong
    split at h
    · have ht : t = String.mk (s.toList.take n) := (Except.ok.inj h).symm
      have hne : t ≠ "" := by
        intro he
        rw [he] at ht
        have hlen2 := congrArg String.length ht
        have : (String.mk (s.toList.take n)).length = (s.toList.take n).length := rfl
        rw [this, List.length_take] at hlen2
        have h3 : s.toList.length = s.length := rfl
        rw [h3, Nat.min_eq_left (Nat.le_of_lt hlong)] at hlen2
        have h4 : ("" : String).length = 0 := rfl
        omega
      exact ⟨fun h1 => absurd h1 hne, fun h1 => absurd h1 hs⟩
    · cases h

/-- A user row whose texts are not longer than their columns is stored as it is. -/
theorem User.fit_of_le (user : User) (h1 : user.Username.length ≤ 50)
    (h2 : user.Email.length ≤ 50) (h3 : user.Fullname.length ≤ 100)
    (h4 : user.ResetPasswordToken.length ≤ 255) : user.fit = .ok user := by
  unfold User.fit
  rw [varchar_of_le _ _ h1, varchar_of_le _ _ h2, varchar_of_le _ _ h3, varchar_of_le _ _ h4]

/-- The only error of fitting a user row is a driver error. -/
theorem User.fit_error_new (user : User) (err : Error) (h : user.fit = .error err) :
    ∃ msg, err = .new msg := by
  unfold User.fit at h
  split at h
  · rename_i e he
    rw [← Except.error.inj h]
    exact varchar_error_new _ _ _ he
  · split at h
    · rename_i e he
      rw [← Except.error.inj h]
      exact varchar_error_new _ _ _ he
    · split at h
      · rename_i e he
        rw [← Except.error.inj h]
        exact varchar_error_new _ _ _ he
      · split at h
        · rename_i e he
          rw [← Except.error.inj h]
          exact varchar_error_new _ _ _ he
        · cases h

/-- Fitting a user row touches its four sized texts only, and its reset token
stays empty or non-empty as it was. -/
theorem User.fit_ok_fields (user row : User) (h : user.fit = .ok row) :
    row.ID = user.ID ∧ row.Password = user.Password
      ∧ row.ResetPasswordExpiry = user.ResetPasswordExpiry
      ∧ row.CreatedAt = user.CreatedAt ∧ row.UpdatedAt = user.UpdatedAt
      ∧ row.DeletedaT = user.DeletedaT
      ∧ (row.ResetPasswordToken = "" ↔ user.ResetPasswordToken = "") := by
  unfold User.fit at h
  split at h
  · cases h
  · split at h
    · cases h
    · split at h
      · cases h
      · split at h
        · cases h
        · rename_i token ht
          cases h
          exact ⟨rfl, rfl, rfl, rfl, rfl, rfl, varchar_ok_empty_iff 255 _ _ (by decide) ht⟩

/-- A todo row whose texts are not longer than their columns is stored as it is. -/
theorem Todo.fit_todo_of_le (todo : Todo) (h1 : todo.Title.length ≤ 200)
    (h2 : todo.Status.length ≤ 20) (h3 : todo.Priority.length ≤ 10) :
    todo.fit = .ok todo := by
  unfold Todo.fit
  rw [varchar_of_le _ _ h1, varchar_of_le _ _ h2, varchar_of_le _ _ h3]

/-- The only error of fitting a todo row is a driver error. -/
theorem Todo.fit_todo_error_new (todo : Todo) (err : Error) (h : todo.fit = .error err) :
    ∃ msg, err = .new msg := by
  unfold Todo.fit at h
  split at h
  · rename_i e he
    rw [← Except.error.inj h]
    exact varchar_error_new _ _ _ he
  · split at h
    · rename_i e he
      rw [← Except.error.inj h]
      exact varchar_error_new _ _ _ he
    · split at h
      · rename_i e he
        rw [← Except.error.inj h]
        exact varchar_error_new _ _ _ he
      · cases h

/-- The outcome of the insert of a todo: a driver error with the store as it
was, or the row is stored as the columns took it and the caller's copy is
returned with its fresh id, defaults and timestamps. -/
theorem TodoRepository.Create_todo_cases (now : Time) (w : World) (todo : Todo) :
    (∃ msg, TodoRepository.Create now w todo = (.error (.new msg), w))
      ∨ ∃ row, Todo.fit
            { todo with
              ID := nextID (w.todos.map Todo.ID)
              Status := if todo.Status = "" then "pending" else todo.Status
              Priority := if todo.Priority = "" then "medium" else todo.Priority
              CreatedAt := now
              UpdatedAt := now } = .ok row
          ∧ (∃ u ∈ w.users, u.ID = todo.UserID)
          ∧ TodoRepository.Create now w todo
            = (.ok { todo with
                     ID := nextID (w.todos.map Todo.ID)
                     Status := if todo.Status = "" then "pending" else todo.Status
                     Priority := if todo.Priority = "" then "medium" else todo.Priority
                     CreatedAt := now
                     UpdatedAt := now },
               { w with todos := w.todos ++ [row] }) := by
  unfold TodoRepository.Create
  simp only
  cases hfit : Todo.fit
      { todo with
        ID := nextID (w.todos.map Todo.ID)
        Status := if todo.Status = "" then "pending" else todo.Status
        Priority := if todo.Priority = "" then "medium" else todo.Priority
        CreatedAt := now
        UpdatedAt := now } with
  | error err =>
    left
    obtain ⟨msg, hmsg⟩ := Todo.fit_todo_error_new _ _ hfit
    exact ⟨msg, by rw [hmsg]⟩
  | ok row =>
    by_cases hfk : w.users.any (fun u => u.ID == todo.UserID) = true
    · right
      refine ⟨row, rfl, ?_, ?_⟩
      · obtain ⟨u, hu, hc⟩ := List.any_eq_true.mp hfk
        exact ⟨u, hu, by simpa using hc⟩
      · simp [hfk]
    · left
      refine ⟨"insert or update on table todos violates foreign key constraint fk_users_todos",
        ?_⟩
      simp only [hfk, Bool.not_false, if_true, Bool.false_eq_true]
      rfl

/-- The outcome of the insert of a user: an error with the store as it was, or
the row is stored as the columns took it, no stored row has its username or
email, and the caller's copy is returned with its fresh id and timestamps. -/
theorem UserRepository.Create_cases (now : Time) (w : World) (user : User) :
    (∃ err, UserRepository.Create now w user = (.error err, w))
      ∨ ∃ row, User.fit
            { user with
              ID := nextID (w.users.map User.ID), CreatedAt := now, UpdatedAt := now } = .ok row
          ∧ w.users.any (fun u => u.Username == row.Username || u.Email == row.Email) = false
          ∧ UserRepository.Create now w user
            = (.ok { user with
                     ID := nextID (w.users.map User.ID), CreatedAt := now, UpdatedAt := now },
               { w with users := w.users ++ [row] }) := by
  unfold UserRepository.Create
  simp only
  cases hfit : User.fit
      { user with ID := nextID (w.users.map User.ID), CreatedAt := now, UpdatedAt := now } with
  | error err =>
    left
    exact ⟨err, rfl⟩
  | ok row =>
    by_cases hc : w.users.any (fun u => u.Username == row.Username || u.Email == row.Email)
        = true
    · left
      exact ⟨uniqueViolation, by simp only [hc, if_true]⟩
    · right
      refine ⟨row, rfl, by simpa using hc, ?_⟩
      simp only [hc, Bool.false_eq_true, if_false]

/-! ## Properties of the store queries -/

/-- Among rows that all carry the same key, the least-key row is the first one. -/
theorem minByID_eq_head {α : Type} (ID : α → Nat) (n : Nat) :
    ∀ l : List α, (∀ x ∈ l, ID x = n) → minByID ID l = l.head?
  | [], _ => rfl
  | [x], _ => rfl
  | x :: y :: rest, h => by
    have ih := minByID_eq_head ID n (y :: rest) (fun z hz => h z (List.mem_cons_of_mem _ hz))
    have hx : ID x = n := h x (List.mem_cons_self _ _)
    have hy : ID y = n := h y (List.mem_cons_of_mem _ (List.mem_cons_self _ _))
    rw [minByID, ih]
    simp [hx, hy]

/-- The head of a filtered list is the first element that passes the filter. -/
theorem head_filter_eq_find {α : Type} (p : α → Bool) :
    ∀ l : List α, (l.filter p).head? = l.find? p
  | [] => rfl
  | x :: rest => by
    by_cases hx : p x = true
    · simp [List.filter, List.find?, hx]
    · have hx2 : p x = false := by simpa using hx
      simp [List.filter, List.find?, hx2, head_filter_eq_find p rest]

/-- A lookup by primary key returns the first live row with that key. -/
theorem FindByID_eq_find (w : World) (id : Nat) :
    TodoRepository.FindByID w id =
      match w.todos.find? (fun t => t.live && t.ID == id) with
      | none => .error .ErrRecordNotFound
      | some todo => .ok todo := by
  have hall : ∀ x ∈ w.todos.filter (fun t => t.live && t.ID == id), Todo.ID x = id := by
    intro x hx
    have := (List.mem_filter.mp hx).2
    simp at this
    exact this.2
  unfold TodoRepository.FindByID First
  rw [minByID_eq_head Todo.ID id _ hall, head_filter_eq_find]
  cases w.todos.find? (fun t => t.live && t.ID == id) <;> rfl

/-- The lookup by key finds the live item. -/
theorem FindByID_of_live (w : World) (todoID : Nat) (todo : Todo)
    (h : IsLiveItem w todoID todo) : TodoRepository.FindByID w todoID = .ok todo := by
  obtain ⟨hmem, hlive, hid, huniq⟩ := h
  rw [FindByID_eq_find]
  cases hf : w.todos.find? (fun t => t.live && t.ID == todoID) with
  | none =>
    have := List.find?_eq_none.mp hf todo hmem
    simp [hlive, hid] at this
  | some t =>
    have hp := List.find?_some hf
    simp at hp
    have : t = todo := huniq t (List.mem_of_find?_eq_some hf) hp.1 hp.2
    simp [this]

/-- The lookup by key fails when no live row carries the key. -/
theorem FindByID_of_absent (w : World) (todoID : Nat)
    (h : ∀ t ∈ w.todos, t.live = true → t.ID ≠ todoID) :
    TodoRepository.FindByID w todoID = .error .ErrRecordNotFound := by
  rw [FindByID_eq_find]
  have : w.todos.find? (fun t => t.live && t.ID == todoID) = none := by
    rw [List.find?_eq_none]
    intro t ht
    have := h t ht
    by_cases hl : t.live = true
    · simp [hl, this hl]
    · simp [hl]
  rw [this]

/-- The existence query on usernames holds exactly when a live row has the name. -/
theorem ExistsByUsername_eq (w : World) (username : String) :
    UserRepository.ExistsByUsername w username =
      .ok (decide (∃ u ∈ w.users, u.live = true ∧ u.Username = username)) := by
  unfold UserRepository.ExistsByUsername
  refine congrArg Except.ok (decide_eq_decide.mpr ?_)
  rw [gt_iff_lt, List.length_pos, ne_eq, List.filter_eq_nil_iff]
  simp

/-- The existence query on emails holds exactly when a live row has the email. -/
theorem ExistsByEmail_eq (w : World) (email : String) :
    UserRepository.ExistsByEmail w email =
      .ok (decide (∃ u ∈ w.users, u.live = true ∧ u.Email = email)) := by
  unfold UserRepository.ExistsByEmail
  refine congrArg Except.ok (decide_eq_decide.mpr ?_)
  rw [gt_iff_lt, List.length_pos, ne_eq, List.filter_eq_nil_iff]
  simp

/-! ## Properties of the workflows -/

/-- C2 (code defect): `Login` never succeeds, because the token issuer fails on
every input. After the registration of the scenario, the login with the same
username and password finds the account, verifies the password, and then
returns the wrapped invalid-key-type error instead of a token. -/
theorem Login_never_succeeds :
    (∀ (J : JWT) (H : Hasher) (environ : Environ) (amb : Ambient) (w : World)
        (req : LoginRequest) (resp : LoginResponse),
        AuthService.Login J H environ amb w req ≠ .ok resp)
    ∧ AuthService.Register sampleHasher sampleAmbient emptyWorld sampleRegister
        = (.ok (AuthService.toUserResponse sampleUser), { emptyWorld with users := [sampleUser] })
    ∧ sampleHasher.CheckPassword "pw123456" sampleUser.Password = true
    ∧ ∀ (J : JWT) (environ : Environ),
        AuthService.Login J sampleHasher environ sampleAmbient
            { emptyWorld with users := [sampleUser] }
            { Username := "u1u", Password := "pw123456" }
          = .error (.wrap "failed to generate token" .ErrInvalidKeyType) := by
  refine ⟨?_, ?_, ?_, ?_⟩
  · intro J H environ amb w req resp
    unfold AuthService.Login
    cases UserRepository.FindByUsername w req.Username with
    | error err => simp
    | ok found =>
      cases found with
      | none => simp
      | some user =>
        simp only [GenerateToken_error]
        split <;> simp
  · rfl
  · rfl
  · intro J environ
    rfl

/-- C6: `GetTodoByID` fails with `ErrTodoNotFound` when no live row has the id,
fails with `ErrUnauthorizedAccess` when the live item with that id has another
owner, and otherwise returns the stored item as it is. -/
theorem GetTodoByID_cases (w : World) (todoID userID : Nat) :
    ((∀ t ∈ w.todos, t.live = true → t.ID ≠ todoID) →
        TodoService.GetTodoByID w todoID userID = .error .ErrTodoNotFound)
    ∧ (∀ todo, IsLiveItem w todoID todo → todo.UserID ≠ userID →
        TodoService.GetTodoByID w todoID userID = .error .ErrUnauthorizedAccess)
    ∧ (∀ todo, IsLiveItem w todoID todo → todo.UserID = userID →
        TodoService.GetTodoByID w todoID userID = .ok todo) := by
  refine ⟨?_, ?_, ?_⟩
  · intro h
    simp [TodoService.GetTodoByID, FindByID_of_absent w todoID h, Error.Is]
  · intro todo h hne
    simp [TodoService.GetTodoByID, FindByID_of_live w todoID todo h, hne]
  · intro todo h heq
    simp [TodoService.GetTodoByID, FindByID_of_live w todoID todo h, heq]

/-- Witness for C6: in the sample store, todo 9 is not found, todo 1 is
refused to account 2 and returned to its owner, account 1. -/
theorem GetTodoByID_cases_witness :
    TodoService.GetTodoByID sampleWorld 9 1 = .error .ErrTodoNotFound
    ∧ TodoService.GetTodoByID sampleWorld 1 2 = .error .ErrUnauthorizedAccess
    ∧ TodoService.GetTodoByID sampleWorld 1 1 = .ok sampleTodo :=
  have hlive : IsLiveItem sampleWorld 1 sampleTodo :=
    ⟨by simp [sampleWorld], rfl, rfl, by simp [sampleWorld]⟩
  ⟨(GetTodoByID_cases sampleWorld 9 1).1 (by simp [sampleWorld, sampleTodo]),
   (GetTodoByID_cases sampleWorld 1 2).2.1 sampleTodo hlive (by decide),
   (GetTodoByID_cases sampleWorld 1 1).2.2 sampleTodo hlive rfl⟩

/-- C7: when account A owns the live item, every other account B is refused
with `ErrUnauthorizedAccess` by `GetTodoByID`, by `UpdateTodo` with any request
and by `DeleteTodo`, and the store is left exactly as it was. -/
theorem other_account_is_refused (w : World) (todoID A B : Nat) (todo : Todo)
    (hitem : IsLiveItem w todoID todo) (howner : todo.UserID = A) (hB : B ≠ A) :
    TodoService.GetTodoByID w todoID B = .error .ErrUnauthorizedAccess
    ∧ (∀ (amb : Ambient) (req : UpdateTodoRequest),
        TodoService.UpdateTodo amb w todoID B req = (.error .ErrUnauthorizedAccess, w))
    ∧ (∀ amb : Ambient,
        TodoService.DeleteTodo amb w todoID B = (.error .ErrUnauthorizedAccess, w)) := by
  have hne : todo.UserID ≠ B := by
    rw [howner]
    exact fun h => hB h.symm
  have hget : TodoService.GetTodoByID w todoID B = .error .ErrUnauthorizedAccess := by
    simp [TodoService.GetTodoByID, FindByID_of_live w todoID todo hitem, hne]
  refine ⟨hget, ?_, ?_⟩
  · intro amb req
    simp [TodoService.UpdateTodo, hget]
  · intro amb
    simp [TodoService.DeleteTodo, hget]

/-- Witness for C7: account 2 on todo 1 of account 1 in the sample store. -/
theorem other_account_is_refused_witness :
    TodoService.GetTodoByID sampleWorld 1 2 = .error .ErrUnauthorizedAccess
    ∧ (∀ (amb : Ambient) (req : UpdateTodoRequest),
        TodoService.UpdateTodo amb sampleWorld 1 2 req
          = (.error .ErrUnauthorizedAccess, sampleWorld))
    ∧ (∀ amb : Ambient,
        TodoService.DeleteTodo amb sampleWorld 1 2
          = (.error .ErrUnauthorizedAccess, sampleWorld)) :=
  other_account_is_refused sampleWorld 1 1 2 sampleTodo
    ⟨by simp [sampleWorld], rfl, rfl, by simp [sampleWorld]⟩ rfl (by decide)

/-- C9: `Register` fails with `ErrUserExists` whenever a live account has the
username, whether or not the email is taken too, fails with `ErrEmailExists`
when the username is free and a live account has the email, and in both cases
leaves the store as it was. -/
theorem Register_rejects_duplicates (H : Hasher) (amb : Ambient) (w : World)
    (req : RegisterRequest) :
    ((∃ u ∈ w.users, u.live = true ∧ u.Username = req.Username) →
        AuthService.Register H amb w req = (.error .ErrUserExists, w))
    ∧ ((∀ u ∈ w.users, u.live = true → u.Username ≠ req.Username) →
        (∃ u ∈ w.users, u.live = true ∧ u.Email = req.Email) →
        AuthService.Register H amb w req = (.error .ErrEmailExists, w)) := by
  refine ⟨?_, ?_⟩
  · intro h
    simp [AuthService.Register, ExistsByUsername_eq, h]
  · intro hfree h
    have hno : ¬ ∃ u ∈ w.users, u.live = true ∧ u.Username = req.Username := by
      rintro ⟨u, hu, hl, hn⟩
      exact hfree u hu hl hn
    simp [AuthService.Register, ExistsByUsername_eq, ExistsByEmail_eq, hno, h]

/-- Witness for C9: against the sample store, a registration with the taken
username (and the taken email) and one with a free username and the taken
email. -/
theorem Register_rejects_duplicates_witness :
    AuthService.Register sampleHasher sampleAmbient sampleWorld sampleRegister
        = (.error .ErrUserExists, sampleWorld)
    ∧ AuthService.Register sampleHasher sampleAmbient sampleWorld
        { Username := "u2u", Email := "u1@x.com", Password := "pw123456", FullName := "U Two" }
        = (.error .ErrEmailExists, sampleWorld) :=
  ⟨(Register_rejects_duplicates sampleHasher sampleAmbient sampleWorld sampleRegister).1
      ⟨sampleUser, by simp [sampleWorld], rfl, rfl⟩,
   (Register_rejects_duplicates sampleHasher sampleAmbient sampleWorld
      { Username := "u2u", Email := "u1@x.com", Password := "pw123456", FullName := "U Two" }).2
      (by simp [sampleWorld, sampleUser])
      ⟨sampleUser, by simp [sampleWorld], rfl, rfl⟩⟩

/-! ## Properties of the request boundary -/

/-- C5 (code defect): `AuthMiddleware` stores the caller id under the key
`userID`, `GetUserID` reads the key `user_id`; on the context of any request
the middleware has handled, `GetUserID` is therefore 0 whatever the claims
carry. With the valid token of account 1, the middleware accepts the request
and stores id 1, yet `GetUserID` yields 0 and `GetProfile` answers 404 instead
of the profile of account 1. -/
theorem GetUserID_ignores_claims :
    (∀ (D : Deps) (amb : Ambient) (req : Request) (w : World),
        GetUserID (AuthMiddleware D amb (freshContext req) w).1 = 0)
    ∧ ValidateToken sampleJWT sampleEnviron sampleAmbient.now "good" = .ok sampleClaims
    ∧ (AuthMiddleware sampleDeps sampleAmbient
          (freshContext (mkRequest "GET" "/api/v1/users/profile" "Bearer good" "")) sampleWorld).1.Get
        "userID" = some (.uint 1)
    ∧ GetUserID (AuthMiddleware sampleDeps sampleAmbient
          (freshContext (mkRequest "GET" "/api/v1/users/profile" "Bearer good" ""))
          sampleWorld).1 = 0
    ∧ (runChain sampleDeps sampleAmbient [AuthMiddleware, UserHandler.GetProfile]
          (freshContext (mkRequest "GET" "/api/v1/users/profile" "Bearer good" ""))
          sampleWorld).1.response
        = { Status := 404, Body := errorBody "user not found" "" } := by
  refine ⟨?_, rfl, rfl, rfl, rfl⟩
  intro D amb req w
  unfold AuthMiddleware
  simp only [freshContext, Context.GetHeaderAuthorization]
  split
  · rfl
  · split
    · split
      · rfl
      · split <;> rfl
    · rfl

/-- C10 (code defect): the register handler maps only `ErrUserExists` to
status 400. A registration with a free username and the email of an existing
account is rejected by the workflow with `ErrEmailExists` and answered with
status 500 and the generic message, while the same handler answers a taken
username with status 400. -/
theorem Register_email_taken_is_500 :
    AuthService.Register sampleHasher sampleAmbient sampleWorld
        { Username := "u2u", Email := "u1@x.com", Password := "pw123456", FullName := "U Two" }
      = (.error .ErrEmailExists, sampleWorld)
    ∧ (UserHandler.Register sampleDeps sampleAmbient
          (freshContext (mkRequest "POST" "/api/v1/auth/register" "" "register-u2-same-email"))
          sampleWorld).1.response
        = { Status := 500, Body := errorBody "Failed to register user" "" }
    ∧ (UserHandler.Register sampleDeps sampleAmbient
          (freshContext (mkRequest "POST" "/api/v1/auth/register" "" "register-u1-again"))
          sampleWorld).1.response
        = { Status := 400, Body := errorBody "username already exists" "" } := by
  refine ⟨rfl, rfl, rfl⟩

/-- C4 (code defect): `SetupRoutes` installs `AuthMiddleware` on no group, so
the chain of every route is the route handler alone. A request to
`GET /api/v1/users/profile` without an `Authorization` header reaches
`GetProfile` and is answered 404 (user not found), not 401; the same holds
with a header that is not a bearer header. -/
theorem protected_routes_run_without_auth :
    router.all (fun route => decide (route.Handlers.length = 1)) = true
    ∧ (∀ (D : Deps) (amb : Ambient),
        ServeHTTP router D amb emptyWorld (mkRequest "GET" "/api/v1/users/profile" "" "")
          = ({ Status := 404, Body := errorBody "user not found" "" }, emptyWorld))
    ∧ (∀ (D : Deps) (amb : Ambient),
        ServeHTTP router D amb emptyWorld
            (mkRequest "GET" "/api/v1/users/profile" "Basic dXNlcjpwdw" "")
          = ({ Status := 404, Body := errorBody "user not found" "" }, emptyWorld)) := by
  refine ⟨rfl, ?_, ?_⟩
  · intro D amb
    rfl
  · intro D amb
    rfl

/-- C8 (code defect): on the router built by `SetupRoutes`, `POST /api/v1/todos`
is answered 401 whatever the `Authorization` header and the body are, because
nothing stores the caller id the handler looks for; this includes the request
that carries the valid token of account 1 and the body of the scenario. -/
theorem create_todo_is_always_401 :
    (∀ (D : Deps) (amb : Ambient) (w : World) (authorization body : String),
        ServeHTTP router D amb w (mkRequest "POST" "/api/v1/todos" authorization body)
          = ({ Status := 401, Body := errorBody "Unauthorized" "User ID not found in context" },
             w))
    ∧ ValidateToken sampleJWT sampleEnviron sampleAmbient.now "good" = .ok sampleClaims
    ∧ sampleBinder.decodeCreateTodo "milk"
        = .ok { Title := "Buy milk", Description := "", Status := "pending", Priority := "low"
                DueDate := "" }
    ∧ ServeHTTP router sampleDeps sampleAmbient sampleWorld
          (mkRequest "POST" "/api/v1/todos" "Bearer good" "milk")
        = ({ Status := 401, Body := errorBody "Unauthorized" "User ID not found in context" },
           sampleWorld) := by
  refine ⟨?_, rfl, rfl, rfl⟩
  intro D amb w authorization body
  rfl

/-! ## Properties of the store queries on accounts -/

/-- The query `First` returns the one row that satisfies the condition. -/
theorem First_of_unique {α : Type} (ID : α → Nat) (rows : List α) (cond : α → Bool) (row : α)
    (hmem : row ∈ rows) (hc : cond row = true)
    (huniq : ∀ x ∈ rows, cond x = true → x = row) : First ID rows cond = .ok row := by
  have hall : ∀ x ∈ rows.filter cond, ID x = ID row := by
    intro x hx
    have hx2 := List.mem_filter.mp hx
    rw [huniq x hx2.1 hx2.2]
  unfold First
  rw [minByID_eq_head ID (ID row) _ hall, head_filter_eq_find]
  cases hf : rows.find? cond with
  | none =>
    have := List.find?_eq_none.mp hf row hmem
    exact absurd hc this
  | some x =>
    have : x = row := huniq x (List.mem_of_find?_eq_some hf) (List.find?_some hf)
    simp [this]

/-- The query `First` reports `ErrRecordNotFound` when no row satisfies the condition. -/
theorem First_of_none {α : Type} (ID : α → Nat) (rows : List α) (cond : α → Bool)
    (h : ∀ x ∈ rows, cond x = false) : First ID rows cond = .error .ErrRecordNotFound := by
  have : rows.filter cond = [] := by
    rw [List.filter_eq_nil_iff]
    intro x hx
    simp [h x hx]
  unfold First
  rw [this]
  rfl

/-- The lookup by username finds the live account. -/
theorem FindByUsername_of_live (w : World) (username : String) (user : User)
    (h : IsLiveAccount w username user) :
    UserRepository.FindByUsername w username = .ok (some user) := by
  obtain ⟨hmem, hlive, hname, huniq⟩ := h
  unfold UserRepository.FindByUsername
  rw [First_of_unique User.ID w.users _ user hmem (by simp [hlive, hname])
    (fun x hx hc => by
      simp at hc
      exact huniq x hx hc.1 hc.2)]

/-- The lookup by username finds nothing when no live account has the name. -/
theorem FindByUsername_of_absent (w : World) (username : String)
    (h : ∀ u ∈ w.users, u.live = true → u.Username ≠ username) :
    UserRepository.FindByUsername w username = .ok none := by
  unfold UserRepository.FindByUsername
  rw [First_of_none User.ID w.users _ (fun x hx => by
    by_cases hl : x.live = true
    · simp [hl, h x hx hl]
    · simp [hl])]
  rfl

/-- The lookup by reset token finds the holder of the token. -/
theorem FindByResetToken_of_holder (w : World) (token : String) (user : User)
    (h : IsTokenHolder w token user) :
    UserRepository.FindByResetToken w token = .ok (some user) := by
  obtain ⟨hmem, hlive, htok, huniq⟩ := h
  unfold UserRepository.FindByResetToken
  rw [First_of_unique User.ID w.users _ user hmem (by simp [hlive, htok])
    (fun x hx hc => by
      simp at hc
      exact huniq x hx hc.1 hc.2)]

/-- The lookup by reset token finds nothing when no live account holds it. -/
theorem FindByResetToken_of_absent (w : World) (token : String)
    (h : ∀ u ∈ w.users, u.live = true → u.ResetPasswordToken ≠ token) :
    UserRepository.FindByResetToken w token = .ok none := by
  unfold UserRepository.FindByResetToken
  rw [First_of_none User.ID w.users _ (fun x hx => by
    by_cases hl : x.live = true
    · simp [hl, h x hx hl]
    · simp [hl])]
  rfl

/-! ## Properties of login and password reset -/

/-- C11: `Login` returns the same error, `ErrInvalidCredentials`, when no live
account has the username and when the account with the username has a stored
hash that the password does not verify against; either way the result is an
error and carries no token. -/
theorem Login_invalid_credentials (J : JWT) (H : Hasher) (environ : Environ) (amb : Ambient)
    (w : World) (req : LoginRequest) :
    ((∀ u ∈ w.users, u.live = true → u.Username ≠ req.Username) →
        AuthService.Login J H environ amb w req = .error .ErrInvalidCredentials)
    ∧ (∀ user, IsLiveAccount w req.Username user →
        H.CheckPassword req.Password user.Password = false →
        AuthService.Login J H environ amb w req = .error .ErrInvalidCredentials) := by
  refine ⟨?_, ?_⟩
  · intro h
    simp [AuthService.Login, FindByUsername_of_absent w req.Username h]
  · intro user h hpw
    simp [AuthService.Login, FindByUsername_of_live w req.Username user h, hpw]

/-- Witness for C11: against the sample store, an unknown username and the
known username with a wrong password get the same error. -/
theorem Login_invalid_credentials_witness :
    AuthService.Login sampleJWT sampleHasher sampleEnviron sampleAmbient sampleWorld
        { Username := "nobody", Password := "pw123456" } = .error .ErrInvalidCredentials
    ∧ AuthService.Login sampleJWT sampleHasher sampleEnviron sampleAmbient sampleWorld
        { Username := "u1u", Password := "wrong" } = .error .ErrInvalidCredentials :=
  ⟨(Login_invalid_credentials sampleJWT sampleHasher sampleEnviron sampleAmbient sampleWorld
      { Username := "nobody", Password := "pw123456" }).1
      (by simp [sampleWorld, sampleUser]),
   (Login_invalid_credentials sampleJWT sampleHasher sampleEnviron sampleAmbient sampleWorld
      { Username := "u1u", Password := "wrong" }).2 sampleUser
      ⟨by simp [sampleWorld], rfl, rfl, by simp [sampleWorld]⟩ rfl⟩

/-- C12: when the account found for the token has no expiry, or an expiry
earlier than the current time, `ResetPassword` fails with the error
"reset token expired or invalid" and returns the store as it was, so the
password hash, the reset token and the expiry of the account are unchanged. -/
theorem ResetPassword_expired (H : Hasher) (amb : Ambient) (w : World)
    (token newPassword : String) (user : User)
    (hfound : UserRepository.FindByResetToken w token = .ok (some user))
    (hexp : user.ResetPasswordExpiry = none
      ∨ ∃ expiry, user.ResetPasswordExpiry = some expiry ∧ expiry < amb.now) :
    AuthService.ResetPassword H amb w token newPassword
      = (.error (.new "reset token expired or invalid"), w) := by
  rcases hexp with hnone | ⟨expiry, hsome, hlt⟩
  · simp [AuthService.ResetPassword, hfound, hnone]
  · simp [AuthService.ResetPassword, hfound, hsome, hlt]

/-- Witness for C12: the token `tok` that expired at second 1, confirmed at
second 1000. -/
theorem ResetPassword_expired_witness :
    AuthService.ResetPassword sampleHasher sampleAmbient expiredWorld "tok" "newpw123"
      = (.error (.new "reset token expired or invalid"), expiredWorld) :=
  ResetPassword_expired sampleHasher sampleAmbient expiredWorld "tok" "newpw123" expiredUser
    rfl (Or.inr ⟨1 * Second, rfl, by decide⟩)

/-! ## Properties of the todo workflow -/

/-- The status check accepts exactly the three enumerated values. -/
theorem isValidStatus_iff (status : String) :
    isValidStatus status = true
      ↔ status = "pending" ∨ status = "in_progress" ∨ status = "completed" := by
  simp [isValidStatus, or_assoc]

/-- The priority check accepts exactly the three enumerated values. -/
theorem isValidPriority_iff (priority : String) :
    isValidPriority priority = true
      ↔ priority = "low" ∨ priority = "medium" ∨ priority = "high" := by
  simp [isValidPriority, or_assoc]

/-- A valid status is not the empty string. -/
theorem isValidStatus_ne_empty (status : String) (h : isValidStatus status = true) :
    status ≠ "" := by
  rcases (isValidStatus_iff status).mp h with h | h | h <;> rw [h] <;> decide

/-- A valid priority is not the empty string. -/
theorem isValidPriority_ne_empty (priority : String) (h : isValidPriority priority = true) :
    priority ≠ "" := by
  rcases (isValidPriority_iff priority).mp h with h | h | h <;> rw [h] <;> decide

/-- The outcome of `CreateTodo` for valid status and priority: it fails on the
due date or in the store, with an error that is neither enumeration error and
with the store as it was, or it stores the item. -/
theorem CreateTodo_valid_enums (amb : Ambient) (w : World) (userID : Nat)
    (req : CreateTodoRequest) (hs : isValidStatus req.Status = true)
    (hp : isValidPriority req.Priority = true) :
    (∃ msg, TodoService.CreateTodo amb w userID req = (.error (.new msg), w))
      ∨ ∃ todo, (TodoService.CreateTodo amb w userID req).1 = .ok todo := by
  have fin : ∀ todo : Todo,
      (∃ msg, (match TodoRepository.Create amb.now w todo with
          | (.error err, w1) => ((.error err : Except Error Todo), w1)
          | (.ok created, w1) => (.ok created, w1)) = (.error (.new msg), w))
        ∨ ∃ t, (match TodoRepository.Create amb.now w todo with
          | (.error err, w1) => ((.error err : Except Error Todo), w1)
          | (.ok created, w1) => (.ok created, w1)).1 = .ok t := by
    intro todo
    rcases TodoRepository.Create_todo_cases amb.now w todo with ⟨msg, h⟩ | ⟨row, _, _, h⟩
    · left
      exact ⟨msg, by rw [h]⟩
    · right
      exact ⟨_, by rw [h]⟩
  unfold TodoService.CreateTodo
  simp only [hs, hp, Bool.not_true, Bool.false_eq_true, if_false]
  by_cases hd : req.DueDate = ""
  · simp only [hd, ne_eq, not_true_eq_false, if_false]
    exact fin _
  · cases hparse : parseDate req.DueDate with
    | error err =>
      left
      exact ⟨"invalid date format, use YYYY-MM-DD", by simp [hd, hparse, errInvalidDate]⟩
    | ok date =>
      simp only [hd, ne_eq, not_false_eq_true, if_true]
      exact fin _

/-- C16: `CreateTodo` fails with `ErrInvalidStatus` exactly when the status is
not one of pending, in_progress, completed; when the status is one of them it
fails with `ErrInvalidPriority` exactly when the priority is not one of low,
medium, high; in both failures the store is returned as it was. -/
theorem CreateTodo_enum_checks (amb : Ambient) (w : World) (userID : Nat)
    (req : CreateTodoRequest) :
    (¬ (req.Status = "pending" ∨ req.Status = "in_progress" ∨ req.Status = "completed") →
        TodoService.CreateTodo amb w userID req = (.error .ErrInvalidStatus, w))
    ∧ ((req.Status = "pending" ∨ req.Status = "in_progress" ∨ req.Status = "completed") →
        ¬ (req.Priority = "low" ∨ req.Priority = "medium" ∨ req.Priority = "high") →
        TodoService.CreateTodo amb w userID req = (.error .ErrInvalidPriority, w))
    ∧ ((TodoService.CreateTodo amb w userID req).1 = .error .ErrInvalidStatus →
        ¬ (req.Status = "pending" ∨ req.Status = "in_progress" ∨ req.Status = "completed"))
    ∧ ((TodoService.CreateTodo amb w userID req).1 = .error .ErrInvalidPriority →
        (req.Status = "pending" ∨ req.Status = "in_progress" ∨ req.Status = "completed")
          ∧ ¬ (req.Priority = "low" ∨ req.Priority = "medium" ∨ req.Priority = "high")) := by
  have hbadS : isValidStatus req.Status = false →
      TodoService.CreateTodo amb w userID req = (.error .ErrInvalidStatus, w) := by
    intro h
    simp [TodoService.CreateTodo, h]
  have hbadP : isValidStatus req.Status = true → isValidPriority req.Priority = false →
      TodoService.CreateTodo amb w userID req = (.error .ErrInvalidPriority, w) := by
    intro h1 h2
    simp [TodoService.CreateTodo, h1, h2]
  refine ⟨?_, ?_, ?_, ?_⟩
  · intro h
    apply hbadS
    rw [← Bool.not_eq_true, isValidStatus_iff]
    exact h
  · intro h1 h2
    apply hbadP ((isValidStatus_iff _).mpr h1)
    rw [← Bool.not_eq_true, isValidPriority_iff]
    exact h2
  · intro hres hs
    have hs2 := (isValidStatus_iff _).mpr hs
    cases hp : isValidPriority req.Priority with
    | false =>
      rw [hbadP hs2 hp] at hres
      cases hres
    | true =>
      rcases CreateTodo_valid_enums amb w userID req hs2 hp with ⟨msg, h⟩ | ⟨todo, h⟩
      · rw [h] at hres
        cases hres
      · rw [h] at hres
        cases hres
  · intro hres
    cases hs : isValidStatus req.Status with
    | false =>
      rw [hbadS hs] at hres
      cases hres
    | true =>
      refine ⟨(isValidStatus_iff _).mp hs, ?_⟩
      intro hp
      have hp2 := (isValidPriority_iff _).mpr hp
      rcases CreateTodo_valid_enums amb w userID req hs hp2 with ⟨msg, h⟩ | ⟨todo, h⟩
      · rw [h] at hres
        cases hres
      · rw [h] at hres
        cases hres

/-- Witness for C16: the status `bogus` is refused first, then the priority
`urgent`, and the sample store is unchanged. -/
theorem CreateTodo_enum_checks_witness :
    TodoService.CreateTodo sampleAmbient sampleWorld 1
        { Title := "Buy milk", Description := "", Status := "bogus", Priority := "urgent"
          DueDate := "" } = (.error .ErrInvalidStatus, sampleWorld)
    ∧ TodoService.CreateTodo sampleAmbient sampleWorld 1
        { Title := "Buy milk", Description := "", Status := "pending", Priority := "urgent"
          DueDate := "" } = (.error .ErrInvalidPriority, sampleWorld) :=
  ⟨(CreateTodo_enum_checks sampleAmbient sampleWorld 1
      { Title := "Buy milk", Description := "", Status := "bogus", Priority := "urgent"
        DueDate := "" }).1 (by decide),
   (CreateTodo_enum_checks sampleAmbient sampleWorld 1
      { Title := "Buy milk", Description := "", Status := "pending", Priority := "urgent"
        DueDate := "" }).2.1 (by decide) (by decide)⟩

set_option maxRecDepth 8000 in
/-- C18, counterexample: in the sample store, which holds account 1 only, the
todo of the scenario created for the owner id 9 is refused by the foreign key
of the todo table, and a todo of account 1 with a title of 201 characters is
refused by the title column; both requests have valid status and priority and
no due date, and nothing is persisted. -/
theorem CreateTodo_refused_by_store :
    TodoService.CreateTodo sampleAmbient sampleWorld 9
        { Title := "Buy milk", Description := "", Status := "pending", Priority := "low"
          DueDate := "" } = (.error foreignKeyViolation, sampleWorld)
    ∧ TodoService.CreateTodo sampleAmbient sampleWorld 1
        { Title := String.mk (List.replicate 201 'a'), Description := "", Status := "pending"
          Priority := "low", DueDate := "" } = (.error (valueTooLong 200), sampleWorld)
    ∧ isValidStatus "pending" = true ∧ isValidPriority "low" = true
    ∧ sampleWorld.users.map User.ID = [1]
    ∧ (String.mk (List.replicate 201 'a')).length = 201 :=
  ⟨rfl, rfl, rfl, rfl, rfl, rfl⟩

/-- C18 (amended): for a request with valid status and priority, a due date
that is absent or well-formed and a title of at most 200 characters, made for
a `userID` that is the id of a row of the user table, `CreateTodo` appends one
item to the todo table and returns it; the item is owned by the `userID`
argument, carries the title, description, status and priority of the request,
and its due date is the parsed date, or null when the request has none. -/
theorem CreateTodo_persists (amb : Ambient) (w : World) (userID : Nat)
    (req : CreateTodoRequest) (hs : isValidStatus req.Status = true)
    (hp : isValidPriority req.Priority = true)
    (hd : req.DueDate = "" ∨ ∃ date, parseDate req.DueDate = .ok date)
    (htitle : req.Title.length ≤ 200) (howner : ∃ u ∈ w.users, u.ID = userID) :
    ∃ created w1, TodoService.CreateTodo amb w userID req = (.ok created, w1)
      ∧ w1.todos = w.todos ++ [created] ∧ w1.users = w.users
      ∧ created.UserID = userID ∧ created.Title = req.Title
      ∧ created.Description = req.Description ∧ created.Status = req.Status
      ∧ created.Priority = req.Priority ∧ created.DeletedAt = none
      ∧ created.DueDate
          = (if req.DueDate = "" then none else (parseDate req.DueDate).toOption) := by
  have hs2 := isValidStatus_ne_empty _ hs
  have hp2 := isValidPriority_ne_empty _ hp
  have hslen : req.Status.length ≤ 20 := by
    rcases (isValidStatus_iff _).mp hs with h | h | h <;> rw [h] <;> decide
  have hplen : req.Priority.length ≤ 10 := by
    rcases (isValidPriority_iff _).mp hp with h | h | h <;> rw [h] <;> decide
  have hfk : w.users.any (fun u => u.ID == userID) = true := by
    obtain ⟨u, hu, hid⟩ := howner
    exact List.any_eq_true.mpr ⟨u, hu, by simp [hid]⟩
  have hcreate : ∀ dueDate : Option Date,
      TodoRepository.Create amb.now w
          { ID := 0, Title := req.Title, Description := req.Description
            Status := req.Status, Priority := req.Priority, DueDate := dueDate
            UserID := userID, CreatedAt := 0, UpdatedAt := 0, DeletedAt := none }
        = (.ok { ID := nextID (w.todos.map Todo.ID), Title := req.Title
                 Description := req.Description, Status := req.Status
                 Priority := req.Priority, DueDate := dueDate, UserID := userID
                 CreatedAt := amb.now, UpdatedAt := amb.now, DeletedAt := none },
           { w with todos := w.todos ++
              [{ ID := nextID (w.todos.map Todo.ID), Title := req.Title
                 Description := req.Description, Status := req.Status
                 Priority := req.Priority, DueDate := dueDate, UserID := userID
                 CreatedAt := amb.now, UpdatedAt := amb.now, DeletedAt := none }] }) := by
    intro dueDate
    unfold TodoRepository.Create
    simp only [hs2, hp2, if_false]
    rw [Todo.fit_todo_of_le _ htitle hslen hplen]
    simp only [hfk, Bool.not_true, Bool.false_eq_true, if_false]
  unfold TodoService.CreateTodo
  simp only [hs, hp, Bool.not_true, Bool.false_eq_true, if_false]
  by_cases hempty : req.DueDate = ""
  · simp only [hempty, ne_eq, not_true_eq_false, if_false, hcreate, if_true]
    exact ⟨_, _, rfl, rfl, rfl, rfl, rfl, rfl, rfl, rfl, rfl, rfl⟩
  · rcases hd with hd | ⟨date, hd⟩
    · exact absurd hd hempty
    · simp only [hempty, ne_eq, not_false_eq_true, if_true, hd, hcreate, if_false,
        Except.toOption]
      exact ⟨_, _, rfl, rfl, rfl, rfl, rfl, rfl, rfl, rfl, rfl, rfl⟩

/-- Witness for C18: the todo of the scenario, due on 2024-02-29, created by
account 1 in the sample store. -/
theorem CreateTodo_persists_witness :
    ∃ created w1, TodoService.CreateTodo sampleAmbient sampleWorld 1
          { Title := "Buy milk", Description := "", Status := "pending", Priority := "low"
            DueDate := "2024-02-29" } = (.ok created, w1)
      ∧ w1.todos = sampleWorld.todos ++ [created] ∧ w1.users = sampleWorld.users
      ∧ created.UserID = 1 ∧ created.Title = "Buy milk"
      ∧ created.Description = "" ∧ created.Status = "pending"
      ∧ created.Priority = "low" ∧ created.DeletedAt = none
      ∧ created.DueDate = some { year := 2024, month := 2, day := 29 } :=
  CreateTodo_persists sampleAmbient sampleWorld 1
    { Title := "Buy milk", Description := "", Status := "pending", Priority := "low"
      DueDate := "2024-02-29" } rfl rfl (Or.inr ⟨_, rfl⟩) (by decide)
    ⟨sampleUser, by simp [sampleWorld], rfl⟩

/-- The read with ownership check returns the live item to its owner. -/
theorem GetTodoByID_of_owner (w : World) (todoID userID : Nat) (todo : Todo)
    (hitem : IsLiveItem w todoID todo) (howner : todo.UserID = userID) :
    TodoService.GetTodoByID w todoID userID = .ok todo := by
  simp [TodoService.GetTodoByID, FindByID_of_live w todoID todo hitem, howner]

/-- The item that `UpdateTodo` saves when every present field is valid: the
fetched item with the present fields replaced and the update time stamped,
written over the live row with its key. -/
theorem UpdateTodo_ok (amb : Ambient) (w : World) (todoID userID : Nat)
    (req : UpdateTodoRequest) (todo : Todo) (hitem : IsLiveItem w todoID todo)
    (howner : todo.UserID = userID) (hkey : todoID ≠ 0)
    (hS : ∀ s, req.Status = some s → isValidStatus s = true)
    (hP : ∀ p, req.Priority = some p → isValidPriority p = true)
    (hD : ∀ d, req.DueDate = some d → d ≠ "" → ∃ date, parseDate d = .ok date) :
    TodoService.UpdateTodo amb w todoID userID req
      = (.ok { ID := todo.ID
               Title := req.Title.getD todo.Title
               Description := req.Description.getD todo.Description
               Status := req.Status.getD todo.Status
               Priority := req.Priority.getD todo.Priority
               DueDate := match req.DueDate with
                 | none => todo.DueDate
                 | some d => if d = "" then none else (parseDate d).toOption
               UserID := todo.UserID
               CreatedAt := todo.CreatedAt
               UpdatedAt := amb.now
               DeletedAt := todo.DeletedAt },
         { w with todos := w.todos.map (fun t =>
             if t.live && t.ID == todoID then
               { ID := todo.ID
                 Title := req.Title.getD todo.Title
                 Description := req.Description.getD todo.Description
                 Status := req.Status.getD todo.Status
                 Priority := req.Priority.getD todo.Priority
                 DueDate := match req.DueDate with
                   | none => todo.DueDate
                   | some d => if d = "" then none else (parseDate d).toOption
                 UserID := todo.UserID
                 CreatedAt := todo.CreatedAt
                 UpdatedAt := amb.now
                 DeletedAt := todo.DeletedAt }
             else t) }) := by
  have hget := GetTodoByID_of_owner w todoID userID todo hitem howner
  obtain ⟨hmem, hlive, hid, _⟩ := hitem
  subst hid
  have hany : ∃ x ∈ w.todos, x.live = true ∧ x.ID = todo.ID := ⟨todo, hmem, hlive, rfl⟩
  obtain ⟨title, desc, status, prio, due⟩ := req
  simp only at hS hP hD
  unfold TodoService.UpdateTodo
  rw [hget]
  cases title <;> cases desc <;> cases status <;> cases prio <;> cases due <;>
    simp at hS hP hD ⊢ <;>
    first
    | (simp [TodoRepository.Update, hkey, hany, hS, hP]; done)
    | (rename_i d
       by_cases hd0 : d = ""
       · simp [TodoRepository.Update, hkey, hany, hS, hP, hd0]
       · obtain ⟨date, hdate⟩ := hD hd0
         simp [TodoRepository.Update, hkey, hany, hS, hP, hd0, hdate, Except.toOption])

/-- An invalid status stops `UpdateTodo` before anything is written. -/
theorem UpdateTodo_bad_status (amb : Ambient) (w : World) (todoID userID : Nat)
    (req : UpdateTodoRequest) (todo : Todo)
    (hget : TodoService.GetTodoByID w todoID userID = .ok todo)
    (s : String) (hs : req.Status = some s) (hbad : isValidStatus s = false) :
    TodoService.UpdateTodo amb w todoID userID req = (.error .ErrInvalidStatus, w) := by
  simp [TodoService.UpdateTodo, hget, hs, hbad]

/-- An invalid priority stops `UpdateTodo` before anything is written. -/
theorem UpdateTodo_bad_priority (amb : Ambient) (w : World) (todoID userID : Nat)
    (req : UpdateTodoRequest) (todo : Todo)
    (hget : TodoService.GetTodoByID w todoID userID = .ok todo)
    (hS : ∀ s, req.Status = some s → isValidStatus s = true)
    (p : String) (hp : req.Priority = some p) (hbad : isValidPriority p = false) :
    TodoService.UpdateTodo amb w todoID userID req = (.error .ErrInvalidPriority, w) := by
  cases hst : req.Status with
  | none => simp [TodoService.UpdateTodo, hget, hst, hp, hbad]
  | some s => simp [TodoService.UpdateTodo, hget, hst, hS s hst, hp, hbad]

/-- An unparsable due date stops `UpdateTodo` before anything is written. -/
theorem UpdateTodo_bad_date (amb : Ambient) (w : World) (todoID userID : Nat)
    (req : UpdateTodoRequest) (todo : Todo)
    (hget : TodoService.GetTodoByID w todoID userID = .ok todo)
    (hS : ∀ s, req.Status = some s → isValidStatus s = true)
    (hP : ∀ p, req.Priority = some p → isValidPriority p = true)
    (d : String) (hd : req.DueDate = some d) (hne : d ≠ "")
    (hbad : ∀ date, parseDate d ≠ .ok date) :
    TodoService.UpdateTodo amb w todoID userID req = (.error errInvalidDate, w) := by
  have hparse : ∃ err, parseDate d = .error err := by
    cases h : parseDate d with
    | error err => exact ⟨err, rfl⟩
    | ok date => exact absurd h (hbad date)
  obtain ⟨err, hparse⟩ := hparse
  cases hst : req.Status with
  | none =>
    cases hpr : req.Priority with
    | none => simp [TodoService.UpdateTodo, hget, hst, hpr, hd, hne, hparse]
    | some p => simp [TodoService.UpdateTodo, hget, hst, hpr, hP p hpr, hd, hne, hparse]
  | some s =>
    cases hpr : req.Priority with
    | none => simp [TodoService.UpdateTodo, hget, hst, hS s hst, hpr, hd, hne, hparse]
    | some p =>
      simp [TodoService.UpdateTodo, hget, hst, hS s hst, hpr, hP p hpr, hd, hne, hparse]

/-- C19: when `UpdateTodo` succeeds on the live item, the saved item has the id
and the owner of the stored one; its title, description, status and priority
are those of the request where present and the stored ones where absent; its
due date is the stored one when the request has none, null when the request
has the empty string, and the parsed date otherwise; the saved item replaces
the stored one and no other row changes. -/
theorem UpdateTodo_frame (amb : Ambient) (w : World) (todoID userID : Nat)
    (req : UpdateTodoRequest) (todo saved : Todo) (w1 : World)
    (hitem : IsLiveItem w todoID todo) (hkey : todoID ≠ 0)
    (hres : TodoService.UpdateTodo amb w todoID userID req = (.ok saved, w1)) :
    saved.ID = todo.ID ∧ saved.UserID = todo.UserID
    ∧ saved.Title = req.Title.getD todo.Title
    ∧ saved.Description = req.Description.getD todo.Description
    ∧ saved.Status = req.Status.getD todo.Status
    ∧ saved.Priority = req.Priority.getD todo.Priority
    ∧ (req.DueDate = none → saved.DueDate = todo.DueDate)
    ∧ (req.DueDate = some "" → saved.DueDate = none)
    ∧ (∀ d, req.DueDate = some d → d ≠ "" →
        ∃ date, parseDate d = .ok date ∧ saved.DueDate = some date)
    ∧ saved.CreatedAt = todo.CreatedAt ∧ saved.DeletedAt = todo.DeletedAt
    ∧ w1.todos = w.todos.map (fun t => if t = todo then saved else t)
    ∧ w1.users = w.users := by
  have howner : todo.UserID = userID := by
    by_contra hne
    have : TodoService.UpdateTodo amb w todoID userID req
        = (.error .ErrUnauthorizedAccess, w) := by
      simp [TodoService.UpdateTodo, TodoService.GetTodoByID,
        FindByID_of_live w todoID todo hitem, hne]
    rw [this] at hres
    cases hres
  have hget := GetTodoByID_of_owner w todoID userID todo hitem howner
  have hS : ∀ s, req.Status = some s → isValidStatus s = true := by
    intro s hs
    cases hv : isValidStatus s with
    | true => rfl
    | false =>
      rw [UpdateTodo_bad_status amb w todoID userID req todo hget s hs hv] at hres
      cases hres
  have hP : ∀ p, req.Priority = some p → isValidPriority p = true := by
    intro p hp
    cases hv : isValidPriority p with
    | true => rfl
    | false =>
      rw [UpdateTodo_bad_priority amb w todoID userID req todo hget hS p hp hv] at hres
      cases hres
  have hD : ∀ d, req.DueDate = some d → d ≠ "" → ∃ date, parseDate d = .ok date := by
    intro d hd hne
    by_contra hno
    have hbad : ∀ date, parseDate d ≠ .ok date := fun date h => hno ⟨date, h⟩
    rw [UpdateTodo_bad_date amb w todoID userID req todo hget hS hP d hd hne hbad] at hres
    cases hres
  rw [UpdateTodo_ok amb w todoID userID req todo hitem howner hkey hS hP hD] at hres
  obtain ⟨hmem, hlive, hid, huniq⟩ := hitem
  have hsaved := (Prod.mk.inj hres).1
  have hworld := (Prod.mk.inj hres).2
  have hsaved2 := Except.ok.inj hsaved
  subst hsaved2
  subst hworld
  refine ⟨rfl, rfl, rfl, rfl, rfl, rfl, ?_, ?_, ?_, rfl, rfl, ?_, rfl⟩
  · intro h
    simp [h]
  · intro h
    simp [h]
  · intro d hd hne
    obtain ⟨date, hdate⟩ := hD d hd hne
    exact ⟨date, hdate, by simp [hd, hne, hdate, Except.toOption]⟩
  · apply List.map_congr_left
    intro t ht
    by_cases heq : t = todo
    · simp [heq, hlive, hid]
    · have hno : ¬ (t.live = true ∧ t.ID = todoID) := fun h => heq (huniq t ht h.1 h.2)
      simp [heq, hno]

/-- Witness for C19: account 1 retitles its todo, completes it and sets its
due date; description and priority are absent from the request and stay. -/
theorem UpdateTodo_frame_witness :
    TodoService.UpdateTodo sampleAmbient sampleWorld 1 1
        { Title := some "Buy oat milk", Description := none, Status := some "completed"
          Priority := none, DueDate := some "2024-02-29" }
      = (.ok { sampleTodo with Title := "Buy oat milk", Status := "completed"
                               DueDate := some { year := 2024, month := 2, day := 29 } },
         { sampleWorld with
           todos := [{ sampleTodo with Title := "Buy oat milk", Status := "completed"
                                       DueDate := some { year := 2024, month := 2, day := 29 } }] })
    ∧ ({ sampleTodo with Title := "Buy oat milk", Status := "completed"
                         DueDate := some { year := 2024, month := 2, day := 29 } } : Todo).ID
        = sampleTodo.ID
    ∧ ({ sampleTodo with Title := "Buy oat milk", Status := "completed"
                         DueDate := some { year := 2024, month := 2, day := 29 } } : Todo).Priority
        = sampleTodo.Priority
    ∧ ∃ date, parseDate "2024-02-29" = .ok date
        ∧ ({ sampleTodo with Title := "Buy oat milk", Status := "completed"
                             DueDate := some { year := 2024, month := 2, day := 29 } } : Todo).DueDate
          = some date :=
  have h := UpdateTodo_frame sampleAmbient sampleWorld 1 1
    { Title := some "Buy oat milk", Description := none, Status := some "completed"
      Priority := none, DueDate := some "2024-02-29" } sampleTodo
    { sampleTodo with Title := "Buy oat milk", Status := "completed"
                      DueDate := some { year := 2024, month := 2, day := 29 } }
    { sampleWorld with
      todos := [{ sampleTodo with Title := "Buy oat milk", Status := "completed"
                                  DueDate := some { year := 2024, month := 2, day := 29 } }] }
    ⟨by simp [sampleWorld], rfl, rfl, by simp [sampleWorld]⟩ (by decide) rfl
  ⟨rfl, h.1, h.2.2.2.2.2.1, h.2.2.2.2.2.2.2.2.1 "2024-02-29" rfl (by decide)⟩

/-- C20: on the live item of the caller, `UpdateTodo` fails with
`ErrInvalidStatus` for a present invalid status, with `ErrInvalidPriority` for a
present invalid priority (the status being absent or valid), and with the
invalid-date error for a present, non-empty, unparsable due date (status and
priority being absent or valid); every such failure returns the store as it
was, whatever title and description the request carries. -/
theorem UpdateTodo_invalid_fields (amb : Ambient) (w : World) (todoID userID : Nat)
    (req : UpdateTodoRequest) (todo : Todo) (hitem : IsLiveItem w todoID todo)
    (howner : todo.UserID = userID) :
    (∀ s, req.Status = some s → isValidStatus s = false →
        TodoService.UpdateTodo amb w todoID userID req = (.error .ErrInvalidStatus, w))
    ∧ (∀ p, (∀ s, req.Status = some s → isValidStatus s = true) →
        req.Priority = some p → isValidPriority p = false →
        TodoService.UpdateTodo amb w todoID userID req = (.error .ErrInvalidPriority, w))
    ∧ (∀ d, (∀ s, req.Status = some s → isValidStatus s = true) →
        (∀ p, req.Priority = some p → isValidPriority p = true) →
        req.DueDate = some d → d ≠ "" → (∀ date, parseDate d ≠ .ok date) →
        TodoService.UpdateTodo amb w todoID userID req = (.error errInvalidDate, w))
    ∧ (((∃ s, req.Status = some s ∧ isValidStatus s = false)
          ∨ (∃ p, req.Priority = some p ∧ isValidPriority p = false)
          ∨ (∃ d, req.DueDate = some d ∧ d ≠ "" ∧ ∀ date, parseDate d ≠ .ok date)) →
        (TodoService.UpdateTodo amb w todoID userID req = (.error .ErrInvalidStatus, w)
          ∨ TodoService.UpdateTodo amb w todoID userID req = (.error .ErrInvalidPriority, w)
          ∨ TodoService.UpdateTodo amb w todoID userID req = (.error errInvalidDate, w))) := by
  have hget := GetTodoByID_of_owner w todoID userID todo hitem howner
  have h1 := UpdateTodo_bad_status amb w todoID userID req todo hget
  have h2 := UpdateTodo_bad_priority amb w todoID userID req todo hget
  have h3 := UpdateTodo_bad_date amb w todoID userID req todo hget
  refine ⟨h1, fun p hS hp hbad => h2 hS p hp hbad,
    fun d hS hP hd hne hbad => h3 hS hP d hd hne hbad, ?_⟩
  intro hbad
  by_cases hS : ∀ s, req.Status = some s → isValidStatus s = true
  · by_cases hP : ∀ p, req.Priority = some p → isValidPriority p = true
    · rcases hbad with ⟨s, hs, hv⟩ | ⟨p, hp, hv⟩ | ⟨d, hd, hne, hno⟩
      · rw [hS s hs] at hv
        cases hv
      · rw [hP p hp] at hv
        cases hv
      · exact Or.inr (Or.inr (h3 hS hP d hd hne hno))
    · right
      left
      push_neg at hP
      obtain ⟨p, hp, hv⟩ := hP
      exact h2 hS p hp (by simpa using hv)
  · left
    push_neg at hS
    obtain ⟨s, hs, hv⟩ := hS
    exact h1 s hs (by simpa using hv)

/-- Witness for C20: account 1 sends a new title with the status `bogus`, with
the priority `urgent`, and with the due date 2024-02-30; each request fails and
the sample store keeps the old title. -/
theorem UpdateTodo_invalid_fields_witness :
    TodoService.UpdateTodo sampleAmbient sampleWorld 1 1
        { Title := some "New title", Description := some "New text", Status := some "bogus"
          Priority := none, DueDate := none } = (.error .ErrInvalidStatus, sampleWorld)
    ∧ TodoService.UpdateTodo sampleAmbient sampleWorld 1 1
        { Title := some "New title", Description := some "New text", Status := none
          Priority := some "urgent", DueDate := none } = (.error .ErrInvalidPriority, sampleWorld)
    ∧ TodoService.UpdateTodo sampleAmbient sampleWorld 1 1
        { Title := some "New title", Description := some "New text", Status := none
          Priority := none, DueDate := some "2024-02-30" } = (.error errInvalidDate, sampleWorld) :=
  have hitem : IsLiveItem sampleWorld 1 sampleTodo :=
    ⟨by simp [sampleWorld], rfl, rfl, by simp [sampleWorld]⟩
  ⟨(UpdateTodo_invalid_fields sampleAmbient sampleWorld 1 1
      { Title := some "New title", Description := some "New text", Status := some "bogus"
        Priority := none, DueDate := none } sampleTodo hitem rfl).1 "bogus" rfl rfl,
   (UpdateTodo_invalid_fields sampleAmbient sampleWorld 1 1
      { Title := some "New title", Description := some "New text", Status := none
        Priority := some "urgent", DueDate := none } sampleTodo hitem rfl).2.1 "urgent"
      (fun _ h => by cases h) rfl rfl,
   (UpdateTodo_invalid_fields sampleAmbient sampleWorld 1 1
      { Title := some "New title", Description := some "New text", Status := none
        Priority := none, DueDate := some "2024-02-30" } sampleTodo hitem rfl).2.2.1 "2024-02-30"
      (fun _ h => by cases h) (fun _ h => by cases h) rfl (by decide)
      (fun date h => by
        have h2 : parseDate "2024-02-30" = .error (.new "parsing time: day out of range") := rfl
        rw [h2] at h
        cases h)⟩

/-! ## Properties of the password reset -/

/-- The query `Save` on an account of a keyed table, for a row that keeps the id, the
username and the email of a live stored row: that row is replaced and the
update time stamped. -/
theorem UserRepository.Update_live (now : Time) (w : World) (user saved : User)
    (hkeyed : UsersKeyed w) (hmem : user ∈ w.users) (hlive : user.live = true)
    (hid : saved.ID = user.ID) (hname : saved.Username = user.Username)
    (hmail : saved.Email = user.Email) :
    UserRepository.Update now w saved
      = (.ok { saved with UpdatedAt := now },
         { w with users := w.users.map (fun u =>
             if u = user then { saved with UpdatedAt := now } else u) }) := by
  obtain ⟨hnz, hpk, hun, hue⟩ := hkeyed
  have hkey : saved.ID ≠ 0 := by
    rw [hid]
    exact hnz user hmem
  have hfree : w.users.any (fun u =>
      u.ID != saved.ID && (u.Username == saved.Username || u.Email == saved.Email)) = false := by
    rw [List.any_eq_false]
    intro u hu
    by_cases hsame : u.ID = saved.ID
    · simp [hsame]
    · have hne : u ≠ user := fun h => hsame (by rw [h, hid])
      have h1 : u.Username ≠ saved.Username := by
        rw [hname]
        exact fun h => hne (hun u hu user hmem h)
      have h2 : u.Email ≠ saved.Email := by
        rw [hmail]
        exact fun h => hne (hue u hu user hmem h)
      simp [h1, h2]
  have hany : w.users.any (fun u => u.live && u.ID == saved.ID) = true := by
    rw [List.any_eq_true]
    exact ⟨user, hmem, by simp [hlive, hid]⟩
  have hmap : w.users.map (fun u =>
        if (u.live && u.ID == saved.ID) = true then { saved with UpdatedAt := now } else u)
      = w.users.map (fun u => if u = user then { saved with UpdatedAt := now } else u) := by
    apply List.map_congr_left
    intro u hu
    by_cases heq : u = user
    · simp [heq, hlive, hid]
    · have hno : ¬ u.ID = saved.ID := by
        rw [hid]
        exact fun h => heq (hpk u hu user hmem h)
      simp [heq, hno]
  unfold UserRepository.Update
  rw [if_neg hkey, hfree]
  simp only [Bool.false_eq_true, if_false, hany, if_true]
  rw [hmap]

/-- C13: when a non-empty token is held by one account whose expiry is not in
the past, `ResetPassword` succeeds with a single `Save` that writes the hash
of the new password and clears the reset token and the expiry of that
account, leaving every other row as it was; a second `ResetPassword` with the
same token then fails with `ErrUserNotFound` and returns the store unchanged. -/
theorem ResetPassword_single_use (H : Hasher) (amb amb2 : Ambient) (w : World)
    (token newPassword secondPassword hashed : String) (user : User)
    (hkeyed : UsersKeyed w) (htoken : token ≠ "") (hholder : IsTokenHolder w token user)
    (hexp : ∃ expiry, user.ResetPasswordExpiry = some expiry ∧ amb.now ≤ expiry)
    (hhash : H.HashPassword amb.salt newPassword = .ok hashed) :
    ∃ w1, AuthService.ResetPassword H amb w token newPassword = (.ok (), w1)
      ∧ (UserRepository.Update amb.now w
            { user with Password := hashed, ResetPasswordToken := ""
                        ResetPasswordExpiry := none }).2 = w1
      ∧ w1.users = w.users.map (fun u =>
          if u = user then
            { user with Password := hashed, ResetPasswordToken := ""
                        ResetPasswordExpiry := none, UpdatedAt := amb.now }
          else u)
      ∧ w1.todos = w.todos ∧ w1.outbox = w.outbox
      ∧ AuthService.ResetPassword H amb2 w1 token secondPassword
          = (.error .ErrUserNotFound, w1) := by
  have hfind := FindByResetToken_of_holder w token user hholder
  obtain ⟨hmem, hlive, htok, huniq⟩ := hholder
  obtain ⟨expiry, hsome, hle⟩ := hexp
  have hnot : ¬ expiry < amb.now := Nat.not_lt.mpr hle
  have hupd := UserRepository.Update_live amb.now w user
    { user with Password := hashed, ResetPasswordToken := "", ResetPasswordExpiry := none }
    hkeyed hmem hlive rfl rfl rfl
  refine ⟨{ w with users := w.users.map (fun u =>
      if u = user then
        { user with Password := hashed, ResetPasswordToken := ""
                    ResetPasswordExpiry := none, UpdatedAt := amb.now }
      else u) }, ?_, ?_, rfl, rfl, rfl, ?_⟩
  · simp [AuthService.ResetPassword, hfind, hsome, hnot, hhash, hupd]
  · rw [hupd]
  · have habsent : UserRepository.FindByResetToken
        { w with users := w.users.map (fun u =>
            if u = user then
              { user with Password := hashed, ResetPasswordToken := ""
                          ResetPasswordExpiry := none, UpdatedAt := amb.now }
            else u) } token = .ok none := by
      apply FindByResetToken_of_absent
      intro u hu hl
      simp only [List.mem_map] at hu
      obtain ⟨v, hv, hvu⟩ := hu
      by_cases heq : v = user
      · rw [if_pos heq] at hvu
        rw [← hvu]
        exact fun h => htoken h.symm
      · rw [if_neg heq] at hvu
        rw [← hvu] at hl ⊢
        exact fun h => heq (huniq v hv hl h)
    simp [AuthService.ResetPassword, habsent]

/-- Witness for C13: the token `tok`, valid until second 2000, confirmed at
second 1000 and then presented again. -/
theorem ResetPassword_single_use_witness :
    ∃ w1, AuthService.ResetPassword sampleHasher sampleAmbient resetWorld "tok" "newpw123"
        = (.ok (), w1)
      ∧ (UserRepository.Update sampleAmbient.now resetWorld
            { resetUser with Password := "newpw123", ResetPasswordToken := ""
                             ResetPasswordExpiry := none }).2 = w1
      ∧ w1.users = resetWorld.users.map (fun u =>
          if u = resetUser then
            { resetUser with Password := "newpw123", ResetPasswordToken := ""
                             ResetPasswordExpiry := none, UpdatedAt := sampleAmbient.now }
          else u)
      ∧ w1.todos = resetWorld.todos ∧ w1.outbox = resetWorld.outbox
      ∧ AuthService.ResetPassword sampleHasher sampleAmbient w1 "tok" "another1"
          = (.error .ErrUserNotFound, w1) :=
  ResetPassword_single_use sampleHasher sampleAmbient sampleAmbient resetWorld "tok"
    "newpw123" "another1" "newpw123" resetUser
    ⟨by simp [resetWorld, resetUser, sampleUser], by simp [resetWorld],
      by simp [resetWorld], by simp [resetWorld]⟩
    (by decide) ⟨by simp [resetWorld], rfl, rfl, by simp [resetWorld]⟩
    ⟨2000 * Second, rfl, by decide⟩ rfl

/-! ## Properties of the request boundary: error mapping -/

/-- C14 (code defect): the confirm handler maps only `ErrUserNotFound` to 404.
For the token `tok` that expired at second 1, `ResetPassword` returns the error
"reset token expired or invalid", and the handler answers it with status 500
and the generic message; a token that no account holds is answered 404. -/
theorem ResetPasswordConfirm_expired_is_500 :
    AuthService.ResetPassword sampleHasher sampleAmbient expiredWorld "tok" "newpw123"
      = (.error (.new "reset token expired or invalid"), expiredWorld)
    ∧ ServeHTTP router scenarioDeps sampleAmbient expiredWorld
          (mkRequest "POST" "/api/v1/auth/reset-password/confirm" "" "confirm-tok")
        = ({ Status := 500
             Body := errorBody "Failed to reset password" "reset token expired or invalid" },
           expiredWorld)
    ∧ ServeHTTP router scenarioDeps sampleAmbient expiredWorld
          (mkRequest "POST" "/api/v1/auth/reset-password/confirm" "" "confirm-nope")
        = ({ Status := 404, Body := errorBody "user not found" "user not found" },
           expiredWorld) := by
  refine ⟨rfl, rfl, rfl⟩

/-- C17 (code defect): the create handler maps only `ErrInvalidStatus` and
`ErrInvalidPriority` to 400. For the todo of the scenario with the due date
`2024-02-30`, `CreateTodo` returns the invalid-date error and stores nothing,
and the handler, run behind the auth middleware with the valid token of
account 1, answers with status 500 and the generic message. -/
theorem Create_invalid_date_is_500 :
    TodoService.CreateTodo sampleAmbient sampleWorld 1
        { Title := "Buy milk", Description := "", Status := "pending", Priority := "low"
          DueDate := "2024-02-30" }
      = (.error (.new "invalid date format, use YYYY-MM-DD"), sampleWorld)
    ∧ (runChain scenarioDeps sampleAmbient [AuthMiddleware, TodoHandler.Create]
          (freshContext (mkRequest "POST" "/api/v1/todos" "Bearer good" "milk-bad-date"))
          sampleWorld).1.response
        = { Status := 500
            Body := errorBody "Failed to create todo" "invalid date format, use YYYY-MM-DD" }
    ∧ (runChain scenarioDeps sampleAmbient [AuthMiddleware, TodoHandler.Create]
          (freshContext (mkRequest "POST" "/api/v1/todos" "Bearer good" "milk-bad-date"))
          sampleWorld).2 = sampleWorld := by
  refine ⟨rfl, rfl, rfl⟩

/-! ## Two registrations racing for one username -/

/-- With one snapshot for both phases, the two-snapshot body is `Register`. -/
theorem RegisterInterleaved_same (H : Hasher) (amb : Ambient) (w : World)
    (req : RegisterRequest) :
    AuthService.RegisterInterleaved H amb w w req = AuthService.Register H amb w req := rfl

/-- The register handler is the binding of the body followed by the mapping of
the workflow result. -/
theorem Register_handler_eq (D : Deps) (amb : Ambient) (c : Context) (w : World) :
    UserHandler.Register D amb c w
      = match ShouldBindJSON D.binder.decodeRegister (validateRegisterRequest D.binder) c with
        | .error text => (c.JSON StatusBadRequest (errorBody "Invalid Input" text), w)
        | .ok req =>
          UserHandler.registerResponse c (AuthService.Register D.hasher amb w req) := by
  unfold UserHandler.Register UserHandler.registerResponse
  cases ShouldBindJSON D.binder.decodeRegister (validateRegisterRequest D.binder) c with
  | error text => rfl
  | ok req => rfl

/-- The insert of an account whose texts fit their columns and whose username
and email no row carries succeeds and appends the row. -/
theorem UserRepository.Create_fresh (now : Time) (w : World) (user : User)
    (h1 : user.Username.length ≤ 50) (h2 : user.Email.length ≤ 50)
    (h3 : user.Fullname.length ≤ 100) (h4 : user.ResetPasswordToken.length ≤ 255)
    (hname : ∀ u ∈ w.users, u.Username ≠ user.Username)
    (hmail : ∀ u ∈ w.users, u.Email ≠ user.Email) :
    UserRepository.Create now w user
      = (.ok { user with ID := nextID (w.users.map User.ID), CreatedAt := now, UpdatedAt := now },
         { w with users := w.users ++
             [{ user with ID := nextID (w.users.map User.ID), CreatedAt := now
                          UpdatedAt := now }] }) := by
  have hfree : w.users.any (fun u => u.Username == user.Username || u.Email == user.Email)
      = false := by
    rw [List.any_eq_false]
    intro u hu
    simp [hname u hu, hmail u hu]
  unfold UserRepository.Create
  simp only
  rw [User.fit_of_le
    { user with ID := nextID (w.users.map User.ID), CreatedAt := now, UpdatedAt := now }
    h1 h2 h3 h4]
  simp only [hfree, Bool.false_eq_true, if_false]

/-- The insert of an account whose texts fit their columns and whose username
a row already carries is rejected by the unique index and leaves the table as
it was. -/
theorem UserRepository.Create_taken (now : Time) (w : World) (user : User)
    (h1 : user.Username.length ≤ 50) (h2 : user.Email.length ≤ 50)
    (h3 : user.Fullname.length ≤ 100) (h4 : user.ResetPasswordToken.length ≤ 255)
    (h : ∃ u ∈ w.users, u.Username = user.Username) :
    UserRepository.Create now w user = (.error uniqueViolation, w) := by
  have htaken : w.users.any (fun u => u.Username == user.Username || u.Email == user.Email)
      = true := by
    obtain ⟨u, hu, hn⟩ := h
    rw [List.any_eq_true]
    exact ⟨u, hu, by simp [hn]⟩
  unfold UserRepository.Create
  simp only
  rw [User.fit_of_le
    { user with ID := nextID (w.users.map User.ID), CreatedAt := now, UpdatedAt := now }
    h1 h2 h3 h4]
  simp only [htaken, if_true]

/-- The race on the empty store: two registrations of the username `u1u` pass
the existence checks; the first insert succeeds, the second is rejected by the
unique index, and the second registration fails with the wrapped store error,
which is not `ErrUserExists` and is answered 500, not 400. -/
theorem Register_race_counterexample :
    UserRepository.ExistsByUsername emptyWorld "u1u" = .ok false
    ∧ UserRepository.ExistsByEmail emptyWorld "other@x.com" = .ok false
    ∧ AuthService.Register sampleHasher sampleAmbient emptyWorld sampleRegister
        = (.ok (AuthService.toUserResponse sampleUser), { emptyWorld with users := [sampleUser] })
    ∧ AuthService.RegisterInterleaved sampleHasher sampleAmbient emptyWorld
          { emptyWorld with users := [sampleUser] }
          { Username := "u1u", Email := "other@x.com", Password := "pw123456"
            FullName := "U One" }
        = (.error (.wrap "failed to create user" uniqueViolation),
           { emptyWorld with users := [sampleUser] })
    ∧ (Error.wrap "failed to create user" uniqueViolation).Is .ErrUserExists = false
    ∧ (UserHandler.registerResponse
          (freshContext (mkRequest "POST" "/api/v1/auth/register" "" "register-u1-again"))
          (AuthService.RegisterInterleaved sampleHasher sampleAmbient emptyWorld
            { emptyWorld with users := [sampleUser] }
            { Username := "u1u", Email := "other@x.com", Password := "pw123456"
              FullName := "U One" })).1.response
        = { Status := 500, Body := errorBody "Failed to register user" "" } := by
  refine ⟨rfl, rfl, rfl, rfl, rfl, rfl⟩

/-- C15 (code defect): when two registrations with the same username, whose
texts fit their columns, both pass the existence checks on the same store and
the first one writes before the second, the first succeeds and appends one
account, and the second is rejected by the unique index. `Register` wraps the
store error without translating it, so the second registration fails with an
error that is not `ErrUserExists`, and the handler answers it with status 500
and the generic message, not with 400 as it answers a duplicate username that
the existence check sees; nothing is stored for it. -/
theorem Register_race_loser_is_internal (H : Hasher) (ambA ambB : Ambient) (w : World)
    (reqA reqB : RegisterRequest) (hashedA hashedB : String) (request : Request)
    (hsame : reqA.Username = reqB.Username)
    (hfitA : reqA.Username.length ≤ 50 ∧ reqA.Email.length ≤ 50 ∧ reqA.FullName.length ≤ 100)
    (hfitB : reqB.Email.length ≤ 50 ∧ reqB.FullName.length ≤ 100)
    (hname : ∀ u ∈ w.users, u.Username ≠ reqA.Username)
    (hmailA : ∀ u ∈ w.users, u.Email ≠ reqA.Email)
    (hmailB : ∀ u ∈ w.users, u.live = true → u.Email ≠ reqB.Email)
    (hhashA : H.HashPassword ambA.salt reqA.Password = .ok hashedA)
    (hhashB : H.HashPassword ambB.salt reqB.Password = .ok hashedB) :
    ∃ created wA, AuthService.Register H ambA w reqA
          = (.ok (AuthService.toUserResponse created), wA)
      ∧ wA.users = w.users ++ [created] ∧ created.Username = reqA.Username
      ∧ AuthService.RegisterInterleaved H ambB w wA reqB
          = (.error (.wrap "failed to create user" uniqueViolation), wA)
      ∧ (Error.wrap "failed to create user" uniqueViolation).Is .ErrUserExists = false
      ∧ (UserHandler.registerResponse (freshContext request)
          (AuthService.RegisterInterleaved H ambB w wA reqB)).1.response
          = { Status := 500, Body := errorBody "Failed to register user" "" }
      ∧ (UserHandler.registerResponse (freshContext request)
          (AuthService.RegisterInterleaved H ambB w wA reqB)).2 = wA := by
  have hnoName : ¬ ∃ u ∈ w.users, u.live = true ∧ u.Username = reqA.Username := by
    rintro ⟨u, hu, _, hn⟩
    exact hname u hu hn
  have hnoMailA : ¬ ∃ u ∈ w.users, u.live = true ∧ u.Email = reqA.Email := by
    rintro ⟨u, hu, _, hm⟩
    exact hmailA u hu hm
  have hnoNameB : ¬ ∃ u ∈ w.users, u.live = true ∧ u.Username = reqB.Username := by
    rw [← hsame]
    exact hnoName
  have hnoMailB : ¬ ∃ u ∈ w.users, u.live = true ∧ u.Email = reqB.Email := by
    rintro ⟨u, hu, hl, hm⟩
    exact hmailB u hu hl hm
  have hcreateA := UserRepository.Create_fresh ambA.now w (newUser reqA hashedA)
    hfitA.1 hfitA.2.1 hfitA.2.2 (show ("" : String).length ≤ 255 by decide) hname hmailA
  have hA : AuthService.Register H ambA w reqA
      = (.ok (AuthService.toUserResponse
            { newUser reqA hashedA with
              ID := nextID (w.users.map User.ID), CreatedAt := ambA.now, UpdatedAt := ambA.now }),
         { w with users := w.users ++
             [{ newUser reqA hashedA with
                ID := nextID (w.users.map User.ID), CreatedAt := ambA.now
                UpdatedAt := ambA.now }] }) := by
    rw [← RegisterInterleaved_same]
    simp [AuthService.RegisterInterleaved, ExistsByUsername_eq, ExistsByEmail_eq, hnoName,
      hnoMailA, hhashA, hcreateA]
  have hcreateB := UserRepository.Create_taken ambB.now
    { w with users := w.users ++
        [{ newUser reqA hashedA with
           ID := nextID (w.users.map User.ID), CreatedAt := ambA.now, UpdatedAt := ambA.now }] }
    (newUser reqB hashedB)
    (by rw [show (newUser reqB hashedB).Username = reqB.Username from rfl, ← hsame]
        exact hfitA.1)
    hfitB.1 hfitB.2 (show ("" : String).length ≤ 255 by decide)
    ⟨_, List.mem_append_right _ (List.mem_singleton_self _), hsame⟩
  have hB : AuthService.RegisterInterleaved H ambB w
        { w with users := w.users ++
            [{ newUser reqA hashedA with
               ID := nextID (w.users.map User.ID), CreatedAt := ambA.now
               UpdatedAt := ambA.now }] } reqB
      = (.error (.wrap "failed to create user" uniqueViolation),
         { w with users := w.users ++
            [{ newUser reqA hashedA with
               ID := nextID (w.users.map User.ID), CreatedAt := ambA.now
               UpdatedAt := ambA.now }] }) := by
    simp [AuthService.RegisterInterleaved, ExistsByUsername_eq, ExistsByEmail_eq, hnoNameB,
      hnoMailB, hhashB, hcreateB]
  refine ⟨_, _, hA, rfl, rfl, hB, rfl, ?_, ?_⟩
  · rw [hB]
    rfl
  · rw [hB]
    rfl

/-- Witness for C15: the two registrations of `u1u` on the empty store. -/
theorem Register_race_loser_is_internal_witness :
    ∃ created wA, AuthService.Register sampleHasher sampleAmbient emptyWorld sampleRegister
          = (.ok (AuthService.toUserResponse created), wA)
      ∧ wA.users = emptyWorld.users ++ [created] ∧ created.Username = sampleRegister.Username
      ∧ AuthService.RegisterInterleaved sampleHasher sampleAmbient emptyWorld wA
            { Username := "u1u", Email := "other@x.com", Password := "pw123456"
              FullName := "U One" }
          = (.error (.wrap "failed to create user" uniqueViolation), wA)
      ∧ (Error.wrap "failed to create user" uniqueViolation).Is .ErrUserExists = false
      ∧ (UserHandler.registerResponse
          (freshContext (mkRequest "POST" "/api/v1/auth/register" "" "register-u1-again"))
          (AuthService.RegisterInterleaved sampleHasher sampleAmbient emptyWorld wA
            { Username := "u1u", Email := "other@x.com", Password := "pw123456"
              FullName := "U One" })).1.response
          = { Status := 500, Body := errorBody "Failed to register user" "" }
      ∧ (UserHandler.registerResponse
          (freshContext (mkRequest "POST" "/api/v1/auth/register" "" "register-u1-again"))
          (AuthService.RegisterInterleaved sampleHasher sampleAmbient emptyWorld wA
            { Username := "u1u", Email := "other@x.com", Password := "pw123456"
              FullName := "U One" })).2 = wA :=
  Register_race_loser_is_internal sampleHasher sampleAmbient sampleAmbient emptyWorld
    sampleRegister
    { Username := "u1u", Email := "other@x.com", Password := "pw123456", FullName := "U One" }
    "pw123456" "pw123456"
    (mkRequest "POST" "/api/v1/auth/register" "" "register-u1-again")
    rfl ⟨by decide, by decide, by decide⟩ ⟨by decide, by decide⟩
    (by simp [emptyWorld]) (by simp [emptyWorld]) (by simp [emptyWorld]) rfl rfl

/-! ## What the store queries return -/

/-- The least-key row of a list is a row of the list. -/
theorem minByID_mem {α : Type} (ID : α → Nat) :
    ∀ (l : List α) (x : α), minByID ID l = some x → x ∈ l
  | [], x, h => by simp [minByID] at h
  | y :: rest, x, h => by
    unfold minByID at h
    cases hrest : minByID ID rest with
    | none =>
      rw [hrest] at h
      simp at h
      simp [h]
    | some z =>
      rw [hrest] at h
      have hz := minByID_mem ID rest z hrest
      by_cases hle : ID y ≤ ID z
      · simp [hle] at h
        simp [h]
      · simp [hle] at h
        rw [← h]
        exact List.mem_cons_of_mem _ hz

/-- The least-key row of a non-empty list exists. -/
theorem minByID_ne_none {α : Type} (ID : α → Nat) :
    ∀ (l : List α), l ≠ [] → minByID ID l ≠ none
  | [], h => absurd rfl h
  | y :: rest, _ => by
    unfold minByID
    cases minByID ID rest with
    | none => simp
    | some z =>
      by_cases hle : ID y ≤ ID z <;> simp [hle]

/-- A row returned by the query `First` is a row of the table that satisfies the condition. -/
theorem First_ok_mem {α : Type} (ID : α → Nat) (rows : List α) (cond : α → Bool) (row : α)
    (h : First ID rows cond = .ok row) : row ∈ rows ∧ cond row = true := by
  unfold First at h
  cases hm : minByID ID (rows.filter cond) with
  | none =>
    rw [hm] at h
    cases h
  | some x =>
    rw [hm] at h
    have hx : x = row := Except.ok.inj h
    rw [← hx]
    exact List.mem_filter.mp (minByID_mem ID _ x hm)

/-- The query `First` finds a row whenever some row satisfies the condition. -/
theorem First_of_exists {α : Type} (ID : α → Nat) (rows : List α) (cond : α → Bool)
    (h : ∃ x ∈ rows, cond x = true) : ∃ row, First ID rows cond = .ok row := by
  obtain ⟨x, hx, hc⟩ := h
  have hne : rows.filter cond ≠ [] := by
    intro hnil
    have : x ∈ rows.filter cond := List.mem_filter.mpr ⟨hx, hc⟩
    rw [hnil] at this
    cases this
  unfold First
  cases hm : minByID ID (rows.filter cond) with
  | none => exact absurd hm (minByID_ne_none ID _ hne)
  | some row => exact ⟨row, rfl⟩

/-- A lookup by id returns nil or a live row with that id. -/
theorem FindByID_user_cases (w : World) (id : Nat) :
    UserRepository.FindByID w id = .ok none
      ∨ ∃ user, UserRepository.FindByID w id = .ok (some user)
          ∧ user ∈ w.users ∧ user.live = true ∧ user.ID = id := by
  unfold UserRepository.FindByID
  cases hf : First User.ID w.users (fun u => u.live && u.ID == id) with
  | error err =>
    left
    unfold First at hf
    cases hm : minByID User.ID (w.users.filter (fun u => u.live && u.ID == id)) with
    | none =>
      rw [hm] at hf
      cases hf
      rfl
    | some x =>
      rw [hm] at hf
      cases hf
  | ok user =>
    right
    have h := First_ok_mem _ _ _ _ hf
    simp at h
    exact ⟨user, rfl, h.1, h.2.1, h.2.2⟩

/-- A lookup by username returns nil or a live row with that username. -/
theorem FindByUsername_cases (w : World) (username : String) :
    UserRepository.FindByUsername w username = .ok none
      ∨ ∃ user, UserRepository.FindByUsername w username = .ok (some user)
          ∧ user ∈ w.users ∧ user.live = true ∧ user.Username = username := by
  unfold UserRepository.FindByUsername
  cases hf : First User.ID w.users (fun u => u.live && u.Username == username) with
  | error err =>
    left
    unfold First at hf
    cases hm : minByID User.ID
        (w.users.filter (fun u => u.live && u.Username == username)) with
    | none =>
      rw [hm] at hf
      cases hf
      rfl
    | some x =>
      rw [hm] at hf
      cases hf
  | ok user =>
    right
    have h := First_ok_mem _ _ _ _ hf
    simp at h
    exact ⟨user, rfl, h.1, h.2.1, h.2.2⟩

/-- A lookup by email returns nil or a live row with that email. -/
theorem FindByEmail_cases (w : World) (email : String) :
    UserRepository.FindByEmail w email = .ok none
      ∨ ∃ user, UserRepository.FindByEmail w email = .ok (some user)
          ∧ user ∈ w.users ∧ user.live = true ∧ user.Email = email := by
  unfold UserRepository.FindByEmail
  cases hf : First User.ID w.users (fun u => u.live && u.Email == email) with
  | error err =>
    left
    unfold First at hf
    cases hm : minByID User.ID (w.users.filter (fun u => u.live && u.Email == email)) with
    | none =>
      rw [hm] at hf
      cases hf
      rfl
    | some x =>
      rw [hm] at hf
      cases hf
  | ok user =>
    right
    have h := First_ok_mem _ _ _ _ hf
    simp at h
    exact ⟨user, rfl, h.1, h.2.1, h.2.2⟩

/-- A lookup by reset token returns nil or a live row that holds the token. -/
theorem FindByResetToken_cases (w : World) (token : String) :
    UserRepository.FindByResetToken w token = .ok none
      ∨ ∃ user, UserRepository.FindByResetToken w token = .ok (some user)
          ∧ user ∈ w.users ∧ user.live = true ∧ user.ResetPasswordToken = token := by
  unfold UserRepository.FindByResetToken
  cases hf : First User.ID w.users (fun u => u.live && u.ResetPasswordToken == token) with
  | error err =>
    left
    unfold First at hf
    cases hm : minByID User.ID
        (w.users.filter (fun u => u.live && u.ResetPasswordToken == token)) with
    | none =>
      rw [hm] at hf
      cases hf
      rfl
    | some x =>
      rw [hm] at hf
      cases hf
  | ok user =>
    right
    have h := First_ok_mem _ _ _ _ hf
    simp at h
    exact ⟨user, rfl, h.1, h.2.1, h.2.2⟩

/-- Every row of the table after an insert is an old row or the inserted one,
which is the row handed in with its fresh id and timestamps, as the columns
took it. -/
theorem UserRepository.Create_users (now : Time) (w : World) (user : User) :
    ∀ u ∈ (UserRepository.Create now w user).2.users,
      u ∈ w.users
        ∨ User.fit { user with
            ID := nextID (w.users.map User.ID), CreatedAt := now, UpdatedAt := now } = .ok u := by
  intro u hu
  rcases UserRepository.Create_cases now w user with ⟨err, h⟩ | ⟨row, hfit, _, h⟩
  · rw [h] at hu
    exact Or.inl hu
  · rw [h] at hu
    simp only [List.mem_append, List.mem_singleton] at hu
    rcases hu with hu | hu
    · exact Or.inl hu
    · right
      rw [hu]
      exact hfit

/-- Every row of the table after a `Save` is an old row or carries the password
hash and the reset expiry of the saved row, with a reset token that is empty
exactly when the saved one is. -/
theorem UserRepository.Update_users (now : Time) (w : World) (saved : User) :
    ∀ u ∈ (UserRepository.Update now w saved).2.users,
      u ∈ w.users ∨ (u.Password = saved.Password
        ∧ (u.ResetPasswordToken = "" ↔ saved.ResetPasswordToken = "")
        ∧ u.ResetPasswordExpiry = saved.ResetPasswordExpiry) := by
  intro u hu
  unfold UserRepository.Update at hu
  split at hu
  · rcases UserRepository.Create_users now w saved u hu with h | h
    · exact Or.inl h
    · right
      have hf := User.fit_ok_fields _ _ h
      exact ⟨hf.2.1, hf.2.2.2.2.2.2, hf.2.2.1⟩
  · split at hu
    · exact Or.inl hu
    · simp only at hu
      split at hu
      · simp only [List.mem_map] at hu
        obtain ⟨v, hv, hvu⟩ := hu
        split at hvu
        · right
          rw [← hvu]
          exact ⟨rfl, Iff.rfl, rfl⟩
        · left
          rw [← hvu]
          exact hv
      · split at hu
        · simp only [List.mem_map] at hu
          obtain ⟨v, hv, hvu⟩ := hu
          split at hvu
          · right
            rw [← hvu]
            exact ⟨rfl, Iff.rfl, rfl⟩
          · left
            rw [← hvu]
            exact hv
        · simp at hu
          rcases hu with hu | hu
          · exact Or.inl hu
          · right
            rw [hu]
            exact ⟨rfl, Iff.rfl, rfl⟩

/-! ## What the account workflows write and return -/

/-- The outcome of `Register`: either it fails and the store is returned as it
was, or the password was hashed, the new account was stored as the columns
took it, and the caller's copy with its fresh id and timestamps is returned. -/
theorem Register_outcome (H : Hasher) (amb : Ambient) (w : World) (req : RegisterRequest) :
    (∃ err, AuthService.Register H amb w req = (.error err, w))
      ∨ ∃ hashed row, H.HashPassword amb.salt req.Password = .ok hashed
          ∧ User.fit
              { newUser req hashed with
                ID := nextID (w.users.map User.ID), CreatedAt := amb.now
                UpdatedAt := amb.now } = .ok row
          ∧ AuthService.Register H amb w req
            = (.ok (AuthService.toUserResponse
                { newUser req hashed with
                  ID := nextID (w.users.map User.ID), CreatedAt := amb.now
                  UpdatedAt := amb.now }),
               { w with users := w.users ++ [row] }) := by
  rw [← RegisterInterleaved_same]
  by_cases h1 : ∃ u ∈ w.users, u.live = true ∧ u.Username = req.Username
  · left
    exact ⟨.ErrUserExists, by simp [AuthService.RegisterInterleaved, ExistsByUsername_eq, h1]⟩
  · by_cases h2 : ∃ u ∈ w.users, u.live = true ∧ u.Email = req.Email
    · left
      exact ⟨.ErrEmailExists, by
        simp [AuthService.RegisterInterleaved, ExistsByUsername_eq, ExistsByEmail_eq, h1, h2]⟩
    · cases hh : H.HashPassword amb.salt req.Password with
      | error e =>
        left
        exact ⟨.wrap "failed to hash password" e, by
          simp [AuthService.RegisterInterleaved, ExistsByUsername_eq, ExistsByEmail_eq, h1, h2,
            hh]⟩
      | ok hashed =>
        rcases UserRepository.Create_cases amb.now w (newUser req hashed) with
          ⟨err, hc⟩ | ⟨row, hfit, _, hc⟩
        · left
          exact ⟨.wrap "failed to create user" err, by
            simp only [AuthService.RegisterInterleaved, ExistsByUsername_eq, ExistsByEmail_eq,
              h1, h2, hh, hc, decide_False, Bool.false_eq_true, if_false]⟩
        · right
          refine ⟨hashed, row, rfl, hfit, ?_⟩
          simp only [AuthService.RegisterInterleaved, ExistsByUsername_eq, ExistsByEmail_eq,
            h1, h2, hh, hc, decide_False, Bool.false_eq_true, if_false]

/-- Every row of the user table after `Register` is an old row or a new
account without a reset token and without an expiry. -/
theorem Register_users (H : Hasher) (amb : Ambient) (w : World) (req : RegisterRequest) :
    ∀ u ∈ (AuthService.Register H amb w req).2.users,
      u ∈ w.users ∨ (u.ResetPasswordToken = "" ∧ u.ResetPasswordExpiry = none) := by
  intro u hu
  rcases Register_outcome H amb w req with ⟨err, h⟩ | ⟨hashed, row, _, hfit, h⟩
  · rw [h] at hu
    exact Or.inl hu
  · rw [h] at hu
    simp only [List.mem_append, List.mem_singleton] at hu
    rcases hu with hu | hu
    · exact Or.inl hu
    · right
      rw [hu]
      have hf := User.fit_ok_fields _ _ hfit
      exact ⟨hf.2.2.2.2.2.2.mpr rfl, hf.2.2.1⟩

/-! ## Properties of the listing -/

/-- The query built by `FindByUserIDWithFilters` is the conjunction of its filters. -/
theorem FindByUserIDWithFilters_eq (w : World) (userID : Nat) (status priority : String) :
    TodoRepository.FindByUserIDWithFilters w userID status priority
      = .ok (newestFirst (w.todos.filter (matchesFilters userID status priority))) := by
  unfold TodoRepository.FindByUserIDWithFilters
  have hq : (fun (t : Todo) =>
      if priority ≠ "" then
        (if status ≠ "" then (t.live && t.UserID == userID) && t.Status == status
          else (t.live && t.UserID == userID)) && t.Priority == priority
      else
        (if status ≠ "" then (t.live && t.UserID == userID) && t.Status == status
          else (t.live && t.UserID == userID)))
      = matchesFilters userID status priority := by
    funext t
    unfold matchesFilters
    have hne : ∀ s : String, s ≠ "" → (s == "") = false :=
      fun s h => beq_eq_false_iff_ne.mpr h
    by_cases hs : status = ""
    · by_cases hp : priority = ""
      · simp [hs, hp]
      · simp [hs, hp, hne priority hp]
    · by_cases hp : priority = ""
      · simp [hs, hp, hne status hs]
      · simp [hs, hp, hne status hs, hne priority hp]
  simp only [hq]

/-- The listing order is a permutation of its input. -/
theorem newestFirst_perm (todos : List Todo) : (newestFirst todos).Perm todos :=
  List.perm_insertionSort _ todos

/-- The listing order is sorted newest-created-first. -/
theorem newestFirst_sorted (todos : List Todo) : (newestFirst todos).Sorted NewerFirst := by
  haveI : IsTotal Todo (fun a b => b.CreatedAt ≤ a.CreatedAt) :=
    ⟨fun a b => Nat.le_total b.CreatedAt a.CreatedAt⟩
  haveI : IsTrans Todo (fun a b => b.CreatedAt ≤ a.CreatedAt) :=
    ⟨fun _ _ _ hab hbc => Nat.le_trans hbc hab⟩
  exact List.sorted_insertionSort (fun (a b : Todo) => b.CreatedAt ≤ a.CreatedAt) todos

/-- C21: `GetUserTodos` fails with `ErrInvalidStatus` when the status filter is
non-empty and outside the enumeration; with the status filter empty or valid it
fails with `ErrInvalidPriority` when the priority filter is non-empty and
outside the enumeration; otherwise it returns a list that holds exactly the
live rows of the todo table that belong to `userID` and match every non-empty
filter (a permutation of that selection), ordered newest-created-first, and
every returned item is live and owned by `userID`. -/
theorem GetUserTodos_filters (w : World) (userID : Nat) (status priority : String) :
    (status ≠ "" → isValidStatus status = false →
        TodoService.GetUserTodos w userID status priority = .error .ErrInvalidStatus)
    ∧ ((status = "" ∨ isValidStatus status = true) → priority ≠ "" →
        isValidPriority priority = false →
        TodoService.GetUserTodos w userID status priority = .error .ErrInvalidPriority)
    ∧ ((status = "" ∨ isValidStatus status = true) →
        (priority = "" ∨ isValidPriority priority = true) →
        ∃ todos, TodoService.GetUserTodos w userID status priority = .ok todos
          ∧ todos.Perm (w.todos.filter (matchesFilters userID status priority))
          ∧ todos.Sorted NewerFirst
          ∧ ∀ t ∈ todos, t.UserID = userID ∧ t.live = true) := by
  refine ⟨?_, ?_, ?_⟩
  · intro hs hv
    simp [TodoService.GetUserTodos, hs, hv]
  · intro hs hp hv
    rcases hs with hs | hs <;> simp [TodoService.GetUserTodos, hs, hp, hv]
  · intro hs hp
    refine ⟨newestFirst (w.todos.filter (matchesFilters userID status priority)), ?_,
      newestFirst_perm _, newestFirst_sorted _, ?_⟩
    · rw [← FindByUserIDWithFilters_eq]
      rcases hs with hs | hs <;> rcases hp with hp | hp <;>
        simp [TodoService.GetUserTodos, hs, hp]
    · intro t ht
      have hmem := (newestFirst_perm _).subset ht
      have hf := (List.mem_filter.mp hmem).2
      simp [matchesFilters] at hf
      exact ⟨hf.1.1.2, hf.1.1.1⟩

/-- Witness for C21: in the store with three todos, the filter `done` is an
invalid status, the filter `urgent` an invalid priority, the unfiltered listing
of account 1 is its two todos with the later one first, and the listing with
the status `completed` is the later todo alone. -/
theorem GetUserTodos_filters_witness :
    TodoService.GetUserTodos listWorld 1 "done" "" = .error .ErrInvalidStatus
    ∧ TodoService.GetUserTodos listWorld 1 "" "urgent" = .error .ErrInvalidPriority
    ∧ (∃ todos, TodoService.GetUserTodos listWorld 1 "" "" = .ok todos
          ∧ todos.Perm (listWorld.todos.filter (matchesFilters 1 "" ""))
          ∧ todos.Sorted NewerFirst
          ∧ ∀ t ∈ todos, t.UserID = 1 ∧ t.live = true)
    ∧ TodoService.GetUserTodos listWorld 1 "" "" = .ok [laterTodo, sampleTodo]
    ∧ TodoService.GetUserTodos listWorld 1 "completed" "" = .ok [laterTodo] :=
  ⟨(GetUserTodos_filters listWorld 1 "done" "").1 (by decide) rfl,
   (GetUserTodos_filters listWorld 1 "" "urgent").2.1 (Or.inl rfl) (by decide) rfl,
   (GetUserTodos_filters listWorld 1 "" "").2.2 (Or.inl rfl) (Or.inl rfl),
   rfl, rfl⟩

/-! ## Properties of the deletion -/

/-- C22: when `DeleteTodo` is called by the owner of a live item it succeeds,
and in the store it leaves `GetTodoByID` on that id fails with
`ErrTodoNotFound` for every caller, no listing of any account with any filters
returns an item with that id, a second `DeleteTodo` by any caller fails with
`ErrTodoNotFound` and changes nothing, while the row is still in the table,
with the time of the deletion as its tombstone and every other column as before. -/
theorem DeleteTodo_tombstones (amb : Ambient) (w : World) (todoID userID : Nat) (todo : Todo)
    (hitem : IsLiveItem w todoID todo) (howner : todo.UserID = userID) :
    ∃ w1, TodoService.DeleteTodo amb w todoID userID = (.ok (), w1)
      ∧ (∀ caller, TodoService.GetTodoByID w1 todoID caller = .error .ErrTodoNotFound)
      ∧ (∀ caller status priority todos,
          TodoService.GetUserTodos w1 caller status priority = .ok todos →
          ∀ t ∈ todos, t.ID ≠ todoID)
      ∧ (∀ amb2 caller,
          TodoService.DeleteTodo amb2 w1 todoID caller = (.error .ErrTodoNotFound, w1))
      ∧ { todo with DeletedAt := some amb.now } ∈ w1.todos
      ∧ w1.todos.length = w.todos.length := by
  have hget := GetTodoByID_of_owner w todoID userID todo hitem howner
  have habsent : ∀ t ∈ (TodoRepository.Delete amb.now w todoID).2.todos,
      t.live = true → t.ID ≠ todoID := by
    intro t ht hlive hid
    simp only [TodoRepository.Delete, List.mem_map] at ht
    obtain ⟨v, _, hvt⟩ := ht
    by_cases hc : (v.live && v.ID == todoID) = true
    · rw [if_pos hc] at hvt
      rw [← hvt] at hlive
      simp [Todo.live] at hlive
    · rw [if_neg hc] at hvt
      rw [hvt] at hc
      simp [hlive, hid] at hc
  have hget1 : ∀ caller, TodoService.GetTodoByID (TodoRepository.Delete amb.now w todoID).2
      todoID caller = .error .ErrTodoNotFound := by
    intro caller
    simp [TodoService.GetTodoByID, FindByID_of_absent _ todoID habsent, Error.Is]
  refine ⟨(TodoRepository.Delete amb.now w todoID).2, ?_, hget1, ?_, ?_, ?_, ?_⟩
  · simp [TodoService.DeleteTodo, hget, TodoRepository.Delete]
  · intro caller status priority todos hlist t ht hid
    unfold TodoService.GetUserTodos at hlist
    split at hlist
    · cases hlist
    · split at hlist
      · cases hlist
      · rw [FindByUserIDWithFilters_eq] at hlist
        have hl := Except.ok.inj hlist
        rw [← hl] at ht
        have hmem := (newestFirst_perm _).subset ht
        have hf := List.mem_filter.mp hmem
        have hlive : t.live = true := by
          have := hf.2
          simp [matchesFilters] at this
          exact this.1.1.1
        exact habsent t hf.1 hlive hid
  · intro amb2 caller
    simp [TodoService.DeleteTodo, hget1 caller]
  · simp only [TodoRepository.Delete, List.mem_map]
    refine ⟨todo, hitem.1, ?_⟩
    simp [hitem.2.1, hitem.2.2.1]
  · simp [TodoRepository.Delete]

/-- Witness for C22: account 1 deletes its todo 1 in the sample store at second 1000. -/
theorem DeleteTodo_tombstones_witness :
    ∃ w1, TodoService.DeleteTodo sampleAmbient sampleWorld 1 1 = (.ok (), w1)
      ∧ (∀ caller, TodoService.GetTodoByID w1 1 caller = .error .ErrTodoNotFound)
      ∧ (∀ caller status priority todos,
          TodoService.GetUserTodos w1 caller status priority = .ok todos →
          ∀ t ∈ todos, t.ID ≠ 1)
      ∧ (∀ amb2 caller,
          TodoService.DeleteTodo amb2 w1 1 caller = (.error .ErrTodoNotFound, w1))
      ∧ { sampleTodo with DeletedAt := some sampleAmbient.now } ∈ w1.todos
      ∧ w1.todos.length = sampleWorld.todos.length :=
  DeleteTodo_tombstones sampleAmbient sampleWorld 1 1 sampleTodo
    ⟨by simp [sampleWorld], rfl, rfl, by simp [sampleWorld]⟩ rfl

/-! ## Properties of the seeder -/

/-- C23 (code defect): the seeder, run on an empty database, writes six todos
of which the first and the fourth carry the status `in_progess`, a value that
`isValidStatus` rejects and that is outside the enumeration pending,
in_progress, completed; the priorities it writes are all in the enumeration. -/
theorem seeder_writes_unlisted_status :
    (Seeder.main sampleHasher sampleAmbient emptyWorld).todos.map Todo.Status
        = ["in_progess", "pending", "completed", "in_progess", "pending", "pending"]
      ∧ isValidStatus "in_progess" = false
      ∧ (Seeder.main sampleHasher sampleAmbient emptyWorld).todos.map Todo.Priority
        = ["high", "medium", "high", "low", "high", "medium"]
      ∧ (Seeder.main sampleHasher sampleAmbient emptyWorld).todos.map Todo.UserID
        = [1, 1, 1, 2, 2, 2] :=
  ⟨rfl, rfl, rfl, rfl⟩

/-! ## Properties of the profile update -/

/-- The lookup by id finds nothing when no live account has the id. -/
theorem FindByID_user_of_absent (w : World) (id : Nat)
    (h : ∀ u ∈ w.users, u.live = true → u.ID ≠ id) :
    UserRepository.FindByID w id = .ok none := by
  unfold UserRepository.FindByID
  rw [First_of_none User.ID w.users _ (fun x hx => by
    by_cases hl : x.live = true
    · simp [hl, h x hx hl]
    · simp [hl])]
  rfl

/-- C25 (code defect): `UpdateProfile` fails with `ErrUserNotFound` and leaves
the store as it was when no live account has the id; but when a new email is
provided, differs from the current one and the lookup by email returns another
account, it fails with `ErrUserExists`, the username-already-exists error, not
with `ErrEmailExists`, the email-already-exists error; the store is left as it
was. -/
theorem UpdateProfile_email_conflict_is_ErrUserExists (amb : Ambient) (w : World)
    (userID : Nat) (req : UserUpdateRequest) :
    ((∀ u ∈ w.users, u.live = true → u.ID ≠ userID) →
        AuthService.UpdateProfile amb w userID req = (.error .ErrUserNotFound, w))
    ∧ (∀ user other, UserRepository.FindByID w userID = .ok (some user) →
        req.Email ≠ "" → req.Email ≠ user.Email →
        UserRepository.FindByEmail w req.Email = .ok (some other) → other.ID ≠ userID →
        AuthService.UpdateProfile amb w userID req = (.error .ErrUserExists, w)
          ∧ Error.ErrUserExists ≠ Error.ErrEmailExists
          ∧ Error.ErrUserExists.Is .ErrEmailExists = false
          ∧ Error.ErrUserExists.message = "username already exists") := by
  refine ⟨?_, ?_⟩
  · intro h
    simp [AuthService.UpdateProfile, FindByID_user_of_absent w userID h]
  · intro user other hfind h1 h2 hmail hother
    refine ⟨?_, by decide, rfl, rfl⟩
    simp [AuthService.UpdateProfile, hfind, h1, h2, hmail, hother]

/-- Witness for C25: account 9 does not exist in the store of two accounts,
and account 2 asking for the email of account 1 is told that the username
already exists. -/
theorem UpdateProfile_email_conflict_is_ErrUserExists_witness :
    AuthService.UpdateProfile sampleAmbient twoUserWorld 9 { Email := "", FullName := "N" }
        = (.error .ErrUserNotFound, twoUserWorld)
    ∧ (AuthService.UpdateProfile sampleAmbient twoUserWorld 2
          { Email := "u1@x.com", FullName := "" } = (.error .ErrUserExists, twoUserWorld)
        ∧ Error.ErrUserExists ≠ Error.ErrEmailExists
        ∧ Error.ErrUserExists.Is .ErrEmailExists = false
        ∧ Error.ErrUserExists.message = "username already exists") :=
  ⟨(UpdateProfile_email_conflict_is_ErrUserExists sampleAmbient twoUserWorld 9
      { Email := "", FullName := "N" }).1
      (by simp [twoUserWorld, sampleUser, secondUser]),
   (UpdateProfile_email_conflict_is_ErrUserExists sampleAmbient twoUserWorld 2
      { Email := "u1@x.com", FullName := "" }).2 secondUser sampleUser rfl
      (by decide) (by decide) rfl (by decide)⟩

/-- A successful `Save` of a row that carries the id of a live stored row of a
keyed table replaces that row, stamps the update time and leaves the other
rows as they were. -/
theorem UserRepository.Update_ok_keyed (now : Time) (w w1 : World) (user saved result : User)
    (hkeyed : UsersKeyed w) (hmem : user ∈ w.users) (hlive : user.live = true)
    (hid : saved.ID = user.ID)
    (hok : UserRepository.Update now w saved = (.ok result, w1)) :
    result = { saved with UpdatedAt := now }
      ∧ w1 = { w with users := w.users.map (fun u =>
                if u = user then { saved with UpdatedAt := now } else u) } := by
  obtain ⟨hnz, hpk, _, _⟩ := hkeyed
  have hkey : saved.ID ≠ 0 := by
    rw [hid]
    exact hnz user hmem
  have hany : w.users.any (fun u => u.live && u.ID == saved.ID) = true := by
    rw [List.any_eq_true]
    exact ⟨user, hmem, by simp [hlive, hid]⟩
  have hmap : w.users.map (fun u =>
        if (u.live && u.ID == saved.ID) = true then { saved with UpdatedAt := now } else u)
      = w.users.map (fun u => if u = user then { saved with UpdatedAt := now } else u) := by
    apply List.map_congr_left
    intro u hu
    by_cases heq : u = user
    · simp [heq, hlive, hid]
    · have hno : ¬ u.ID = saved.ID := by
        rw [hid]
        exact fun h => heq (hpk u hu user hmem h)
      simp [heq, hno]
  unfold UserRepository.Update at hok
  rw [if_neg hkey] at hok
  split at hok
  · cases hok
  · simp only [hany, if_true] at hok
    rw [hmap] at hok
    have h1 := (Prod.mk.inj hok).1
    have h2 := (Prod.mk.inj hok).2
    exact ⟨(Except.ok.inj h1).symm, h2.symm⟩

/-- A successful `UpdateProfile` on a found account is a successful `Save` of
the account with the provided fields applied. -/
theorem UpdateProfile_ok_inv (amb : Ambient) (w w1 : World) (userID : Nat)
    (req : UserUpdateRequest) (resp : UserResponse) (user : User)
    (hfind : UserRepository.FindByID w userID = .ok (some user))
    (hok : AuthService.UpdateProfile amb w userID req = (.ok resp, w1)) :
    ∃ r, UserRepository.Update amb.now w
          { user with
            Email := if req.Email = "" then user.Email else req.Email
            Fullname := if req.FullName = "" then user.Fullname else req.FullName }
        = (.ok r, w1) ∧ resp = AuthService.toUserResponse r := by
  unfold AuthService.UpdateProfile at hok
  rw [hfind] at hok
  simp only at hok
  have fin : ∀ (u2 : User),
      (match UserRepository.Update amb.now w u2 with
        | (.error err, w1) => ((.error (.wrap "failed to update user" err) :
            Except Error UserResponse), w1)
        | (.ok saved, w1) => (.ok (AuthService.toUserResponse saved), w1)) = (.ok resp, w1) →
      ∃ r, UserRepository.Update amb.now w u2 = (.ok r, w1)
        ∧ resp = AuthService.toUserResponse r := by
    intro u2 h
    rcases hu : UserRepository.Update amb.now w u2 with ⟨r, w2⟩
    rw [hu] at h
    cases r with
    | error e => simp at h
    | ok r =>
      simp at h
      exact ⟨r, by rw [h.2], h.1.symm⟩
  by_cases he : req.Email = ""
  · by_cases hf : req.FullName = ""
    · simp [he, hf] at hok ⊢
      exact fin _ hok
    · simp [he, hf] at hok ⊢
      exact fin _ hok
  · have hE : (if req.Email = "" then user.Email else req.Email) = req.Email := if_neg he
    rw [hE]
    by_cases he2 : req.Email = user.Email
    · have hc : (decide (req.Email ≠ "") && decide (req.Email ≠ user.Email)) = false := by
        simp [he2]
      rw [hc] at hok
      simp only [Bool.false_eq_true, if_false] at hok
      have hu : ({ user with Email := req.Email } : User) = user := by rw [he2]
      by_cases hf : req.FullName = ""
      · simp only [hf, ne_eq, not_true_eq_false, if_false, if_true] at hok ⊢
        rw [hu]
        exact fin _ hok
      · simp only [hf, ne_eq, not_false_eq_true, if_false, if_true] at hok ⊢
        rw [he2]
        exact fin _ hok
    · have hc : (decide (req.Email ≠ "") && decide (req.Email ≠ user.Email)) = true := by
        simp [he, he2]
      rw [hc] at hok
      simp only [if_true] at hok
      cases hm : UserRepository.FindByEmail w req.Email with
      | error e =>
        rw [hm] at hok
        simp at hok
      | ok existing =>
        rw [hm] at hok
        cases existing with
        | none =>
          simp only at hok
          by_cases hf : req.FullName = ""
          · simp only [hf, ne_eq, not_true_eq_false, if_false, if_true] at hok ⊢
            exact fin _ hok
          · simp only [hf, ne_eq, not_false_eq_true, if_false, if_true] at hok ⊢
            exact fin _ hok
        | some ex =>
          simp only at hok
          by_cases hx : ex.ID = userID
          · simp only [hx, ne_eq, not_true_eq_false, if_false] at hok
            by_cases hf : req.FullName = ""
            · simp only [hf, ne_eq, not_true_eq_false, if_false, if_true] at hok ⊢
              exact fin _ hok
            · simp only [hf, ne_eq, not_false_eq_true, if_false, if_true] at hok ⊢
              exact fin _ hok
          · simp [hx] at hok

/-- C26, counterexample: a profile update with both fields omitted succeeds at
second 2000 on the account stored at second 1000 and changes an account field,
the update timestamp, from second 1000 to second 2000. -/
theorem UpdateProfile_empty_request_counterexample :
    (AuthService.UpdateProfile laterAmbient sampleWorld 1 { Email := "", FullName := "" }).1
        = .ok (AuthService.toUserResponse { sampleUser with UpdatedAt := 2000 * Second })
      ∧ (AuthService.UpdateProfile laterAmbient sampleWorld 1
            { Email := "", FullName := "" }).2.users
          = [{ sampleUser with UpdatedAt := 2000 * Second }]
      ∧ sampleWorld.users = [sampleUser]
      ∧ sampleUser.UpdatedAt = 1000 * Second
      ∧ ({ sampleUser with UpdatedAt := 2000 * Second } : User) ≠ sampleUser :=
  ⟨rfl, rfl, rfl, rfl, by decide⟩

/-- C26 (amended): on a keyed table a successful `UpdateProfile` replaces the
row of the live account with that id by the same row with the email replaced
when a non-empty email was provided, the full name replaced when a non-empty
full name was provided, and the update timestamp set to the time of the call;
it returns the response of that row and leaves every other row, the todos and
the outbox as they were. The id, username, password hash, reset token, reset
expiry, creation time and tombstone of the row are kept; with both fields
omitted only the update timestamp changes. -/
theorem UpdateProfile_frame (amb : Ambient) (w w1 : World) (userID : Nat)
    (req : UserUpdateRequest) (resp : UserResponse) (hkeyed : UsersKeyed w)
    (hok : AuthService.UpdateProfile amb w userID req = (.ok resp, w1)) :
    ∃ user saved, IsAccount w userID user
      ∧ saved = { user with
                  Email := if req.Email = "" then user.Email else req.Email
                  Fullname := if req.FullName = "" then user.Fullname else req.FullName
                  UpdatedAt := amb.now }
      ∧ resp = AuthService.toUserResponse saved
      ∧ w1 = { w with users := w.users.map (fun u => if u = user then saved else u) }
      ∧ saved.ID = user.ID ∧ saved.Username = user.Username
      ∧ saved.Password = user.Password
      ∧ saved.ResetPasswordToken = user.ResetPasswordToken
      ∧ saved.ResetPasswordExpiry = user.ResetPasswordExpiry
      ∧ saved.CreatedAt = user.CreatedAt ∧ saved.DeletedaT = user.DeletedaT
      ∧ (req.Email = "" → saved.Email = user.Email)
      ∧ (req.FullName = "" → saved.Fullname = user.Fullname)
      ∧ (req.Email = "" → req.FullName = "" → saved = { user with UpdatedAt := amb.now }) := by
  rcases FindByID_user_cases w userID with hnone | ⟨user, hfind, hmem, hlive, hid⟩
  · simp [AuthService.UpdateProfile, hnone] at hok
  · obtain ⟨r, hupd, hresp⟩ := UpdateProfile_ok_inv amb w w1 userID req resp user hfind hok
    obtain ⟨hr, hw⟩ := UserRepository.Update_ok_keyed amb.now w w1 user
      { user with
        Email := if req.Email = "" then user.Email else req.Email
        Fullname := if req.FullName = "" then user.Fullname else req.FullName }
      r hkeyed hmem hlive rfl hupd
    refine ⟨user, _, ⟨hmem, hlive, hid⟩, rfl, ?_, ?_, rfl, rfl, rfl, rfl, rfl, rfl, rfl, ?_, ?_,
      ?_⟩
    · rw [hresp, hr]
    · exact hw
    · intro h
      simp [h]
    · intro h
      simp [h]
    · intro h1 h2
      simp [h1, h2]

/-- Witness for C26: account 1 of the sample store changes its email at second
2000 and omits the full name. -/
theorem UpdateProfile_frame_witness :
    ∃ user saved, IsAccount sampleWorld 1 user
      ∧ saved = { user with
                  Email := if ("new@x.com" : String) = "" then user.Email else "new@x.com"
                  Fullname := if ("" : String) = "" then user.Fullname else ""
                  UpdatedAt := laterAmbient.now }
      ∧ AuthService.toUserResponse
          { sampleUser with Email := "new@x.com", UpdatedAt := 2000 * Second }
          = AuthService.toUserResponse saved
      ∧ ({ sampleWorld with
            users := [{ sampleUser with Email := "new@x.com", UpdatedAt := 2000 * Second }] }
          : World)
          = { sampleWorld with
              users := sampleWorld.users.map (fun u => if u = user then saved else u) }
      ∧ saved.ID = user.ID ∧ saved.Username = user.Username
      ∧ saved.Password = user.Password
      ∧ saved.ResetPasswordToken = user.ResetPasswordToken
      ∧ saved.ResetPasswordExpiry = user.ResetPasswordExpiry
      ∧ saved.CreatedAt = user.CreatedAt ∧ saved.DeletedaT = user.DeletedaT
      ∧ (("new@x.com" : String) = "" → saved.Email = user.Email)
      ∧ (("" : String) = "" → saved.Fullname = user.Fullname)
      ∧ (("new@x.com" : String) = "" → ("" : String) = "" →
          saved = { user with UpdatedAt := laterAmbient.now }) :=
  UpdateProfile_frame laterAmbient sampleWorld
    { sampleWorld with
      users := [{ sampleUser with Email := "new@x.com", UpdatedAt := 2000 * Second }] }
    1 { Email := "new@x.com", FullName := "" }
    (AuthService.toUserResponse
      { sampleUser with Email := "new@x.com", UpdatedAt := 2000 * Second })
    ⟨by simp [sampleWorld, sampleUser], by simp [sampleWorld], by simp [sampleWorld],
      by simp [sampleWorld]⟩
    rfl

/-! ## Properties of the reset request -/

/-- The lookup by email finds the live account. -/
theorem FindByEmail_of_holder (w : World) (email : String) (user : User)
    (h : IsEmailHolder w email user) :
    UserRepository.FindByEmail w email = .ok (some user) := by
  obtain ⟨hmem, hlive, hmail, huniq⟩ := h
  unfold UserRepository.FindByEmail
  rw [First_of_unique User.ID w.users _ user hmem (by simp [hlive, hmail])
    (fun x hx hc => by
      simp at hc
      exact huniq x hx hc.1 hc.2)]

/-- The lookup by email finds nothing when no live account has the email. -/
theorem FindByEmail_of_absent (w : World) (email : String)
    (h : ∀ u ∈ w.users, u.live = true → u.Email ≠ email) :
    UserRepository.FindByEmail w email = .ok none := by
  unfold UserRepository.FindByEmail
  rw [First_of_none User.ID w.users _ (fun x hx => by
    by_cases hl : x.live = true
    · simp [hl, h x hx hl]
    · simp [hl])]
  rfl

/-- The token of a reset request has 43 characters. -/
theorem resetToken_length (amb : Ambient) :
    (String.mk (rawURLEncode (randomBytes amb))).length = 43 := rfl

/-- Every six-bit value is written as a character of the URL-safe alphabet. -/
theorem base64URLChar_mem (n : Nat) : base64URLChar n ∈ base64URLAlphabet := by
  unfold base64URLChar
  have hlt : n % 64 < base64URLAlphabet.length := by
    have : base64URLAlphabet.length = 64 := rfl
    rw [this]
    exact Nat.mod_lt _ (by decide)
  rw [List.getD_eq_getElem _ _ hlt]
  exact List.getElem_mem hlt

/-- The encoding of any byte list uses characters of the URL-safe alphabet
only; in particular it has no padding character. -/
theorem rawURLEncode_alphabet : ∀ (l : List Nat) (x : Char),
    x ∈ rawURLEncode l → x ∈ base64URLAlphabet
  | [], x, h => by simp [rawURLEncode] at h
  | [a], x, h => by
    simp only [rawURLEncode, List.mem_cons, List.mem_singleton, List.not_mem_nil, or_false] at h
    rcases h with h | h <;> rw [h] <;> exact base64URLChar_mem _
  | [a, b], x, h => by
    simp only [rawURLEncode, List.mem_cons, List.mem_singleton, List.not_mem_nil, or_false] at h
    rcases h with h | h | h <;> rw [h] <;> exact base64URLChar_mem _
  | a :: b :: c :: rest, x, h => by
    simp only [rawURLEncode, List.mem_cons] at h
    rcases h with h | h | h | h | h
    · rw [h]; exact base64URLChar_mem _
    · rw [h]; exact base64URLChar_mem _
    · rw [h]; exact base64URLChar_mem _
    · rw [h]; exact base64URLChar_mem _
    · exact rawURLEncode_alphabet rest x h

/-- C27: `RequestPasswordReset` fails with `ErrUserNotFound` and returns the
store as it was when no live account has the email; when an account of a keyed
table holds the email it succeeds, writes on that row and on no other the token
and an expiry exactly one hour after the time of the call, and hands the mailer
one message to the address of the account whose link ends in exactly that
token. The token is the unpadded URL-safe base64 text of the 32 bytes read from
the random source: it has 43 characters, all from the URL-safe alphabet. -/
theorem RequestPasswordReset_effect (amb : Ambient) (w : World) (email serverPort : String) :
    ((∀ u ∈ w.users, u.live = true → u.Email ≠ email) →
        AuthService.RequestPasswordReset amb w email serverPort = (.error .ErrUserNotFound, w))
    ∧ (∀ user, UsersKeyed w → IsEmailHolder w email user →
        AuthService.RequestPasswordReset amb w email serverPort
          = (.ok (),
             { w with
               users := w.users.map (fun u =>
                 if u = user then
                   { user with
                     ResetPasswordToken := String.mk (rawURLEncode (randomBytes amb))
                     ResetPasswordExpiry := some (amb.now + Hour)
                     UpdatedAt := amb.now }
                 else u)
               outbox := w.outbox ++
                 [(user.Email, "http://localhost:" ++ serverPort
                    ++ "/api/v1/auth/reset-password/confirm?token="
                    ++ String.mk (rawURLEncode (randomBytes amb)))] }))
    ∧ (randomBytes amb).length = 32
    ∧ (∀ b ∈ randomBytes amb, b < 256)
    ∧ (String.mk (rawURLEncode (randomBytes amb))).length = 43
    ∧ (∀ x ∈ (String.mk (rawURLEncode (randomBytes amb))).data, x ∈ base64URLAlphabet) := by
  refine ⟨?_, ?_, rfl, ?_, rfl, ?_⟩
  · intro h
    simp [AuthService.RequestPasswordReset, FindByEmail_of_absent w email h]
  · intro user hkeyed hholder
    have hfind := FindByEmail_of_holder w email user hholder
    obtain ⟨hmem, hlive, _, _⟩ := hholder
    obtain ⟨_, hpk, _, _⟩ := hkeyed
    have hmap : ∀ (f : User → User), w.users.map (fun u =>
          if (u.live && u.ID == user.ID) = true then f u else u)
        = w.users.map (fun u => if u = user then f user else u) := by
      intro f
      apply List.map_congr_left
      intro u hu
      by_cases heq : u = user
      · simp [heq, hlive]
      · have hno : ¬ u.ID = user.ID := fun h => heq (hpk u hu user hmem h)
        simp [heq, hno]
    simp only [AuthService.RequestPasswordReset, hfind, UserRepository.SaveResetToken,
      SendResetEmail, Nat.one_mul]
    rw [hmap (fun u => { u with
      ResetPasswordToken := String.mk (rawURLEncode (randomBytes amb))
      ResetPasswordExpiry := some (amb.now + Hour)
      UpdatedAt := amb.now })]
  · intro b hb
    simp only [randomBytes, List.mem_map] at hb
    obtain ⟨i, _, hi⟩ := hb
    rw [← hi]
    exact Nat.mod_lt _ (by decide)
  · intro x hx
    exact rawURLEncode_alphabet _ x hx

/-- Witness for C27: a reset request for an unknown address, and one for the
address of account 1 of the sample store at second 1000 with the port 8080. -/
theorem RequestPasswordReset_effect_witness :
    AuthService.RequestPasswordReset sampleAmbient sampleWorld "nobody@x.com" "8080"
        = (.error .ErrUserNotFound, sampleWorld)
    ∧ AuthService.RequestPasswordReset sampleAmbient sampleWorld "u1@x.com" "8080"
        = (.ok (),
           { sampleWorld with
             users := sampleWorld.users.map (fun u =>
               if u = sampleUser then
                 { sampleUser with
                   ResetPasswordToken := String.mk (rawURLEncode (randomBytes sampleAmbient))
                   ResetPasswordExpiry := some (sampleAmbient.now + Hour)
                   UpdatedAt := sampleAmbient.now }
               else u)
             outbox := sampleWorld.outbox ++
               [(sampleUser.Email, "http://localhost:" ++ "8080"
                  ++ "/api/v1/auth/reset-password/confirm?token="
                  ++ String.mk (rawURLEncode (randomBytes sampleAmbient)))] })
    ∧ String.mk (rawURLEncode (randomBytes sampleAmbient))
        = "AAECAwQFBgcICQoLDA0ODxAREhMUFRYXGBkaGxwdHh8" :=
  ⟨(RequestPasswordReset_effect sampleAmbient sampleWorld "nobody@x.com" "8080").1
      (by simp [sampleWorld, sampleUser]),
   (RequestPasswordReset_effect sampleAmbient sampleWorld "u1@x.com" "8080").2.1 sampleUser
      ⟨by simp [sampleWorld, sampleUser], by simp [sampleWorld], by simp [sampleWorld],
        by simp [sampleWorld]⟩
      ⟨by simp [sampleWorld], rfl, rfl, by simp [sampleWorld]⟩,
   by decide⟩

/-! ## The pairing of reset token and expiry -/

/-- The store after `UpdateProfile` is the store before it, or the result of
one `Save` of a row that carries the password hash, reset token and expiry of a
stored row. -/
theorem UpdateProfile_world (amb : Ambient) (w : World) (userID : Nat)
    (req : UserUpdateRequest) :
    (AuthService.UpdateProfile amb w userID req).2 = w
      ∨ ∃ user ∈ w.users, ∃ u2 : User,
          u2.ResetPasswordToken = user.ResetPasswordToken
            ∧ u2.ResetPasswordExpiry = user.ResetPasswordExpiry
            ∧ u2.Password = user.Password
            ∧ (AuthService.UpdateProfile amb w userID req).2
                = (UserRepository.Update amb.now w u2).2 := by
  rcases FindByID_user_cases w userID with hnone | ⟨user, hfind, hmem, _, _⟩
  · left
    simp [AuthService.UpdateProfile, hnone]
  · unfold AuthService.UpdateProfile
    rw [hfind]
    simp only
    split
    · left
      rfl
    · rename_i user2 heq
      have hfacts : user2.ResetPasswordToken = user.ResetPasswordToken
          ∧ user2.ResetPasswordExpiry = user.ResetPasswordExpiry
          ∧ user2.Password = user.Password := by
        split at heq
        · split at heq
          · cases heq
          · split at heq
            · split at heq
              · cases heq
              · cases heq
                exact ⟨rfl, rfl, rfl⟩
            · cases heq
              exact ⟨rfl, rfl, rfl⟩
        · cases heq
          exact ⟨rfl, rfl, rfl⟩
      right
      refine ⟨user, hmem,
        (if req.FullName ≠ "" then { user2 with Fullname := req.FullName } else user2),
        ?_, ?_, ?_, ?_⟩
      · by_cases hf : req.FullName = "" <;> simp [hf, hfacts.1]
      · by_cases hf : req.FullName = "" <;> simp [hf, hfacts.2.1]
      · by_cases hf : req.FullName = "" <;> simp [hf, hfacts.2.2]
      · rcases hu : UserRepository.Update amb.now w
            (if req.FullName ≠ "" then { user2 with Fullname := req.FullName } else user2)
          with ⟨r, w2⟩
        cases r <;> rfl

/-- Every row of the user table after `UpdateProfile` is an old row or carries
the password hash and the expiry of an old row, with a reset token that is
empty exactly when the token of that old row is. -/
theorem UpdateProfile_users (amb : Ambient) (w : World) (userID : Nat)
    (req : UserUpdateRequest) :
    ∀ u ∈ (AuthService.UpdateProfile amb w userID req).2.users,
      u ∈ w.users ∨ ∃ v ∈ w.users, (u.ResetPasswordToken = "" ↔ v.ResetPasswordToken = "")
        ∧ u.ResetPasswordExpiry = v.ResetPasswordExpiry ∧ u.Password = v.Password := by
  intro u hu
  rcases UpdateProfile_world amb w userID req with h | ⟨user, hmem, u2, h1, h2, h3, h⟩
  · rw [h] at hu
    exact Or.inl hu
  · rw [h] at hu
    rcases UserRepository.Update_users amb.now w u2 u hu with hold | hnew
    · exact Or.inl hold
    · exact Or.inr ⟨user, hmem, by rw [hnew.2.1, h1], by rw [hnew.2.2, h2],
        by rw [hnew.1, h3]⟩

/-- The store after `RequestPasswordReset` is the store before it, or the rows
before it with the token and a non-null expiry written on some of them, and one
more message in the outbox. -/
theorem RequestPasswordReset_users (amb : Ambient) (w : World) (email serverPort : String) :
    ∀ u ∈ (AuthService.RequestPasswordReset amb w email serverPort).2.users,
      u ∈ w.users ∨ ∃ v ∈ w.users, u.Password = v.Password
        ∧ u.ResetPasswordToken = String.mk (rawURLEncode (randomBytes amb))
        ∧ u.ResetPasswordExpiry = some (amb.now + Hour) := by
  intro u hu
  rcases FindByEmail_cases w email with hnone | ⟨user, hfind, _, _, _⟩
  · simp [AuthService.RequestPasswordReset, hnone] at hu
    exact Or.inl hu
  · simp only [AuthService.RequestPasswordReset, hfind, UserRepository.SaveResetToken,
      SendResetEmail, Nat.one_mul, List.mem_map] at hu
    obtain ⟨v, hv, hvu⟩ := hu
    split at hvu
    · right
      rw [← hvu]
      exact ⟨v, hv, rfl, rfl, rfl⟩
    · left
      rw [← hvu]
      exact hv

/-- A failed `Save` leaves the store as it was. -/
theorem UserRepository.Update_error_world (now : Time) (w w1 : World) (user : User)
    (err : Error) (h : UserRepository.Update now w user = (.error err, w1)) : w1 = w := by
  unfold UserRepository.Update at h
  split at h
  · rcases UserRepository.Create_cases now w user with ⟨e, hc⟩ | ⟨row, _, _, hc⟩
    · rw [hc] at h
      exact ((Prod.mk.inj h).2).symm
    · rw [hc] at h
      cases h
  · split at h
    · exact ((Prod.mk.inj h).2).symm
    · simp only at h
      split at h
      · cases h
      · split at h
        · cases h
        · cases h

/-- The outcome of `ResetPassword`: either it fails and returns the store as
it was, or the lookup by token found an account whose expiry is not in the
past, the new password was hashed, and one `Save` of that account with the new
hash, an empty reset token and a null expiry succeeded and produced the store
that is returned. -/
theorem ResetPassword_cases (H : Hasher) (amb : Ambient) (w : World)
    (token newPassword : String) :
    (∃ err, AuthService.ResetPassword H amb w token newPassword = (.error err, w))
      ∨ ∃ user hashed saved w1, UserRepository.FindByResetToken w token = .ok (some user)
          ∧ (∃ expiry, user.ResetPasswordExpiry = some expiry ∧ amb.now ≤ expiry)
          ∧ H.HashPassword amb.salt newPassword = .ok hashed
          ∧ UserRepository.Update amb.now w
                { user with Password := hashed, ResetPasswordToken := ""
                            ResetPasswordExpiry := none } = (.ok saved, w1)
          ∧ AuthService.ResetPassword H amb w token newPassword = (.ok (), w1) := by
  rcases FindByResetToken_cases w token with hnone | ⟨user, hfind, _, _, _⟩
  · left
    exact ⟨.ErrUserNotFound, by simp [AuthService.ResetPassword, hnone]⟩
  · cases hexp : user.ResetPasswordExpiry with
    | none =>
      left
      exact ⟨.new "reset token expired or invalid", by
        simp [AuthService.ResetPassword, hfind, hexp]⟩
    | some expiry =>
      by_cases hlt : expiry < amb.now
      · left
        exact ⟨.new "reset token expired or invalid", by
          simp [AuthService.ResetPassword, hfind, hexp, hlt]⟩
      · cases hh : H.HashPassword amb.salt newPassword with
        | error e =>
          left
          exact ⟨.wrap "failed to hash password" e, by
            simp [AuthService.ResetPassword, hfind, hexp, hlt, hh]⟩
        | ok hashed =>
          rcases hu : UserRepository.Update amb.now w
              { user with Password := hashed, ResetPasswordToken := ""
                          ResetPasswordExpiry := none } with ⟨r, w1⟩
          cases r with
          | error e =>
            left
            have hw := UserRepository.Update_error_world _ _ _ _ _ hu
            rw [hw] at hu
            exact ⟨.wrap "failed to update user password" e, by
              simp [AuthService.ResetPassword, hfind, hexp, hlt, hh, hu]⟩
          | ok saved =>
            right
            refine ⟨user, hashed, saved, w1, hfind, ⟨expiry, hexp, Nat.not_lt.mp hlt⟩, rfl, hu, ?_⟩
            simp [AuthService.ResetPassword, hfind, hexp, hlt, hh, hu]

/-- Every row of the user table after `ResetPassword` is an old row or has an
empty reset token and a null expiry. -/
theorem ResetPassword_users (H : Hasher) (amb : Ambient) (w : World)
    (token newPassword : String) :
    ∀ u ∈ (AuthService.ResetPassword H amb w token newPassword).2.users,
      u ∈ w.users ∨ (u.ResetPasswordToken = "" ∧ u.ResetPasswordExpiry = none) := by
  intro u hu
  rcases ResetPassword_cases H amb w token newPassword with
    ⟨err, h⟩ | ⟨user, hashed, saved, w1, _, _, _, hupd, h⟩
  · rw [h] at hu
    exact Or.inl hu
  · rw [h] at hu
    have hu2 : u ∈ (UserRepository.Update amb.now w
        { user with Password := hashed, ResetPasswordToken := ""
                    ResetPasswordExpiry := none }).2.users := by
      rw [hupd]
      exact hu
    rcases UserRepository.Update_users amb.now w _ u hu2 with hold | hnew
    · exact Or.inl hold
    · exact Or.inr ⟨hnew.2.1.mpr rfl, hnew.2.2⟩

/-- In every state that the four account workflows reach from the empty store,
the reset token of a row is empty exactly when its expiry is null. -/
theorem Reachable_paired (H : Hasher) (w : World) (h : Reachable H w) :
    TokenExpiryPaired w := by
  induction h with
  | init =>
    intro u hu
    simp [emptyWorld] at hu
  | register w amb req _ ih =>
    intro u hu
    rcases Register_users H amb w req u hu with hold | hnew
    · exact ih u hold
    · simp [hnew.1, hnew.2]
  | updateProfile w amb userID req _ ih =>
    intro u hu
    rcases UpdateProfile_users amb w userID req u hu with hold | ⟨v, hv, h1, h2, _⟩
    · exact ih u hold
    · rw [h2]
      exact h1.trans (ih v hv)
  | requestPasswordReset w amb email serverPort _ ih =>
    intro u hu
    rcases RequestPasswordReset_users amb w email serverPort u hu with
      hold | ⟨v, _, _, h1, h2⟩
    · exact ih u hold
    · rw [h1, h2]
      have hne : String.mk (rawURLEncode (randomBytes amb)) ≠ "" := by
        intro hempty
        have hlen := resetToken_length amb
        rw [hempty] at hlen
        cases hlen
      simp [hne]
  | resetPassword w amb token newPassword _ ih =>
    intro u hu
    rcases ResetPassword_users H amb w token newPassword u hu with hold | hnew
    · exact ih u hold
    · simp [hnew.1, hnew.2]

/-- The row returned by a successful `Save` carries the password hash, reset
token and expiry of the row handed in. -/
theorem UserRepository.Update_ok_fields (now : Time) (w w1 : World) (user saved : User)
    (h : UserRepository.Update now w user = (.ok saved, w1)) :
    saved.Password = user.Password ∧ saved.ResetPasswordToken = user.ResetPasswordToken
      ∧ saved.ResetPasswordExpiry = user.ResetPasswordExpiry := by
  unfold UserRepository.Update at h
  split at h
  · rcases UserRepository.Create_cases now w user with ⟨e, hc⟩ | ⟨row, _, _, hc⟩
    · rw [hc] at h
      cases h
    · rw [hc] at h
      cases h
      exact ⟨rfl, rfl, rfl⟩
  · split at h
    · cases h
    · simp only at h
      split at h
      · cases h
        exact ⟨rfl, rfl, rfl⟩
      · split at h
        · cases h
          exact ⟨rfl, rfl, rfl⟩
        · cases h
          exact ⟨rfl, rfl, rfl⟩

/-- C24: in every state that Register, UpdateProfile, RequestPasswordReset and
ResetPassword reach from the empty store, an account with a non-empty reset
token has a non-null expiry; and whenever `ResetPassword` succeeds in such a
state, the store it returns is the result of a single `Save` of the account
found by the token, and that one row carries the hash of the new password
together with an empty reset token and a null expiry: every row of the new
store is a row of the old store or has the new hash, the empty token and the
null expiry at once. -/
theorem reset_token_paired_and_cleared (H : Hasher) (w : World) (hreach : Reachable H w) :
    (∀ u ∈ w.users, u.ResetPasswordToken ≠ "" → u.ResetPasswordExpiry ≠ none)
    ∧ ∀ (amb : Ambient) (token newPassword : String) (w1 : World),
        AuthService.ResetPassword H amb w token newPassword = (.ok (), w1) →
        ∃ user hashed saved, UserRepository.FindByResetToken w token = .ok (some user)
          ∧ H.HashPassword amb.salt newPassword = .ok hashed
          ∧ UserRepository.Update amb.now w
                { user with Password := hashed, ResetPasswordToken := ""
                            ResetPasswordExpiry := none } = (.ok saved, w1)
          ∧ saved.Password = hashed ∧ saved.ResetPasswordToken = ""
          ∧ saved.ResetPasswordExpiry = none
          ∧ ∀ u ∈ w1.users, u ∈ w.users
              ∨ (u.Password = hashed ∧ u.ResetPasswordToken = ""
                  ∧ u.ResetPasswordExpiry = none) := by
  refine ⟨?_, ?_⟩
  · intro u hu htok hexp
    exact htok ((Reachable_paired H w hreach u hu).mpr hexp)
  · intro amb token newPassword w1 hok
    rcases ResetPassword_cases H amb w token newPassword with
      ⟨err, h⟩ | ⟨user, hashed, saved, w2, hfind, _, hhash, hupd, h⟩
    · rw [h] at hok
      cases hok
    · rw [h] at hok
      have hw : w2 = w1 := (Prod.mk.inj hok).2
      rw [hw] at hupd
      have hf := UserRepository.Update_ok_fields _ _ _ _ _ hupd
      refine ⟨user, hashed, saved, hfind, hhash, hupd, hf.1, hf.2.1, hf.2.2, ?_⟩
      intro u hu
      have hu2 : u ∈ (UserRepository.Update amb.now w
          { user with Password := hashed, ResetPasswordToken := ""
                      ResetPasswordExpiry := none }).2.users := by
        rw [hupd]
        exact hu
      rcases UserRepository.Update_users amb.now w _ u hu2 with hold | hnew
      · exact Or.inl hold
      · exact Or.inr ⟨hnew.1, hnew.2.1.mpr rfl, hnew.2.2⟩

/-- Witness for C24: the store reached by a registration and a reset request.
Its account holds the token of the request with the expiry of second 4600, and
the confirmation with that token at second 2000 rewrites the row with the new
password, an empty token and a null expiry. -/
theorem reset_token_paired_and_cleared_witness :
    Reachable sampleHasher requestedWorld
    ∧ requestedWorld.users
        = [{ sampleUser with ResetPasswordToken := requestedToken
                             ResetPasswordExpiry := some (4600 * Second) }]
    ∧ (∀ u ∈ requestedWorld.users, u.ResetPasswordToken ≠ "" → u.ResetPasswordExpiry ≠ none)
    ∧ AuthService.ResetPassword sampleHasher laterAmbient requestedWorld requestedToken
          "newpw123"
        = (.ok (), { requestedWorld with
            users := [{ sampleUser with Password := "newpw123"
                                        UpdatedAt := 2000 * Second }] })
    ∧ ∃ user hashed saved,
        UserRepository.FindByResetToken requestedWorld requestedToken = .ok (some user)
          ∧ sampleHasher.HashPassword laterAmbient.salt "newpw123" = .ok hashed
          ∧ UserRepository.Update laterAmbient.now requestedWorld
                { user with Password := hashed, ResetPasswordToken := ""
                            ResetPasswordExpiry := none }
              = (.ok saved, { requestedWorld with
                  users := [{ sampleUser with Password := "newpw123"
                                              UpdatedAt := 2000 * Second }] })
          ∧ saved.Password = hashed ∧ saved.ResetPasswordToken = ""
          ∧ saved.ResetPasswordExpiry = none
          ∧ ∀ u ∈ ({ requestedWorld with
                users := [{ sampleUser with Password := "newpw123"
                                            UpdatedAt := 2000 * Second }] } : World).users,
              u ∈ requestedWorld.users
                ∨ (u.Password = hashed ∧ u.ResetPasswordToken = ""
                    ∧ u.ResetPasswordExpiry = none) :=
  have hreach : Reachable sampleHasher requestedWorld :=
    Reachable.requestPasswordReset _ sampleAmbient "u1@x.com" "8080"
      (Reachable.register _ sampleAmbient sampleRegister Reachable.init)
  ⟨hreach, rfl, (reset_token_paired_and_cleared sampleHasher requestedWorld hreach).1, rfl,
    (reset_token_paired_and_cleared sampleHasher requestedWorld hreach).2 laterAmbient
      requestedToken "newpw123" _ rfl⟩

/-- C29: in every state that Register, UpdateProfile, RequestPasswordReset and
ResetPassword reach from the empty store, `ResetPassword` with the empty
string as token fails and returns the store as it was, so no password changes.
This holds although every account whose expiry is null stores the empty string
as its reset token, and although the lookup by the empty token does return an
account whenever a live account is in that state: the account it returns has a
null expiry, and the call fails with the expired-or-invalid error. -/
theorem ResetPassword_empty_token_fails (H : Hasher) (w : World) (hreach : Reachable H w)
    (amb : Ambient) (newPassword : String) :
    (∃ err, AuthService.ResetPassword H amb w "" newPassword = (.error err, w))
    ∧ (∀ u ∈ w.users, u.ResetPasswordExpiry = none → u.ResetPasswordToken = "")
    ∧ ((∃ u ∈ w.users, u.live = true ∧ u.ResetPasswordToken = "") →
        ∃ user, UserRepository.FindByResetToken w "" = .ok (some user)
          ∧ user ∈ w.users ∧ user.ResetPasswordToken = ""
          ∧ user.ResetPasswordExpiry = none
          ∧ AuthService.ResetPassword H amb w "" newPassword
              = (.error (.new "reset token expired or invalid"), w)) := by
  have hpaired := Reachable_paired H w hreach
  refine ⟨?_, ?_, ?_⟩
  · rcases ResetPassword_cases H amb w "" newPassword with
      h | ⟨user, _, _, _, hfind, ⟨expiry, hexp, _⟩, _, _, _⟩
    · exact h
    · rcases FindByResetToken_cases w "" with hnone | ⟨user2, hfind2, hmem, _, htok⟩
      · rw [hnone] at hfind
        cases hfind
      · rw [hfind2] at hfind
        have hsame : user2 = user := Option.some.inj (Except.ok.inj hfind)
        rw [hsame] at hmem htok
        have hnull := (hpaired user hmem).mp htok
        rw [hnull] at hexp
        cases hexp
  · intro u hu hexp
    exact (hpaired u hu).mpr hexp
  · intro hex
    obtain ⟨u, hu, hlive, htok⟩ := hex
    rcases FindByResetToken_cases w "" with hnone | ⟨user, hfind, hmem, _, htok2⟩
    · obtain ⟨row, hrow⟩ := First_of_exists User.ID w.users
        (fun u => u.live && u.ResetPasswordToken == "") ⟨u, hu, by simp [hlive, htok]⟩
      unfold UserRepository.FindByResetToken at hnone
      rw [hrow] at hnone
      cases hnone
    · have hnull := (hpaired user hmem).mp htok2
      refine ⟨user, hfind, hmem, htok2, hnull, ?_⟩
      simp [AuthService.ResetPassword, hfind, hnull]

/-- Witness for C29: the store after one registration. Its account has the
empty reset token, the lookup by the empty token returns it, and the
confirmation with the empty token fails and leaves the store as it was. -/
theorem ResetPassword_empty_token_fails_witness :
    Reachable sampleHasher registeredWorld
    ∧ registeredWorld.users = [sampleUser]
    ∧ UserRepository.FindByResetToken registeredWorld "" = .ok (some sampleUser)
    ∧ AuthService.ResetPassword sampleHasher sampleAmbient registeredWorld "" "newpw123"
        = (.error (.new "reset token expired or invalid"), registeredWorld)
    ∧ (∃ err, AuthService.ResetPassword sampleHasher sampleAmbient registeredWorld ""
          "newpw123" = (.error err, registeredWorld)) :=
  have hreach : Reachable sampleHasher registeredWorld :=
    Reachable.register _ sampleAmbient sampleRegister Reachable.init
  ⟨hreach, rfl, rfl, rfl,
    (ResetPassword_empty_token_fails sampleHasher registeredWorld hreach sampleAmbient
      "newpw123").1⟩

/-! ## Properties of the request boundary: the todo handlers -/

/-- The errors of `GetTodoByID`. -/
theorem GetTodoByID_errors (w : World) (todoID userID : Nat) (err : Error)
    (h : TodoService.GetTodoByID w todoID userID = .error err) :
    err = .ErrTodoNotFound ∨ err = .ErrUnauthorizedAccess := by
  unfold TodoService.GetTodoByID TodoRepository.FindByID First at h
  cases hm : minByID Todo.ID (w.todos.filter (fun t => t.live && t.ID == todoID)) with
  | none =>
    rw [hm] at h
    simp [Error.Is] at h
    exact Or.inl h.symm
  | some row =>
    rw [hm] at h
    simp only at h
    split at h
    · exact Or.inr (Except.error.inj h).symm
    · cases h

/-- The query `Save` on a todo succeeds or fails with a driver error and the store
as it was. -/
theorem TodoRepository.Update_cases (now : Time) (w : World) (todo : Todo) :
    (∃ msg, TodoRepository.Update now w todo = (.error (.new msg), w))
      ∨ ∃ saved w1, TodoRepository.Update now w todo = (.ok saved, w1) := by
  unfold TodoRepository.Update
  split
  · rcases TodoRepository.Create_todo_cases now w todo with ⟨msg, h⟩ | ⟨row, _, _, h⟩
    · exact Or.inl ⟨msg, h⟩
    · exact Or.inr ⟨_, _, h⟩
  · simp only
    split
    · exact Or.inr ⟨_, _, rfl⟩
    · split
      · exact Or.inr ⟨_, _, rfl⟩
      · exact Or.inr ⟨_, _, rfl⟩

/-- The errors of `UpdateTodo`: the four sentinels of the todo workflow, or an
error made with `errors.New` (the invalid-date error and the driver errors). -/
theorem UpdateTodo_errors (amb : Ambient) (w w1 : World) (todoID userID : Nat)
    (req : UpdateTodoRequest) (err : Error)
    (h : TodoService.UpdateTodo amb w todoID userID req = (.error err, w1)) :
    err = .ErrTodoNotFound ∨ err = .ErrUnauthorizedAccess ∨ err = .ErrInvalidStatus
      ∨ err = .ErrInvalidPriority ∨ ∃ msg, err = .new msg := by
  unfold TodoService.UpdateTodo at h
  cases hget : TodoService.GetTodoByID w todoID userID with
  | error e =>
    rw [hget] at h
    have he : e = err := Except.error.inj (Prod.mk.inj h).1
    rw [← he]
    rcases GetTodoByID_errors w todoID userID e hget with h1 | h1
    · exact Or.inl h1
    · exact Or.inr (Or.inl h1)
  | ok todo =>
    rw [hget] at h
    simp only at h
    split at h
    · rename_i e heq
      have he : e = err := Except.error.inj (Prod.mk.inj h).1
      rw [← he]
      split at heq
      · split at heq
        · exact Or.inr (Or.inr (Or.inl (Except.error.inj heq).symm))
        · cases heq
      · cases heq
    · split at h
      · rename_i e heq
        have he : e = err := Except.error.inj (Prod.mk.inj h).1
        rw [← he]
        split at heq
        · split at heq
          · exact Or.inr (Or.inr (Or.inr (Or.inl (Except.error.inj heq).symm)))
          · cases heq
        · cases heq
      · split at h
        · rename_i e heq
          have he : e = err := Except.error.inj (Prod.mk.inj h).1
          rw [← he]
          split at heq
          · split at heq
            · cases heq
            · split at heq
              · exact Or.inr (Or.inr (Or.inr (Or.inr ⟨_, (Except.error.inj heq).symm⟩)))
              · cases heq
          · cases heq
        · rename_i todo3 _
          rcases TodoRepository.Update_cases amb.now w todo3 with ⟨msg, hu⟩ | ⟨saved, w2, hu⟩
          · rw [hu] at h
            have he : Error.new msg = err := Except.error.inj (Prod.mk.inj h).1
            exact Or.inr (Or.inr (Or.inr (Or.inr ⟨msg, he.symm⟩)))
          · rw [hu] at h
            cases h

/-- C28: for a request whose context holds the caller id and whose path holds
a todo id, each todo handler answers with the mapping of the result of its
workflow. The mapping sends `ErrTodoNotFound` to 404 and
`ErrUnauthorizedAccess` to 403 in GetByID, Update and Delete, and
`ErrInvalidStatus` and `ErrInvalidPriority` to 400 with the text of the error
in Update and Create. Every other error is answered with status 500 and the
fixed message of the handler: in GetByID, Delete and Create for every error
value, in Update for every error that `UpdateTodo` returns (its handler has one
more branch, for the record-not-found error of the store, which no result of
`UpdateTodo` reaches). -/
theorem todo_handlers_map_errors (D : Deps) (amb : Ambient) (c : Context) (w : World)
    (userID todoID : Nat) (hctx : c.Get "userID" = some (.uint userID))
    (hid : ParseUint32 (c.Param "id") = .ok todoID) :
    TodoHandler.GetByID D amb c w
        = TodoHandler.getByIDResponse c w (TodoService.GetTodoByID w todoID userID)
    ∧ (∀ req, ShouldBindJSON D.binder.decodeUpdateTodo validateUpdateTodoRequest c = .ok req →
        TodoHandler.Update D amb c w
          = TodoHandler.updateResponse c (TodoService.UpdateTodo amb w todoID userID req))
    ∧ TodoHandler.Delete D amb c w
        = TodoHandler.deleteResponse c (TodoService.DeleteTodo amb w todoID userID)
    ∧ (∀ req, ShouldBindJSON D.binder.decodeCreateTodo validateCreateTodoRequest c = .ok req →
        TodoHandler.Create D amb c w
          = TodoHandler.createResponse c (TodoService.CreateTodo amb w userID req))
    ∧ (∀ w1 : World,
        TodoHandler.getByIDResponse c w1 (.error .ErrTodoNotFound)
            = (c.JSON StatusNotFound (errorBody "Todo not found" "todo not found"), w1)
        ∧ TodoHandler.updateResponse c (.error .ErrTodoNotFound, w1)
            = (c.JSON StatusNotFound (errorBody "Todo not found" "todo not found"), w1)
        ∧ TodoHandler.deleteResponse c (.error .ErrTodoNotFound, w1)
            = (c.JSON StatusNotFound (errorBody "Todo not found" "todo not found"), w1)
        ∧ TodoHandler.getByIDResponse c w1 (.error .ErrUnauthorizedAccess)
            = (c.JSON StatusForbidden
                (errorBody "You don't have permission to access this todo"
                  "unauthorized access to todo"), w1)
        ∧ TodoHandler.updateResponse c (.error .ErrUnauthorizedAccess, w1)
            = (c.JSON StatusForbidden
                (errorBody "You don't have permission to update this todo"
                  "unauthorized access to todo"), w1)
        ∧ TodoHandler.deleteResponse c (.error .ErrUnauthorizedAccess, w1)
            = (c.JSON StatusForbidden
                (errorBody "You don't have permission to delete this todo"
                  "unauthorized access to todo"), w1)
        ∧ TodoHandler.updateResponse c (.error .ErrInvalidStatus, w1)
            = (c.JSON StatusBadRequest
                (errorBody "invalid status value" "invalid status value"), w1)
        ∧ TodoHandler.updateResponse c (.error .ErrInvalidPriority, w1)
            = (c.JSON StatusBadRequest
                (errorBody "invalid priority value" "invalid priority value"), w1)
        ∧ TodoHandler.createResponse c (.error .ErrInvalidStatus, w1)
            = (c.JSON StatusBadRequest
                (errorBody "invalid status value" "invalid status value"), w1)
        ∧ TodoHandler.createResponse c (.error .ErrInvalidPriority, w1)
            = (c.JSON StatusBadRequest
                (errorBody "invalid priority value" "invalid priority value"), w1))
    ∧ (∀ (err : Error) (w1 : World), err.Is .ErrTodoNotFound = false →
        err.Is .ErrUnauthorizedAccess = false →
        TodoHandler.getByIDResponse c w1 (.error err)
            = (c.JSON StatusInternalServerError
                (errorBody "Failed to retrieve todo" err.message), w1)
        ∧ TodoHandler.deleteResponse c (.error err, w1)
            = (c.JSON StatusInternalServerError
                (errorBody "Failed to delete todo" err.message), w1))
    ∧ (∀ (err : Error) (w1 : World), err.Is .ErrInvalidStatus = false →
        err.Is .ErrInvalidPriority = false →
        TodoHandler.createResponse c (.error err, w1)
            = (c.JSON StatusInternalServerError
                (errorBody "Failed to create todo" err.message), w1))
    ∧ (∀ (req : UpdateTodoRequest) (err : Error) (w1 : World),
        TodoService.UpdateTodo amb w todoID userID req = (.error err, w1) →
        err ≠ .ErrTodoNotFound → err ≠ .ErrUnauthorizedAccess → err ≠ .ErrInvalidStatus →
        err ≠ .ErrInvalidPriority →
        TodoHandler.updateResponse c (.error err, w1)
            = (c.JSON StatusInternalServerError
                (errorBody "Failed to update todo" err.message), w1)) := by
  refine ⟨?_, ?_, ?_, ?_, ?_, ?_, ?_, ?_⟩
  · simp only [TodoHandler.GetByID, hctx, hid]
    cases TodoService.GetTodoByID w todoID userID <;> rfl
  · intro req hbind
    simp only [TodoHandler.Update, hctx, hid, hbind]
    rcases TodoService.UpdateTodo amb w todoID userID req with ⟨r, w1⟩
    cases r <;> rfl
  · simp only [TodoHandler.Delete, hctx, hid]
    rcases TodoService.DeleteTodo amb w todoID userID with ⟨r, w1⟩
    cases r <;> rfl
  · intro req hbind
    simp only [TodoHandler.Create, hctx, hbind]
    rcases TodoService.CreateTodo amb w userID req with ⟨r, w1⟩
    cases r <;> rfl
  · intro w1
    exact ⟨rfl, rfl, rfl, rfl, rfl, rfl, rfl, rfl, rfl, rfl⟩
  · intro err w1 h1 h2
    constructor
    · simp [TodoHandler.getByIDResponse, h1, h2]
    · simp [TodoHandler.deleteResponse, h1, h2]
  · intro err w1 h1 h2
    simp [TodoHandler.createResponse, h1, h2]
  · intro req err w1 hres n1 n2 n3 n4
    rcases UpdateTodo_errors amb w w1 todoID userID req err hres with
      h | h | h | h | ⟨msg, h⟩
    · exact absurd h n1
    · exact absurd h n2
    · exact absurd h n3
    · exact absurd h n4
    · rw [h]
      simp [TodoHandler.updateResponse, Error.Is]

/-- Witness for C28: account 2 asks for todo 1 of account 1 in the sample
store and is answered 403 by GetByID and by Delete; the invalid-date error is
answered 500 by GetByID, and the update of todo 1 by its owner with a due date
that does not parse returns that error and is answered 500. -/
theorem todo_handlers_map_errors_witness :
    TodoHandler.GetByID sampleDeps sampleAmbient todoContext sampleWorld
        = (todoContext.JSON StatusForbidden
            (errorBody "You don't have permission to access this todo"
              "unauthorized access to todo"), sampleWorld)
    ∧ TodoHandler.Delete sampleDeps sampleAmbient todoContext sampleWorld
        = (todoContext.JSON StatusForbidden
            (errorBody "You don't have permission to delete this todo"
              "unauthorized access to todo"), sampleWorld)
    ∧ TodoHandler.getByIDResponse todoContext sampleWorld (.error errInvalidDate)
        = (todoContext.JSON StatusInternalServerError
            (errorBody "Failed to retrieve todo" "invalid date format, use YYYY-MM-DD"),
           sampleWorld)
    ∧ TodoService.UpdateTodo sampleAmbient sampleWorld 1 1
          { Title := none, Description := none, Status := none, Priority := none
            DueDate := some "2024-02-30" }
        = (.error errInvalidDate, sampleWorld)
    ∧ TodoHandler.updateResponse ownerContext (.error errInvalidDate, sampleWorld)
        = (ownerContext.JSON StatusInternalServerError
            (errorBody "Failed to update todo" "invalid date format, use YYYY-MM-DD"),
           sampleWorld) :=
  have h := todo_handlers_map_errors sampleDeps sampleAmbient todoContext sampleWorld 2 1
    rfl rfl
  ⟨h.1, h.2.2.1, (h.2.2.2.2.2.1 errInvalidDate sampleWorld rfl rfl).1, rfl,
    (todo_handlers_map_errors sampleDeps sampleAmbient ownerContext sampleWorld 1 1
      rfl rfl).2.2.2.2.2.2.2
      { Title := none, Description := none, Status := none, Priority := none
        DueDate := some "2024-02-30" }
      errInvalidDate sampleWorld rfl (by decide) (by decide) (by decide) (by decide)⟩

/-! ## What the account responses show -/

/-- The row returned by a successful `Save` carries the username, email and full
name of the row handed in. -/
theorem UserRepository.Update_ok_texts (now : Time) (w w1 : World) (user saved : User)
    (h : UserRepository.Update now w user = (.ok saved, w1)) :
    saved.Username = user.Username ∧ saved.Email = user.Email
      ∧ saved.Fullname = user.Fullname := by
  unfold UserRepository.Update at h
  split at h
  · rcases UserRepository.Create_cases now w user with ⟨e, hc⟩ | ⟨row, _, _, hc⟩
    · rw [hc] at h
      cases h
    · rw [hc] at h
      cases h
      exact ⟨rfl, rfl, rfl⟩
  · split at h
    · cases h
    · simp only at h
      split at h
      · cases h
        exact ⟨rfl, rfl, rfl⟩
      · split at h
        · cases h
          exact ⟨rfl, rfl, rfl⟩
        · cases h
          exact ⟨rfl, rfl, rfl⟩

/-- With the method the program passes, the parameterised login is `Login`. -/
theorem LoginWith_ES256 (J : JWT) (H : Hasher) (environ : Environ) (amb : Ambient) (w : World)
    (req : LoginRequest) :
    AuthService.LoginWith .ES256 J H environ amb w req
      = AuthService.Login J H environ amb w req := rfl

/-- C30: the account representation depends only on the id, username, email,
full name and the two timestamps of the account: two accounts that agree on
these yield the same representation, and replacing the password hash, the
reset token and the reset expiry of an account by any other values leaves its
representation as it was. A successful Register returns the fresh id, the
username, email and full name of the request and the time of the call; a
successful GetProfile returns the representation of a stored row; a successful
UpdateProfile returns the representation of the row that `Save` returned, with
the username of the stored row and the email and full name after the update;
and the response that Login builds once a token is issued (for any signing
method in place of ES256, with which no token is issued) holds the
representation of the stored row found by the username. No response carries a
password hash or a reset token. -/
theorem responses_hide_secrets (J : JWT) (H : Hasher) (environ : Environ) (amb : Ambient)
    (w : World) :
    (∀ u v : User, u.ID = v.ID → u.Username = v.Username → u.Email = v.Email →
        u.Fullname = v.Fullname → u.CreatedAt = v.CreatedAt → u.UpdatedAt = v.UpdatedAt →
        AuthService.toUserResponse u = AuthService.toUserResponse v)
    ∧ (∀ (u : User) (password token : String) (expiry : Option Time),
        AuthService.toUserResponse
            { u with Password := password, ResetPasswordToken := token
                     ResetPasswordExpiry := expiry }
          = AuthService.toUserResponse u)
    ∧ (∀ req resp w1, AuthService.Register H amb w req = (.ok resp, w1) →
        resp = { ID := nextID (w.users.map User.ID), Username := req.Username
                 Email := req.Email, FullName := req.FullName, CreatedAt := amb.now
                 UpdatedAt := amb.now })
    ∧ (∀ method req resp, AuthService.LoginWith method J H environ amb w req = .ok resp →
        ∃ u ∈ w.users, u.Username = req.Username ∧ resp.User = AuthService.toUserResponse u)
    ∧ (∀ req, AuthService.LoginWith .ES256 J H environ amb w req
        = AuthService.Login J H environ amb w req)
    ∧ (∀ userID resp, AuthService.GetProfile w userID = .ok resp →
        ∃ u ∈ w.users, resp = AuthService.toUserResponse u)
    ∧ (∀ userID req resp w1, AuthService.UpdateProfile amb w userID req = (.ok resp, w1) →
        ∃ user ∈ w.users, ∃ r,
          UserRepository.Update amb.now w
              { user with
                Email := if req.Email = "" then user.Email else req.Email
                Fullname := if req.FullName = "" then user.Fullname else req.FullName }
            = (.ok r, w1)
          ∧ resp = AuthService.toUserResponse r
          ∧ resp.Username = user.Username
          ∧ resp.Email = (if req.Email = "" then user.Email else req.Email)
          ∧ resp.FullName = (if req.FullName = "" then user.Fullname else req.FullName)) := by
  refine ⟨?_, ?_, ?_, ?_, ?_, ?_, ?_⟩
  · intro u v h1 h2 h3 h4 h5 h6
    simp [AuthService.toUserResponse, h1, h2, h3, h4, h5, h6]
  · intro u password token expiry
    rfl
  · intro req resp w1 h
    rcases Register_outcome H amb w req with ⟨err, he⟩ | ⟨hashed, row, _, _, hok⟩
    · rw [he] at h
      cases h
    · rw [hok] at h
      cases h
      rfl
  · intro method req resp h
    rcases FindByUsername_cases w req.Username with hnone | ⟨user, hfind, hmem, _, hname⟩
    · simp [AuthService.LoginWith, hnone] at h
    · simp only [AuthService.LoginWith, hfind] at h
      split at h
      · cases h
      · split at h
        · cases h
        · cases h
          exact ⟨user, hmem, hname, rfl⟩
  · intro req
    rfl
  · intro userID resp h
    rcases FindByID_user_cases w userID with hnone | ⟨user, hfind, hmem, _, _⟩
    · simp [AuthService.GetProfile, hnone] at h
    · simp only [AuthService.GetProfile, hfind] at h
      exact ⟨user, hmem, (Except.ok.inj h).symm⟩
  · intro userID req resp w1 h
    rcases FindByID_user_cases w userID with hnone | ⟨user, hfind, hmem, _, _⟩
    · simp [AuthService.UpdateProfile, hnone] at h
    · obtain ⟨r, hupd, hresp⟩ := UpdateProfile_ok_inv amb w w1 userID req resp user hfind h
      have ht := UserRepository.Update_ok_texts _ _ _ _ _ hupd
      refine ⟨user, hmem, r, hupd, hresp, ?_, ?_, ?_⟩
      · rw [hresp]
        exact ht.1
      · rw [hresp]
        exact ht.2.1
      · rw [hresp]
        exact ht.2.2

/-- Witness for C30: the registration of the scenario on the empty store, the
login of account 1 in the sample store with HS256 as the signing method, and
the profile of account 1 return the representation of the account, and that
representation is the same for the account with a pending reset, which differs
in reset token and expiry only. -/
theorem responses_hide_secrets_witness :
    AuthService.toUserResponse sampleUser
        = { ID := nextID (emptyWorld.users.map User.ID), Username := sampleRegister.Username
            Email := sampleRegister.Email, FullName := sampleRegister.FullName
            CreatedAt := sampleAmbient.now, UpdatedAt := sampleAmbient.now }
    ∧ AuthService.LoginWith .HS256 sampleJWT sampleHasher sampleEnviron sampleAmbient
          sampleWorld { Username := "u1u", Password := "pw123456" }
        = .ok { Token := "u1u.your_super_secret_key"
                User := AuthService.toUserResponse sampleUser }
    ∧ (∃ u ∈ sampleWorld.users, u.Username = "u1u"
        ∧ AuthService.toUserResponse sampleUser = AuthService.toUserResponse u)
    ∧ (∃ u ∈ sampleWorld.users,
        AuthService.toUserResponse sampleUser = AuthService.toUserResponse u)
    ∧ AuthService.GetProfile sampleWorld 1 = .ok (AuthService.toUserResponse sampleUser)
    ∧ AuthService.GetProfile resetWorld 1 = AuthService.GetProfile sampleWorld 1
    ∧ AuthService.toUserResponse resetUser = AuthService.toUserResponse sampleUser :=
  ⟨(responses_hide_secrets sampleJWT sampleHasher sampleEnviron sampleAmbient
      emptyWorld).2.2.1 sampleRegister (AuthService.toUserResponse sampleUser)
      registeredWorld rfl,
   rfl,
   (responses_hide_secrets sampleJWT sampleHasher sampleEnviron sampleAmbient
      sampleWorld).2.2.2.1 .HS256 { Username := "u1u", Password := "pw123456" }
      { Token := "u1u.your_super_secret_key", User := AuthService.toUserResponse sampleUser }
      rfl,
   (responses_hide_secrets sampleJWT sampleHasher sampleEnviron sampleAmbient
      sampleWorld).2.2.2.2.2.1 1 (AuthService.toUserResponse sampleUser) rfl,
   rfl, rfl,
   (responses_hide_secrets sampleJWT sampleHasher sampleEnviron sampleAmbient
      sampleWorld).1 resetUser sampleUser rfl rfl rfl rfl rfl rfl⟩

end RestApi
